import Mathlib

/-!
# Phishing detection extension: classifier, model store and signal extraction

A shallow embedding of `src/background.js` and of `extractFeatures` in
`src/content.js`.

Numbers.  JavaScript numbers are idealised as the elements of a linearly
ordered field `α`: arithmetic is exact, there is no rounding, no overflow and
no `Infinity`/`NaN`.  `Math.exp` is a parameter `exp : α → α`; the theorems
instantiate `α := ℝ` and `exp := Real.exp`, and every definition is
executable at `α := ℚ`.  The properties that depend on overflow (the ranges of
the Prediction and the verdict for a non-negative DNS signal) are stated on a
second model of the classifier, `IEEE.predictPhishing`, whose numbers are
`JsNumber`: finite values, the two infinities and `NaN`.

State.  The service worker's global `modelCache`, the contents of
`chrome.storage.local`, the registered alarms and a trace of the external
calls that were issued make up `State`.  The `async` functions run one after
another; each takes the outcomes of its external calls (network, storage,
clock) as an explicit environment record and returns its result together with
the next state.  A thrown `Error` is `Except.error` carrying its message.
-/

namespace PhishingDetection

/-! ## Data model -/

/-- The model document `{ model_type, feature_importances, n_features, version }`.
A field that is absent from the document (reads as `undefined`) is `none`; a field
that is present has the type the interface gives it.  A body that is not an object
is the document with every field absent: reading its fields gives `undefined`, or,
for `null`, throws into the same `catch` block as the failed validation. -/
structure Model (α : Type) where
  model_type : Option String
  feature_importances : Option (List α)
  n_features : Option Nat
  version : Option String
  deriving DecidableEq, Repr

/-- The object returned by `predictPhishing`. -/
structure Prediction (α : Type) where
  isPhishing : Bool
  riskScore : α
  confidence : α
  threshold : α
  legitimatePercentage : α
  deriving DecidableEq, Repr

/-- The constant `CONFIG.PHISHING_THRESHOLD`. -/
def PHISHING_THRESHOLD {α : Type} [LinearOrderedField α] : α := 0.5

/-- The constant `CONFIG.UPDATE_CHECK_INTERVAL`, in minutes. -/
def UPDATE_CHECK_INTERVAL : Nat := 60

/-! ## Classifier (`predictPhishing`) -/

section Classifier

variable {α : Type} [LinearOrderedField α]

/-- The expression `featureWeights[i] || 0`: an index outside the array reads
as `undefined`, which is falsy, and so is the number `0`. -/
def weightOrZero (w : Option α) : α :=
  match w with
  | some x => if x = 0 then 0 else x
  | none => 0

/-- One iteration of the `for` loop of `predictPhishing`, at index `i`, on the
accumulator `(score, totalWeight)`. -/
def accumulateStep (featureArray featureWeights : List α) (acc : α × α) (i : Nat) : α × α :=
  let weight := weightOrZero featureWeights[i]?
  match featureArray[i]? with
  | some featureValue =>
    if featureValue > 0 then (acc.1 + weight * featureValue, acc.2 + |weight|)
    else (acc.1, acc.2 + |weight|)
  | none => (acc.1, acc.2 + |weight|)

/-- The loop `for (let i = 0; i < Math.min(featureArray.length, featureWeights.length); i++)`
started from `score = 0`, `totalWeight = 0`; returns `(score, totalWeight)`. -/
def accumulate (featureArray featureWeights : List α) : α × α :=
  (List.range (min featureArray.length featureWeights.length)).foldl
    (accumulateStep featureArray featureWeights) (0, 0)

/-- The test `dnsAnalysis < 0` on `featureArray[featureArray.length - 1]`; for an
empty array the element is `undefined` and the comparison is false. -/
def dnsIsNegative (featureArray : List α) : Bool :=
  match featureArray.getLast? with
  | some dnsAnalysis => decide (dnsAnalysis < 0)
  | none => false

/-- The function `predictPhishing(featureArray)`, reading the global `modelCache`. -/
def predictPhishing (exp : α → α) (modelCache : Option (Model α)) (featureArray : List α) :
    Except String (Prediction α) :=
  match modelCache with
  | none => .error "Model not loaded"
  | some model =>
    let featureWeights := model.feature_importances.getD []
    let acc := accumulate featureArray featureWeights
    let score := acc.1
    let totalWeight := acc.2
    let normalizedScore := if totalWeight > 0 then |score| / totalWeight else 0
    let riskScore := 1 / (1 + exp (-normalizedScore * 5))
    let threshold :=
      if dnsIsNegative featureArray then PHISHING_THRESHOLD + 0.1 else PHISHING_THRESHOLD
    let isPhishing := decide (riskScore ≥ threshold)
    let confidence := max (|riskScore - 0.5| * 2) 0.5
    .ok { isPhishing := isPhishing
          riskScore := riskScore
          confidence := confidence
          threshold := threshold
          legitimatePercentage := max 0 (min 100 ((1 - riskScore) * 100)) }

/-! ### The specification's formula for the risk score -/

/-- The sum `S` of the specification: `w[i] * f[i]` over the indices
`i < min(L, W)` for which `f[i] > 0`. -/
def specScore (f w : List α) : α :=
  ∑ i in Finset.range (min f.length w.length),
    if f.getD i 0 > 0 then w.getD i 0 * f.getD i 0 else 0

/-- The sum `T` of the specification: `|w[i]|` over all indices `i < min(L, W)`. -/
def specTotalWeight (f w : List α) : α :=
  ∑ i in Finset.range (min f.length w.length), |w.getD i 0|

/-- The number `n` of the specification: `|S| / T` if `T > 0`, and `0` otherwise. -/
def specNormalizedScore (f w : List α) : α :=
  if specTotalWeight f w > 0 then |specScore f w| / specTotalWeight f w else 0

/-- The Prediction that the tail of `predictPhishing` (from the sigmoid on)
builds out of a normalized score `n` and the outcome of the test `dnsAnalysis < 0`. -/
def predictionOfScore (exp : α → α) (n : α) (dnsNegative : Bool) : Prediction α :=
  let riskScore := 1 / (1 + exp (-n * 5))
  let threshold := if dnsNegative then PHISHING_THRESHOLD + 0.1 else PHISHING_THRESHOLD
  { isPhishing := decide (riskScore ≥ threshold)
    riskScore := riskScore
    confidence := max (|riskScore - 0.5| * 2) 0.5
    threshold := threshold
    legitimatePercentage := max 0 (min 100 ((1 - riskScore) * 100)) }

/-- The feature array of the end-to-end scenario: IP Address = 1 and the other
seventeen signals, DNS Analysis included, equal to -1. -/
def scenarioFeatures : List α :=
  [1, -1, -1, -1, -1, -1, -1, -1, -1, -1, -1, -1, -1, -1, -1, -1, -1, -1]

/-- The weights of the end-to-end scenario: eighteen times 1. -/
def scenarioWeights : List α :=
  [1, 1, 1, 1, 1, 1, 1, 1, 1, 1, 1, 1, 1, 1, 1, 1, 1, 1]

end Classifier

/-! ## Messages, storage and state -/

/-- The extraction message: the object sent by the content script, as its
list of `(key, string value)` entries. -/
abbrev FeatureMessage := List (String × String)

/-- The `sender` of a message from a content script, which always carries a tab:
`sender.tab.id` and `sender.tab.url`. -/
structure Sender where
  tabId : Nat
  url : String
  deriving DecidableEq, Repr

/-- The value stored under `prediction_<tab id>`:
`{ ...prediction, features, url, timestamp }`. -/
structure StoredPrediction (α : Type) where
  prediction : Prediction α
  features : FeatureMessage
  url : String
  timestamp : Int
  deriving DecidableEq, Repr

/-- The argument of one `chrome.storage.local.set` call.  A key that is not in
the object, or whose value is `undefined`, is `none`. -/
structure StorageItems (α : Type) where
  cache : Option (Model α) := none
  modelSha : Option String := none
  modelLastUpdate : Option Int := none
  modelLastCheck : Option Int := none
  prediction : Option (Nat × StoredPrediction α) := none
  deriving DecidableEq, Repr

/-- The contents of `chrome.storage.local` under the keys this program uses. -/
structure Storage (α : Type) where
  cache : Option (Model α)
  modelSha : Option String
  modelLastUpdate : Option Int
  modelLastCheck : Option Int
  predictions : List (Nat × StoredPrediction α)
  deriving DecidableEq, Repr

/-- The value of one key after a `set`: the new value when the call carries one,
the old value otherwise (a key given as `undefined` is not written). -/
def writeKey {β : Type} (new old : Option β) : Option β :=
  match new with
  | some v => some v
  | none => old

/-- The effect of a successful `chrome.storage.local.set(items)` on the store. -/
def Storage.set {α : Type} (st : Storage α) (items : StorageItems α) : Storage α :=
  { cache := writeKey items.cache st.cache
    modelSha := writeKey items.modelSha st.modelSha
    modelLastUpdate := writeKey items.modelLastUpdate st.modelLastUpdate
    modelLastCheck := writeKey items.modelLastCheck st.modelLastCheck
    predictions :=
      match items.prediction with
      | some (tabId, v) => (tabId, v) :: st.predictions.filter (fun e => e.1 ≠ tabId)
      | none => st.predictions }

/-- The message of `chrome.tabs.sendMessage` in `handleFeatureExtraction`:
`{ action: 'alert_user', message, prediction }`.  The text of `message` is a
rendering of `prediction.riskScore` and `prediction.confidence` and is not kept. -/
structure AlertMessage (α : Type) where
  action : String
  prediction : Prediction α
  deriving DecidableEq, Repr

/-- A registered alarm: `chrome.alarms.create(name, { delayInMinutes, periodInMinutes })`. -/
structure Alarm where
  name : String
  delayInMinutes : Nat
  periodInMinutes : Nat
  deriving DecidableEq, Repr

/-- The calls to external collaborators, recorded in the order they are issued. -/
inductive Effect (α : Type) where
  | fetchModel
  | fetchMetadata
  | storageGet (keys : List String)
  | storageSet (items : StorageItems α)
  | tabsSendMessage (tabId : Nat) (message : AlertMessage α)
  | alarmsClear (name : String)
  | alarmsCreate (alarm : Alarm)
  deriving DecidableEq, Repr

/-- The state of the service worker and of its collaborators. -/
structure State (α : Type) where
  modelCache : Option (Model α)
  storage : Storage α
  alarms : List Alarm
  trace : List (Effect α)
  deriving DecidableEq, Repr

/-- Record one external call. -/
def State.emit {α : Type} (s : State α) (e : Effect α) : State α :=
  { s with trace := s.trace ++ [e] }

/-! ## Model store (`loadModel`, `getModelMetadata`, `updateModel`) -/

/-- The outcome of `fetch(url)` followed by `response.json()`. -/
inductive FetchResult (β : Type) where
  /-- The promise of `fetch` rejects. -/
  | networkError
  /-- The response arrives with `response.ok` false. -/
  | httpError (status : Nat)
  /-- The promise of `response.json()` rejects. -/
  | invalidJson
  /-- The response is ok and its body parses to `body`. -/
  | ok (body : β)
  deriving DecidableEq, Repr

/-- One record of the revision list: `sha` is `data[i].sha` and `time` is
`new Date(data[i].commit.author.date).getTime()`, with `none` for `NaN`. -/
structure RevisionRecord where
  sha : Option String
  time : Option Int
  deriving DecidableEq, Repr

/-- The object returned by `getModelMetadata`; `{}` has both fields `none`. -/
structure Metadata where
  lastCommitSha : Option String := none
  lastUpdateTime : Option Int := none
  deriving DecidableEq, Repr

/-- The test `!modelData.model_type`: `undefined` and the empty string are falsy. -/
def modelTypeFalsy (modelType : Option String) : Bool :=
  match modelType with
  | some t => t = ""
  | none => true

/-- The test `!modelData.feature_importances`: `undefined` is falsy, an array
(also the empty one) is truthy. -/
def featureImportancesFalsy {α : Type} (w : Option (List α)) : Bool :=
  match w with
  | some _ => false
  | none => true

/-- The expression `metadata.lastUpdateTime || Date.now()`: `undefined`, `NaN` and
`0` are falsy. -/
def timeOrNow (lastUpdateTime : Option Int) (now : Int) : Int :=
  match lastUpdateTime with
  | some t => if t = 0 then now else t
  | none => now

/-- The function `loadModel()`; `getOk` tells whether the promise of
`chrome.storage.local.get(['cache'])` resolves. -/
def loadModel {α : Type} (getOk : Bool) (s : State α) : Bool × State α :=
  let s := s.emit (.storageGet ["cache"])
  if getOk then
    match s.storage.cache with
    | some cache => (true, { s with modelCache := some cache })
    | none => (false, s)
  else (false, s)

/-- The function `getModelMetadata()`. -/
def getModelMetadata {α : Type} (metadataFetch : FetchResult (List RevisionRecord))
    (s : State α) : Metadata × State α :=
  let s := s.emit .fetchMetadata
  match metadataFetch with
  | .networkError => ({}, s)
  | .httpError _ => ({}, s)
  | .invalidJson => ({}, s)
  | .ok data =>
    match data with
    | first :: _ => ({ lastCommitSha := first.sha, lastUpdateTime := first.time }, s)
    | [] => ({}, s)

/-- The outcomes of the external calls of one `updateModel()` run. -/
structure UpdateEnv (α : Type) where
  /-- Outcome of `fetch(CONFIG.MODEL_URL)` and `response.json()`. -/
  modelFetch : FetchResult (Model α)
  /-- Outcome of `fetch(CONFIG.MODEL_METADATA_URL)` and `response.json()`. -/
  metadataFetch : FetchResult (List RevisionRecord)
  /-- Value of `Date.now()` in `metadata.lastUpdateTime || Date.now()`. -/
  nowUpdate : Int
  /-- Value of `Date.now()` for `modelLastCheck`. -/
  nowCheck : Int
  /-- Whether the promise of `chrome.storage.local.set` resolves. -/
  setOk : Bool
  /-- Whether the promise of `chrome.storage.local.get` in `loadModel` resolves. -/
  getOk : Bool
  deriving DecidableEq, Repr

/-- The `catch` block of `updateModel`. -/
def updateModelCatch {α : Type} (env : UpdateEnv α) (s : State α) :
    Except String Bool × State α :=
  let r := loadModel env.getOk s
  if !r.1 then (.error "No model available and update failed", r.2)
  else (.ok false, r.2)

/-- The object passed to `chrome.storage.local.set` in `updateModel`. -/
def updateItems {α : Type} (env : UpdateEnv α) (modelData : Model α) (metadata : Metadata) :
    StorageItems α :=
  { cache := some modelData
    modelSha := metadata.lastCommitSha
    modelLastUpdate := some (timeOrNow metadata.lastUpdateTime env.nowUpdate)
    modelLastCheck := some env.nowCheck }

/-- The function `updateModel()`. -/
def updateModel {α : Type} (env : UpdateEnv α) (s : State α) : Except String Bool × State α :=
  let s := s.emit .fetchModel
  match env.modelFetch with
  | .networkError => updateModelCatch env s
  | .httpError _ => updateModelCatch env s
  | .invalidJson => updateModelCatch env s
  | .ok modelData =>
    if modelTypeFalsy modelData.model_type || featureImportancesFalsy modelData.feature_importances
    then updateModelCatch env s
    else
      let r := getModelMetadata env.metadataFetch s
      let items := updateItems env modelData r.1
      let s := r.2.emit (.storageSet items)
      if env.setOk then
        (.ok true, { s with storage := s.storage.set items, modelCache := some modelData })
      else updateModelCatch env s

/-! ## Feature messages (`convertFeaturesToArray`, `handleFeatureExtraction`) -/

/-- The characters that `parseFloat` skips at the start of its argument: the
white space and line terminator code points of ECMAScript. -/
def isStrWhiteSpaceChar (c : Char) : Bool :=
  let n := c.toNat
  n = 9 || n = 10 || n = 11 || n = 12 || n = 13 || n = 32 || n = 160 || n = 5760 ||
    (8192 ≤ n && n ≤ 8202) || n = 8232 || n = 8233 || n = 8239 || n = 8287 ||
    n = 12288 || n = 65279

/-- The number written by a string of decimal digits. -/
def digitsValue (digits : List Char) : Nat :=
  digits.foldl (fun n c => 10 * n + (c.toNat - 48)) 0

/-- The exponent denoted by what follows the mantissa: `e` or `E`, an optional
sign and at least one digit; anything else is not part of the number. -/
def exponentValue (rest : List Char) : Int :=
  match rest with
  | c :: r =>
    if c = 'e' || c = 'E' then
      match r with
      | '-' :: ds =>
        if (ds.takeWhile Char.isDigit).isEmpty then 0
        else -(digitsValue (ds.takeWhile Char.isDigit) : Int)
      | '+' :: ds => (digitsValue (ds.takeWhile Char.isDigit) : Int)
      | ds => (digitsValue (ds.takeWhile Char.isDigit) : Int)
    else 0
  | [] => 0

/-- The number denoted by the unsigned decimal literal that starts `cs`, if one
does: digits, an optional `.` and digits, an optional exponent. -/
def unsignedDecimalValue (cs : List Char) : Option ℚ :=
  let intDigits := cs.takeWhile Char.isDigit
  let afterInt := cs.dropWhile Char.isDigit
  let fracDigits :=
    match afterInt with
    | '.' :: r => r.takeWhile Char.isDigit
    | _ => []
  let rest :=
    match afterInt with
    | '.' :: r => r.dropWhile Char.isDigit
    | _ => afterInt
  if intDigits.isEmpty && fracDigits.isEmpty then none
  else
    some ((digitsValue (intDigits ++ fracDigits) : ℚ) / 10 ^ fracDigits.length
      * 10 ^ exponentValue rest)

/-- The builtin `parseFloat` on strings, with `none` for `NaN`: leading white
space is skipped and the longest prefix that is a signed decimal literal is read.
The literal `Infinity` has no counterpart among the idealised numbers and reads
as `none`. -/
def parseFloat (value : String) : Option ℚ :=
  match value.toList.dropWhile isStrWhiteSpaceChar with
  | '-' :: cs => (unsignedDecimalValue cs).map (fun q => -q)
  | '+' :: cs => unsignedDecimalValue cs
  | cs => unsignedDecimalValue cs

/-- The array `featureOrder` of `convertFeaturesToArray`. -/
def featureOrder : List String :=
  ["IP Address", "URL Length", "Short URL", "@", "Redirecting //",
   "Prefix/Suffix", "Sub Domains", "HTTPS in Domain", "SSL Certificate",
   "Request URL", "Anchor", "Script and Link", "SFH", "mailto",
   "iFrames", "Favicon", "Port", "DNS Analysis"]

/-- The function `convertFeaturesToArray(features)`: an absent key gives `0`, and
`parseFloat(value) || 0` turns `NaN` into `0`. -/
def convertFeaturesToArray {α : Type} [LinearOrderedField α] (features : FeatureMessage) :
    List α :=
  featureOrder.map fun featureName =>
    match features.lookup featureName with
    | none => 0
    | some value =>
      match parseFloat value with
      | some q => if q = 0 then 0 else (q : α)
      | none => 0

/-- The object returned by `handleFeatureExtraction`: `{ success: true, prediction }`
or `{ success: false, error }`. -/
inductive Response (α : Type) where
  | success (prediction : Prediction α)
  | failure (error : String)
  deriving DecidableEq, Repr

/-- The outcomes of the external calls of one `handleFeatureExtraction` run. -/
structure FeatureEnv where
  /-- Whether the promise of `chrome.storage.local.get` in `loadModel` resolves. -/
  getOk : Bool
  /-- Whether the promise of `chrome.tabs.sendMessage` resolves. -/
  sendOk : Bool
  /-- The message of the error when `chrome.storage.local.set` rejects, `none` when
  it resolves. -/
  setError : Option String
  /-- Value of `Date.now()` for the stored `timestamp`. -/
  now : Int
  deriving DecidableEq, Repr

/-- The function `handleFeatureExtraction(features, sender)`. -/
def handleFeatureExtraction {α : Type} [LinearOrderedField α] (exp : α → α) (env : FeatureEnv)
    (features : FeatureMessage) (sender : Sender) (s : State α) : Response α × State α :=
  let s := if s.modelCache.isNone then (loadModel env.getOk s).2 else s
  if s.modelCache.isNone then (.failure "Model not available", s)
  else
    let featureArray : List α := convertFeaturesToArray features
    match predictPhishing exp s.modelCache featureArray with
    | .error message => (.failure message, s)
    | .ok prediction =>
      let s :=
        if prediction.isPhishing then
          let sent := s.emit (.tabsSendMessage sender.tabId
            { action := "alert_user", prediction := prediction })
          -- a rejected send is caught and logged
          if env.sendOk then sent else sent
        else s
      let items : StorageItems α :=
        { prediction := some (sender.tabId,
            { prediction := prediction, features := features, url := sender.url,
              timestamp := env.now }) }
      let s := s.emit (.storageSet items)
      match env.setError with
      | none => (.success prediction, { s with storage := s.storage.set items })
      | some message => (.failure message, s)

/-! ## Vocabulary of the specification for the model store -/

/-- The update fails before anything is written: the model fetch fails (network
error, non-ok response, unreadable body) or the fetched document fails the
validation of `updateModel`. -/
def UpdateEnv.fetchOrValidationFails {α : Type} (env : UpdateEnv α) : Bool :=
  match env.modelFetch with
  | .ok modelData =>
    modelTypeFalsy modelData.model_type || featureImportancesFalsy modelData.feature_importances
  | _ => true

/-- The most recent revision record delivered by the metadata endpoint: the first
record of the list, when the fetch succeeds and the list is not empty. -/
def latestRevision (metadataFetch : FetchResult (List RevisionRecord)) :
    Option RevisionRecord :=
  match metadataFetch with
  | .ok (first :: _) => some first
  | _ => none

/-- A model document used in examples. -/
def exampleModel : Model ℚ :=
  { model_type := some "CatBoostClassifier"
    feature_importances := some [3, 1, 2]
    n_features := some 3
    version := some "1.0" }

/-- A store that holds `exampleModel` with its metadata. -/
def exampleStorage : Storage ℚ :=
  { cache := some exampleModel
    modelSha := some "abc1234"
    modelLastUpdate := some 1000
    modelLastCheck := some 2000
    predictions := [] }

/-- A store that holds nothing. -/
def emptyStorage {α : Type} : Storage α :=
  { cache := none, modelSha := none, modelLastUpdate := none, modelLastCheck := none,
    predictions := [] }

/-- A state with no current model, over a given store. -/
def freshState {α : Type} (storage : Storage α) : State α :=
  { modelCache := none, storage := storage, alarms := [], trace := [] }

/-- An environment in which the model fetch is lost to a network error and storage
answers as told. -/
def networkDownEnv (getOk : Bool) : UpdateEnv ℚ :=
  { modelFetch := .networkError, metadataFetch := .networkError,
    nowUpdate := 5000, nowCheck := 5001, setOk := true, getOk := getOk }

/-- An environment that delivers the document `modelData`, one revision record
`(sha "def5678", time 4000)`, and in which storage answers as told. -/
def deliveringEnv (modelData : Model ℚ) (setOk : Bool) : UpdateEnv ℚ :=
  { modelFetch := .ok modelData
    metadataFetch := .ok [{ sha := some "def5678", time := some 4000 }]
    nowUpdate := 5000, nowCheck := 5001, setOk := setOk, getOk := true }

/-! ## Staleness check (`checkForModelUpdate`) -/

/-- The test `!sha` on a revision id: `undefined` and the empty string are falsy. -/
def shaFalsy (sha : Option String) : Bool :=
  match sha with
  | some id => id = ""
  | none => true

/-- The expression `result.modelLastCheck || 0`. -/
def lastCheckOrZero (modelLastCheck : Option Int) : Int :=
  match modelLastCheck with
  | some t => if t = 0 then 0 else t
  | none => 0

/-- The outcomes of the external calls of one `checkForModelUpdate()` run. -/
structure CheckEnv where
  /-- Whether the promise of `chrome.storage.local.get(['modelSha', 'modelLastCheck'])`
  resolves. -/
  getOk : Bool
  /-- Value of `Date.now()` in the computation of `hourAgo`. -/
  nowStart : Int
  /-- Outcome of `fetch(CONFIG.MODEL_METADATA_URL)` and `response.json()`. -/
  metadataFetch : FetchResult (List RevisionRecord)
  /-- Value of `Date.now()` for the new `modelLastCheck`. -/
  nowSet : Int
  /-- Whether the promise of `chrome.storage.local.set` resolves. -/
  setOk : Bool
  deriving DecidableEq, Repr

/-- The function `checkForModelUpdate()`. -/
def checkForModelUpdate {α : Type} (env : CheckEnv) (s : State α) : Bool × State α :=
  let s := s.emit (.storageGet ["modelSha", "modelLastCheck"])
  if !env.getOk then (false, s)
  else
    let lastCheck := lastCheckOrZero s.storage.modelLastCheck
    let hourAgo := env.nowStart - 60 * 60 * 1000
    if lastCheck > hourAgo then (false, s)
    else
      let r := getModelMetadata env.metadataFetch s
      if shaFalsy r.1.lastCommitSha then (false, r.2)
      else
        let currentSha := s.storage.modelSha
        let needsUpdate := shaFalsy currentSha || decide (currentSha ≠ r.1.lastCommitSha)
        let items : StorageItems α := { modelLastCheck := some env.nowSet }
        let s := r.2.emit (.storageSet items)
        if env.setOk then (needsUpdate, { s with storage := s.storage.set items })
        else (false, s)

/-- Whether an external call is the metadata fetch. -/
def Effect.isFetchMetadata {α : Type} (e : Effect α) : Bool :=
  match e with
  | .fetchMetadata => true
  | _ => false

/-- The number of metadata fetches recorded in a trace. -/
def metadataFetchCount {α : Type} (trace : List (Effect α)) : Nat :=
  trace.countP Effect.isFetchMetadata

/-- One hour, in milliseconds. -/
def hourMs : Int := 60 * 60 * 1000

/-- A store whose last check was made at time 1000 with revision `abc1234`. -/
def checkedStorage : Storage ℚ :=
  { cache := some exampleModel, modelSha := some "abc1234", modelLastUpdate := some 1000,
    modelLastCheck := some 1000, predictions := [] }

/-- A check at time `now` in which storage answers as told and the metadata
endpoint answers `metadataFetch`; the write happens one millisecond later. -/
def checkEnvAt (now : Int) (metadataFetch : FetchResult (List RevisionRecord))
    (getOk setOk : Bool) : CheckEnv :=
  { getOk := getOk, nowStart := now, metadataFetch := metadataFetch, nowSet := now + 1,
    setOk := setOk }

/-- A metadata answer carrying the revision id `sha`. -/
def revisionAnswer (sha : String) : FetchResult (List RevisionRecord) :=
  .ok [{ sha := some sha, time := some 4000 }]

/-! ## Signal extraction (`extractFeatures` of `src/content.js`)

Strings of the page (`location.href`, `location.hostname`, attribute values) are
Lean strings, read as lists of characters; for the ASCII strings that `location`
delivers, the length and the indices are those of JavaScript. -/

/-- The anchored regular expressions of the extractor, over characters. -/
abbrev Regex := RegularExpression Char

/-- A character class `[...]`, given by the list of its characters. -/
def charClass (cs : List Char) : Regex :=
  cs.foldr (fun c r => RegularExpression.char c + r) 0

/-- The class `[0-9]`. -/
def digitClass : Regex := charClass "0123456789".toList

/-- The class `[0-9A-Fa-f]`. -/
def hexDigitClass : Regex := charClass "0123456789ABCDEFabcdef".toList

/-- The operator `r?`. -/
def optional (r : Regex) : Regex := 1 + r

/-- The group `(?:25[0-5]|2[0-4][0-9]|[01]?[0-9][0-9]?)` of `ipPattern`. -/
def octetPattern : Regex :=
  RegularExpression.char '2' * RegularExpression.char '5' * charClass "012345".toList +
    (RegularExpression.char '2' * charClass "01234".toList * digitClass +
      optional (charClass "01".toList) * digitClass * optional digitClass)

/-- The regular expression `ipPattern`:
`^(?:(?:25[0-5]|2[0-4][0-9]|[01]?[0-9][0-9]?)\.){3}(?:25[0-5]|2[0-4][0-9]|[01]?[0-9][0-9]?)$`. -/
def ipPattern : Regex :=
  (octetPattern * RegularExpression.char '.') ^ 3 * octetPattern

/-- The group `0x[0-9A-Fa-f]{1,2}` of `hexPattern`. -/
def hexGroupPattern : Regex :=
  RegularExpression.char '0' * RegularExpression.char 'x' * hexDigitClass * optional hexDigitClass

/-- The regular expression `hexPattern`: `^(?:0x[0-9A-Fa-f]{1,2}\.){3}0x[0-9A-Fa-f]{1,2}$`. -/
def hexPattern : Regex :=
  (hexGroupPattern * RegularExpression.char '.') ^ 3 * hexGroupPattern

/-- The call `pattern.test(text)` for a pattern anchored by `^` and `$`: the
whole text matches. -/
def regexTest (pattern : Regex) (text : String) : Bool :=
  pattern.rmatch text.toList

/-- Feature 1, IP Address. -/
def ipAddressSignal (urlDomain : String) : String :=
  if regexTest ipPattern urlDomain || regexTest hexPattern urlDomain then "1" else "-1"

/-- Feature 2, URL Length. -/
def urlLengthSignal (url : String) : String :=
  if url.length < 54 then "-1"
  else if url.length ≥ 54 && url.length ≤ 75 then "0"
  else "1"

/-- The method `text.includes(search)`, on lists of characters. -/
def includes (text search : List Char) : Bool :=
  match text with
  | [] => search.isEmpty
  | c :: rest => search.isPrefixOf (c :: rest) || includes rest search

/-- The index of the last occurrence of `search` in `text` at or after position `i`,
where `text` is what is left of the string from position `i` on. -/
def lastIndexFrom (search : List Char) (text : List Char) (i : Nat) : Option Nat :=
  match text with
  | [] => if search.isEmpty then some i else none
  | c :: rest =>
    match lastIndexFrom search rest (i + 1) with
    | some j => some j
    | none => if search.isPrefixOf (c :: rest) then some i else none

/-- The method `text.lastIndexOf(search)`: `-1` when there is no occurrence. -/
def lastIndexOf (text search : List Char) : Int :=
  match lastIndexFrom search text 0 with
  | some j => (j : Int)
  | none => -1

/-- The method `text.split(separator)` for a one-character separator. -/
def splitChar (separator : Char) (text : List Char) : List (List Char) :=
  match text with
  | [] => [[]]
  | c :: rest =>
    if c = separator then [] :: splitChar separator rest
    else
      match splitChar separator rest with
      | part :: parts => (c :: part) :: parts
      | [] => [[c]]

/-- The expression `urlDomain.replace(/^www\./, '')`, the variable `onlyDomain`. -/
def onlyDomainOf (urlDomain : List Char) : List Char :=
  match urlDomain with
  | 'w' :: 'w' :: 'w' :: '.' :: rest => rest
  | cs => cs

/-- The call `domainPattern.test(text)`: `domainPattern` is `onlyDomain` with its
special characters escaped and the flag `i`, so the test is whether `text`
contains `onlyDomain` up to the case of letters. -/
def domainPatternTest (onlyDomain text : List Char) : Bool :=
  includes (text.map Char.toUpper) (onlyDomain.map Char.toUpper)

/-- The test `text.charAt(0) === '/' && text.charAt(1) !== '/'`. -/
def isRootRelative (text : List Char) : Bool :=
  match text with
  | '/' :: '/' :: _ => false
  | '/' :: _ => true
  | _ => false

/-- The body of the counting loops over `img`, `script` and `link` elements, on the
counters `(phishCount, legitCount)`; `attr` is the value of `getAttribute`, with
`none` for `null`. -/
def resourceStep (onlyDomain : List Char) (counts : Nat × Nat) (attr : Option String) :
    Nat × Nat :=
  match attr with
  | none => counts
  | some src =>
    if src.toList.isEmpty then counts
    else if domainPatternTest onlyDomain src.toList || isRootRelative src.toList then
      (counts.1, counts.2 + 1)
    else if "http".toList.isPrefixOf src.toList then (counts.1 + 1, counts.2)
    else counts

/-- The body of the counting loop over `a` elements. -/
def anchorStep (onlyDomain : List Char) (counts : Nat × Nat) (attr : Option String) :
    Nat × Nat :=
  match attr with
  | none => counts
  | some href =>
    if href.toList.isEmpty then counts
    else if domainPatternTest onlyDomain href.toList || href.toList.head? = some '#' ||
        isRootRelative href.toList then
      (counts.1, counts.2 + 1)
    else if "http".toList.isPrefixOf href.toList then (counts.1 + 1, counts.2)
    else counts

/-- The expression `totalCount > 0 ? (phishCount / totalCount) * 100 : 0`, with
`totalCount = phishCount + legitCount`. -/
def outRequestOf (counts : Nat × Nat) : ℚ :=
  if counts.1 + counts.2 > 0 then ((counts.1 : ℚ) / ((counts.1 + counts.2 : Nat) : ℚ)) * 100
  else 0

/-- Feature 3, Short URL. -/
def shortUrlSignal (urlDomain : String) : String :=
  if (onlyDomainOf urlDomain.toList).length < 7 then "1" else "-1"

/-- Feature 4, the `@` symbol in the URL. -/
def atSignal (url : String) : String :=
  if includes url.toList "@".toList then "1" else "-1"

/-- Feature 5, Redirecting `//`. -/
def redirectingSignal (url : String) : String :=
  if lastIndexOf url.toList "//".toList > 7 then "1" else "-1"

/-- Feature 6, Prefix/Suffix. -/
def prefixSuffixSignal (urlDomain : String) : String :=
  if includes urlDomain.toList "-".toList then "1" else "-1"

/-- Feature 7, Sub Domains. -/
def subDomainsSignal (urlDomain : String) : String :=
  let subdomains : Int := ((splitChar '.' urlDomain.toList).length : Int) - 2
  if subdomains ≤ 1 then "-1"
  else if subdomains = 2 then "0"
  else "1"

/-- Feature 8, HTTPS in Domain. -/
def httpsInDomainSignal (urlDomain : String) : String :=
  if includes (onlyDomainOf urlDomain.toList) "https".toList then "1" else "-1"

/-- Feature 9, SSL Certificate. -/
def sslSignal (protocol : String) : String :=
  if protocol = "https:" then "-1" else "1"

/-- Feature 10, Request URL, from the `src` attributes of the `img` elements. -/
def requestUrlSignal (urlDomain : String) (imgSrc : List (Option String)) : String :=
  let counts := imgSrc.foldl (resourceStep (onlyDomainOf urlDomain.toList)) (0, 0)
  let outRequest := outRequestOf counts
  if outRequest < 22 then "-1"
  else if outRequest ≥ 22 && outRequest < 61 then "0"
  else "1"

/-- Feature 11, Anchor, from the `href` attributes of the `a` elements. -/
def anchorSignal (urlDomain : String) (aHref : List (Option String)) : String :=
  let counts := aHref.foldl (anchorStep (onlyDomainOf urlDomain.toList)) (0, 0)
  let outRequest := outRequestOf counts
  if outRequest < 31 then "-1"
  else if outRequest ≥ 31 && outRequest ≤ 67 then "0"
  else "1"

/-- Feature 12, Script and Link, from the `src` attributes of the `script` elements
followed by the `href` attributes of the `link` elements. -/
def scriptLinkSignal (urlDomain : String) (scriptSrc linkHref : List (Option String)) : String :=
  let counts := scriptSrc.foldl (resourceStep (onlyDomainOf urlDomain.toList)) (0, 0)
  let counts := linkHref.foldl (resourceStep (onlyDomainOf urlDomain.toList)) counts
  let outRequest := outRequestOf counts
  if outRequest < 17 then "-1"
  else if outRequest ≥ 17 && outRequest ≤ 81 then "0"
  else "1"

/-- The loop of Feature 13 from the form at hand on, with the current value of `res`;
the `break` ends it with `"1"`. -/
def sfhLoop (onlyDomain : List Char) (actions : List (Option String)) (res : String) : String :=
  match actions with
  | [] => res
  | action :: rest =>
    match action with
    | none => "1"
    | some a =>
      if a = "" || a = "#" then "1"
      else if !"/".toList.isPrefixOf a.toList && !domainPatternTest onlyDomain a.toList then
        sfhLoop onlyDomain rest "0"
      else sfhLoop onlyDomain rest res

/-- Feature 13, SFH, from the `action` attributes of the `form` elements. -/
def sfhSignal (urlDomain : String) (formAction : List (Option String)) : String :=
  sfhLoop (onlyDomainOf urlDomain.toList) formAction "-1"

/-- The test `action && action.toLowerCase().startsWith("mailto")`. -/
def actionIsMailto (action : Option String) : Bool :=
  match action with
  | none => false
  | some a => !a.toList.isEmpty && "mailto".toList.isPrefixOf (a.toList.map Char.toLower)

/-- Feature 14, mailto. -/
def mailtoSignal (formAction : List (Option String)) : String :=
  if formAction.any actionIsMailto then "1" else "-1"

/-- An `iframe` element as the extractor sees it: `display` and `visibility` of its
computed style, and the numbers that `iframe.width` and `iframe.height` convert to
in the comparison with `10`, with `none` for `NaN`. -/
structure Iframe where
  display : String
  visibility : String
  width : Option ℚ
  height : Option ℚ
  deriving DecidableEq, Repr

/-- The comparison `value < 10`, false on `NaN`. -/
def belowTen (value : Option ℚ) : Bool :=
  match value with
  | some v => decide (v < 10)
  | none => false

/-- The test that counts an `iframe` as suspicious. -/
def iframeIsSuspicious (iframe : Iframe) : Bool :=
  iframe.display = "none" || iframe.visibility = "hidden" ||
    belowTen iframe.width || belowTen iframe.height

/-- Feature 15, iFrames. -/
def iframesSignal (iframes : List Iframe) : String :=
  if iframes.length = 0 then "-1"
  else if (iframes.countP iframeIsSuspicious) > 0 then "1" else "0"

/-- The test `href && !domainPattern.test(href) && href.startsWith('http')`. -/
def faviconIsExternal (onlyDomain : List Char) (href : Option String) : Bool :=
  match href with
  | none => false
  | some h =>
    !h.toList.isEmpty && !domainPatternTest onlyDomain h.toList &&
      "http".toList.isPrefixOf h.toList

/-- Feature 16, Favicon, from the `href` attributes of the `link[rel*="icon"]` elements. -/
def faviconSignal (urlDomain : String) (faviconHref : List (Option String)) : String :=
  if faviconHref.length = 0 then "1"
  else if faviconHref.any (faviconIsExternal (onlyDomainOf urlDomain.toList)) then "1"
  else "-1"

/-- Feature 17, Port. -/
def portSignal (protocol port : String) : String :=
  let port := if port = "" then (if protocol = "https:" then "443" else "80") else port
  if port = "80" || port = "443" then "-1" else "1"

/-- The page as the extractor reads it: `window.location` and, for each element
collection, the attribute values in document order. -/
structure Page where
  href : String
  hostname : String
  protocol : String
  port : String
  imgSrc : List (Option String)
  aHref : List (Option String)
  scriptSrc : List (Option String)
  linkHref : List (Option String)
  formAction : List (Option String)
  iframes : List Iframe
  faviconHref : List (Option String)
  deriving DecidableEq, Repr

/-- Feature 18, DNS Analysis: `String(riskLevel)` when `checkDNSRisk` resolves, and
`"1"` when it rejects (`dns = none`). -/
def dnsSignal (dns : Option String) : String :=
  match dns with
  | some riskLevel => riskLevel
  | none => "1"

/-- The object `result` that `extractFeatures` sends to the background script, on a
page whose DOM access raises no exception; `dns` is the outcome of `checkDNSRisk`. -/
def extractFeatures (page : Page) (dns : Option String) : FeatureMessage :=
  [("IP Address", ipAddressSignal page.hostname),
   ("URL Length", urlLengthSignal page.href),
   ("Short URL", shortUrlSignal page.hostname),
   ("@", atSignal page.href),
   ("Redirecting //", redirectingSignal page.href),
   ("Prefix/Suffix", prefixSuffixSignal page.hostname),
   ("Sub Domains", subDomainsSignal page.hostname),
   ("HTTPS in Domain", httpsInDomainSignal page.hostname),
   ("SSL Certificate", sslSignal page.protocol),
   ("Request URL", requestUrlSignal page.hostname page.imgSrc),
   ("Anchor", anchorSignal page.hostname page.aHref),
   ("Script and Link", scriptLinkSignal page.hostname page.scriptSrc page.linkHref),
   ("SFH", sfhSignal page.hostname page.formAction),
   ("mailto", mailtoSignal page.formAction),
   ("iFrames", iframesSignal page.iframes),
   ("Favicon", faviconSignal page.hostname page.faviconHref),
   ("Port", portSignal page.protocol page.port),
   ("DNS Analysis", dnsSignal dns)]

/-! ## Vocabulary of the specification for the signals -/

/-- A form whose action is empty or `"#"`; an absent `action` attribute counts as
empty. -/
def actionIsBlank (action : Option String) : Bool :=
  match action with
  | none => true
  | some a => a = "" || a = "#"

/-- A form whose action neither starts with `"/"` nor matches the page domain. -/
def actionIsForeign (urlDomain : String) (action : Option String) : Bool :=
  match action with
  | none => false
  | some a =>
    !"/".toList.isPrefixOf a.toList && !domainPatternTest (onlyDomainOf urlDomain.toList) a.toList

/-- The number of dot-separated parts of a hostname: one more than its number of dots. -/
def dotParts (urlDomain : String) : Nat :=
  urlDomain.toList.count '.' + 1

/-- A URL of `n` characters. -/
def urlOfLength (n : Nat) : String :=
  String.mk (List.replicate n 'a')

/-- An image `src` that is counted as legitimate: not empty, and same-domain or
root-relative. -/
def srcIsLegit (urlDomain : String) (attr : Option String) : Bool :=
  match attr with
  | none => false
  | some src =>
    !src.toList.isEmpty &&
      (domainPatternTest (onlyDomainOf urlDomain.toList) src.toList || isRootRelative src.toList)

/-- An image `src` that is counted as phishing: not empty, not legitimate, and
starting with `http`. -/
def srcIsPhish (urlDomain : String) (attr : Option String) : Bool :=
  match attr with
  | none => false
  | some src =>
    !src.toList.isEmpty &&
      !(domainPatternTest (onlyDomainOf urlDomain.toList) src.toList || isRootRelative src.toList)
      && "http".toList.isPrefixOf src.toList

/-- The ratio `phish / (phish + legit) * 100` of the specification. -/
def specRatio (phish legit : Nat) : ℚ :=
  (phish : ℚ) / ((phish : ℚ) + (legit : ℚ)) * 100

/-- A page of `http://www.example.com/` with no elements. -/
def examplePage : Page :=
  { href := "http://www.example.com/", hostname := "www.example.com", protocol := "http:",
    port := "", imgSrc := [], aHref := [], scriptSrc := [], linkHref := [], formAction := [],
    iframes := [], faviconHref := [] }

/-- One hundred image sources: 61 absolute-http cross-domain, then 39 root-relative. -/
def sixtyOneOfHundred : List (Option String) :=
  List.replicate 61 (some "http://evil.test/a.png") ++ List.replicate 39 (some "/a.png")

/-- The number denoted by a string value of the extraction message, as `parseFloat`
reads it; `0` when the key is absent or the value is not a number. -/
def denotedNumber {α : Type} [LinearOrderedField α] (value : Option String) : α :=
  (((value.bind parseFloat).getD 0 : ℚ) : α)

/-- The three encodings that the synchronous signals use. -/
def isSignalEncoding (value : String) : Prop :=
  value = "-1" ∨ value = "0" ∨ value = "1"

/-- A model whose weights are eighteen 1s. -/
def unitModel {α : Type} [LinearOrderedField α] : Model α :=
  { model_type := some "CatBoostClassifier", feature_importances := some scenarioWeights,
    n_features := some 18, version := some "1.0" }

/-- A state in which `model` is the current model and is persisted. -/
def loadedState {α : Type} (model : Model α) : State α :=
  { modelCache := some model
    storage := { cache := some model, modelSha := none, modelLastUpdate := none,
                 modelLastCheck := none, predictions := [] }
    alarms := [], trace := [] }

/-- The object stored under `prediction_<tab id>` by `handleFeatureExtraction`. -/
def predictionItems {α : Type} (env : FeatureEnv) (features : FeatureMessage) (sender : Sender)
    (prediction : Prediction α) : StorageItems α :=
  { prediction := some (sender.tabId,
      { prediction := prediction, features := features, url := sender.url,
        timestamp := env.now }) }

/-- A decimal digit. -/
def isDecimalDigit (c : Char) : Bool :=
  "0123456789".toList.contains c

/-- A hexadecimal digit, in either case. -/
def isHexDigit (c : Char) : Bool :=
  "0123456789ABCDEFabcdef".toList.contains c

/-- A decimal octet: one to three decimal digits that denote a value from 0 to 255. -/
def isDecimalOctet (part : List Char) : Bool :=
  decide (1 ≤ part.length) && decide (part.length ≤ 3) && part.all isDecimalDigit &&
    decide (digitsValue part ≤ 255)

/-- A hexadecimal group: `0x` followed by one or two hexadecimal digits. -/
def isHexGroup (part : List Char) : Bool :=
  match part with
  | '0' :: 'x' :: digits =>
    decide (1 ≤ digits.length) && decide (digits.length ≤ 2) && digits.all isHexDigit
  | _ => false

/-- The whole hostname is four dot-separated parts, each of the given kind. -/
def isDottedQuad (isPart : List Char → Bool) (urlDomain : String) : Bool :=
  decide ((splitChar '.' urlDomain.toList).length = 4) &&
    (splitChar '.' urlDomain.toList).all isPart

/-- The parts joined by the separator: the method `parts.join(separator)`. -/
def joinChar (separator : Char) (parts : List (List Char)) : List Char :=
  match parts with
  | [] => []
  | [part] => part
  | part :: rest => part ++ separator :: joinChar separator rest

/-! ## Initialization and scheduling (`initializeExtension`, `scheduleModelUpdates`,
the `onAlarm` listener) -/

/-- The function `scheduleModelUpdates()`: `chrome.alarms.clear` removes the alarm
of that name, `chrome.alarms.create` registers the new one. -/
def scheduleModelUpdates {α : Type} (s : State α) : State α :=
  let s := s.emit (.alarmsClear "modelUpdateCheck")
  let s := { s with alarms := s.alarms.filter (fun a => a.name ≠ "modelUpdateCheck") }
  let alarm : Alarm :=
    { name := "modelUpdateCheck", delayInMinutes := UPDATE_CHECK_INTERVAL,
      periodInMinutes := UPDATE_CHECK_INTERVAL }
  let s := s.emit (.alarmsCreate alarm)
  { s with alarms := s.alarms.filter (fun a => a.name ≠ alarm.name) ++ [alarm] }

/-- The outcomes of the external calls of one `initializeExtension()` run. -/
structure InitEnv (α : Type) where
  /-- The message of the error when `chrome.storage.local.get(['cache', 'modelLastUpdate'])`
  rejects, `none` when it resolves. -/
  getError : Option String
  /-- The outcomes for the `updateModel()` call, when it is made. -/
  update : UpdateEnv α

/-- The function `initializeExtension()`; its `catch` block logs and rethrows. -/
def initializeExtension {α : Type} (env : InitEnv α) (s : State α) :
    Except String Unit × State α :=
  let s := s.emit (.storageGet ["cache", "modelLastUpdate"])
  match env.getError with
  | some message => (.error message, s)
  | none =>
    match s.storage.cache with
    | some cache => (.ok (), scheduleModelUpdates { s with modelCache := some cache })
    | none =>
      let r := updateModel env.update s
      match r.1 with
      | .error message => (.error message, r.2)
      | .ok _ => (.ok (), scheduleModelUpdates r.2)

/-- The outcomes of the external calls of one firing of the alarm listener. -/
structure AlarmEnv (α : Type) where
  /-- The outcomes for `checkForModelUpdate()`. -/
  check : CheckEnv
  /-- The outcomes for `updateModel()`, when it is called. -/
  update : UpdateEnv α

/-- The listener of `chrome.alarms.onAlarm`, on an alarm of name `alarmName`; an
error of `updateModel` is caught and logged. -/
def onAlarm {α : Type} (env : AlarmEnv α) (alarmName : String) (s : State α) :
    Except String Unit × State α :=
  if alarmName = "modelUpdateCheck" then
    let r := checkForModelUpdate env.check s
    if r.1 then
      let u := updateModel env.update r.2
      match u.1 with
      | .error _ => (.ok (), u.2)
      | .ok _ => (.ok (), u.2)
    else (.ok (), r.2)
  else (.ok (), s)

/-- Whether an external call is the model fetch. -/
def Effect.isFetchModel {α : Type} (e : Effect α) : Bool :=
  match e with
  | .fetchModel => true
  | _ => false

/-- The number of model fetches recorded in a trace, that is, of `updateModel` runs. -/
def modelFetchCount {α : Type} (trace : List (Effect α)) : Nat :=
  trace.countP Effect.isFetchModel

/-- Whether an external call creates an alarm. -/
def Effect.isAlarmsCreate {α : Type} (e : Effect α) : Bool :=
  match e with
  | .alarmsCreate _ => true
  | _ => false

/-- One call of the model slot's operations, with the outcomes of its external calls. -/
inductive Operation (α : Type) where
  | init (env : InitEnv α)
  | load (getOk : Bool)
  | update (env : UpdateEnv α)

/-- The state after one operation; a raised error leaves the state reached so far. -/
def Operation.run {α : Type} (op : Operation α) (s : State α) : State α :=
  match op with
  | .init env => (initializeExtension env s).2
  | .load getOk => (loadModel getOk s).2
  | .update env => (updateModel env s).2

/-- The state after a sequence of operations run one after another. -/
def runAll {α : Type} (ops : List (Operation α)) (s : State α) : State α :=
  ops.foldl (fun st op => op.run st) s

/-- The invariant of the model slot: the current model is empty or is the model
persisted under `cache`. -/
def slotInvariant {α : Type} (s : State α) : Prop :=
  s.modelCache = none ∨ s.modelCache = s.storage.cache

/-! ## The classifier on doubles with overflow

The classifier of the first section computes in an exact ordered field.  Here the
numbers are JavaScript's: a finite value, `Infinity`, `-Infinity` or `NaN`.  An
exact result beyond `Number.MAX_VALUE` becomes an infinity, and the infinities and
`NaN` follow the IEEE 754 rules.  Rounding of finite results to the nearest
double and the sign of zero are not modelled. -/

/-- A JavaScript number. -/
inductive JsNumber (α : Type) where
  | finite (x : α)
  | posInf
  | negInf
  | nan
  deriving DecidableEq, Repr

namespace JsNumber

variable {α : Type} [LinearOrderedField α]

/-- The constant `Number.MAX_VALUE`, `2^1024 - 2^971`. -/
def MAX_VALUE : α := 2 ^ 1024 - 2 ^ 971

/-- The double that stands for an exact result: overflow gives an infinity. -/
def overflow (x : α) : JsNumber α :=
  if x > MAX_VALUE then posInf
  else if x < -MAX_VALUE then negInf
  else finite x

/-- The operator `a + b`. -/
def add (a b : JsNumber α) : JsNumber α :=
  match a, b with
  | nan, _ => nan
  | _, nan => nan
  | posInf, negInf => nan
  | negInf, posInf => nan
  | posInf, _ => posInf
  | _, posInf => posInf
  | negInf, _ => negInf
  | _, negInf => negInf
  | finite x, finite y => overflow (x + y)

/-- The unary operator `-a`. -/
def neg (a : JsNumber α) : JsNumber α :=
  match a with
  | nan => nan
  | posInf => negInf
  | negInf => posInf
  | finite x => finite (-x)

/-- The operator `a - b`. -/
def sub (a b : JsNumber α) : JsNumber α := add a (neg b)

/-- An infinity times a finite value: `NaN` for zero, else the infinity of the
product's sign. -/
def infTimes (positive : Bool) (x : α) : JsNumber α :=
  if x = 0 then nan
  else if (decide (x > 0)) = positive then posInf
  else negInf

/-- The operator `a * b`. -/
def mul (a b : JsNumber α) : JsNumber α :=
  match a, b with
  | nan, _ => nan
  | _, nan => nan
  | posInf, posInf => posInf
  | posInf, negInf => negInf
  | negInf, posInf => negInf
  | negInf, negInf => posInf
  | posInf, finite y => infTimes true y
  | negInf, finite y => infTimes false y
  | finite x, posInf => infTimes true x
  | finite x, negInf => infTimes false x
  | finite x, finite y => overflow (x * y)

/-- The operator `a / b`. -/
def div (a b : JsNumber α) : JsNumber α :=
  match a, b with
  | nan, _ => nan
  | _, nan => nan
  | posInf, posInf => nan
  | posInf, negInf => nan
  | negInf, posInf => nan
  | negInf, negInf => nan
  | posInf, finite y => if y < 0 then negInf else posInf
  | negInf, finite y => if y < 0 then posInf else negInf
  | finite _, posInf => finite 0
  | finite _, negInf => finite 0
  | finite x, finite y =>
    if y = 0 then (if x = 0 then nan else if x > 0 then posInf else negInf)
    else overflow (x / y)

/-- The function `Math.abs`. -/
def abs (a : JsNumber α) : JsNumber α :=
  match a with
  | nan => nan
  | posInf => posInf
  | negInf => posInf
  | finite x => finite |x|

/-- The function `Math.exp`, from the exponential `exp` on exact values. -/
def exp (exp : α → α) (a : JsNumber α) : JsNumber α :=
  match a with
  | nan => nan
  | posInf => posInf
  | negInf => finite 0
  | finite x => overflow (exp x)

/-- The comparison `a < b`, false as soon as one side is `NaN`. -/
def lt (a b : JsNumber α) : Bool :=
  match a, b with
  | nan, _ => false
  | _, nan => false
  | posInf, _ => false
  | _, negInf => false
  | negInf, _ => true
  | _, posInf => true
  | finite x, finite y => decide (x < y)

/-- The comparison `a > b`. -/
def gt (a b : JsNumber α) : Bool := lt b a

/-- The comparison `a >= b`, false as soon as one side is `NaN`. -/
def ge (a b : JsNumber α) : Bool :=
  match a, b with
  | nan, _ => false
  | _, nan => false
  | posInf, _ => true
  | _, negInf => true
  | negInf, _ => false
  | _, posInf => false
  | finite x, finite y => decide (x ≥ y)

/-- The function `Math.max` on two arguments: `NaN` as soon as one is `NaN`. -/
def max (a b : JsNumber α) : JsNumber α :=
  match a, b with
  | nan, _ => nan
  | _, nan => nan
  | _, _ => if lt a b then b else a

/-- The function `Math.min` on two arguments: `NaN` as soon as one is `NaN`. -/
def min (a b : JsNumber α) : JsNumber α :=
  match a, b with
  | nan, _ => nan
  | _, nan => nan
  | _, _ => if lt b a then b else a

/-- The expression `value || 0` on a number or `undefined`: `undefined`, `NaN` and
`0` are falsy. -/
def orZero (value : Option (JsNumber α)) : JsNumber α :=
  match value with
  | none => finite 0
  | some nan => finite 0
  | some (finite x) => if x = 0 then finite 0 else finite x
  | some v => v

end JsNumber

namespace IEEE

variable {α : Type} [LinearOrderedField α]

/-- One iteration of the `for` loop of `predictPhishing`, on doubles. -/
def accumulateStep (featureArray featureWeights : List (JsNumber α))
    (acc : JsNumber α × JsNumber α) (i : Nat) : JsNumber α × JsNumber α :=
  let weight := JsNumber.orZero featureWeights[i]?
  match featureArray[i]? with
  | some featureValue =>
    if JsNumber.gt featureValue (.finite 0) then
      (JsNumber.add acc.1 (JsNumber.mul weight featureValue),
        JsNumber.add acc.2 (JsNumber.abs weight))
    else (acc.1, JsNumber.add acc.2 (JsNumber.abs weight))
  | none => (acc.1, JsNumber.add acc.2 (JsNumber.abs weight))

/-- The loop of `predictPhishing`, on doubles; returns `(score, totalWeight)`. -/
def accumulate (featureArray featureWeights : List (JsNumber α)) : JsNumber α × JsNumber α :=
  (List.range (Nat.min featureArray.length featureWeights.length)).foldl
    (accumulateStep featureArray featureWeights) (.finite 0, .finite 0)

/-- The test `dnsAnalysis < 0` on the last element, on doubles. -/
def dnsIsNegative (featureArray : List (JsNumber α)) : Bool :=
  match featureArray.getLast? with
  | some dnsAnalysis => JsNumber.lt dnsAnalysis (.finite 0)
  | none => false

/-- The function `predictPhishing(featureArray)`, on doubles. -/
def predictPhishing (exp : α → α) (modelCache : Option (Model (JsNumber α)))
    (featureArray : List (JsNumber α)) : Except String (Prediction (JsNumber α)) :=
  match modelCache with
  | none => .error "Model not loaded"
  | some model =>
    let featureWeights := model.feature_importances.getD []
    let acc := accumulate featureArray featureWeights
    let score := acc.1
    let totalWeight := acc.2
    let normalizedScore :=
      if JsNumber.gt totalWeight (.finite 0) then JsNumber.div (JsNumber.abs score) totalWeight
      else .finite 0
    let riskScore := JsNumber.div (.finite 1)
      (JsNumber.add (.finite 1)
        (JsNumber.exp exp (JsNumber.mul (JsNumber.neg normalizedScore) (.finite 5))))
    let threshold :=
      if dnsIsNegative featureArray then
        JsNumber.add (.finite PHISHING_THRESHOLD) (.finite 0.1)
      else .finite PHISHING_THRESHOLD
    let isPhishing := JsNumber.ge riskScore threshold
    let confidence := JsNumber.max
      (JsNumber.mul (JsNumber.abs (JsNumber.sub riskScore (.finite 0.5))) (.finite 2))
      (.finite 0.5)
    .ok { isPhishing := isPhishing
          riskScore := riskScore
          confidence := confidence
          threshold := threshold
          legitimatePercentage :=
            JsNumber.max (.finite 0)
              (JsNumber.min (.finite 100)
                (JsNumber.mul (JsNumber.sub (.finite 1) riskScore) (.finite 100))) }

/-- The value of the constant `normalizedScore` of `predictPhishing`, on doubles. -/
def normalizedScore (featureArray featureWeights : List (JsNumber α)) : JsNumber α :=
  let acc := accumulate featureArray featureWeights
  if JsNumber.gt acc.2 (.finite 0) then JsNumber.div (JsNumber.abs acc.1) acc.2
  else .finite 0

/-- Two weights of `1e308`, each a finite double. -/
def hugeWeights : List (JsNumber α) := [.finite 1e308, .finite 1e308]

/-- The feature array `[1, 1]`; its last element is `>= 0`. -/
def twoOnes : List (JsNumber α) := [.finite 1, .finite 1]

/-- A model with the weights `hugeWeights`. -/
def hugeModel : Model (JsNumber α) :=
  { model_type := some "CatBoostClassifier", feature_importances := some hugeWeights,
    n_features := some 2, version := some "1.0" }

/-- A model with the weights `[2, 3]`. -/
def plainModel : Model (JsNumber α) :=
  { model_type := some "CatBoostClassifier",
    feature_importances := some [.finite 2, .finite 3],
    n_features := some 2, version := some "1.0" }

end IEEE

/-! ## Theorems -/

section ClassifierLemmas

variable {α : Type} [LinearOrderedField α]

theorem weightOrZero_getElem? (w : List α) (i : Nat) : weightOrZero w[i]? = w.getD i 0 := by
  rw [List.getD_eq_getElem?_getD]
  cases h : w[i]? with
  | none => simp [weightOrZero]
  | some x =>
    by_cases hx : x = 0
    · simp [weightOrZero, hx]
    · simp [weightOrZero, hx]

theorem accumulateStep_eq (f w : List α) (acc : α × α) (i : Nat) :
    accumulateStep f w acc i =
      (acc.1 + (if f.getD i 0 > 0 then w.getD i 0 * f.getD i 0 else 0),
       acc.2 + |w.getD i 0|) := by
  unfold accumulateStep
  rw [weightOrZero_getElem?, List.getD_eq_getElem?_getD f]
  cases h : f[i]? with
  | none => simp
  | some v =>
    by_cases hv : v > 0
    · simp [hv]
    · simp [hv]

theorem foldl_accumulateStep (f w : List α) (n : Nat) :
    (List.range n).foldl (accumulateStep f w) (0, 0) =
      (∑ i in Finset.range n, (if f.getD i 0 > 0 then w.getD i 0 * f.getD i 0 else 0),
       ∑ i in Finset.range n, |w.getD i 0|) := by
  induction n with
  | zero => simp
  | succ n ih =>
    rw [List.range_succ, List.foldl_append, ih]
    simp only [List.foldl_cons, List.foldl_nil]
    rw [accumulateStep_eq, Finset.sum_range_succ, Finset.sum_range_succ]

theorem accumulate_eq_spec (f w : List α) :
    accumulate f w = (specScore f w, specTotalWeight f w) := by
  unfold accumulate specScore specTotalWeight
  exact foldl_accumulateStep f w _

theorem predictPhishing_some (exp : α → α) (model : Model α) (f : List α) :
    predictPhishing exp (some model) f =
      .ok (predictionOfScore exp
        (specNormalizedScore f (model.feature_importances.getD [])) (dnsIsNegative f)) := by
  simp only [predictPhishing, accumulate_eq_spec, predictionOfScore, specNormalizedScore]

theorem dnsIsNegative_concat (fs : List α) (d : α) :
    dnsIsNegative (fs ++ [d]) = decide (d < 0) := by
  simp [dnsIsNegative, List.getLast?_concat]

theorem specSums_congr (f f' w w' : List α)
    (hmin : min f'.length w'.length = min f.length w.length)
    (hf : ∀ i, i < min f.length w.length →
      (f'[i]?.getD 0 = f[i]?.getD 0 ∨ (f'[i]?.getD 0 ≤ 0 ∧ f[i]?.getD 0 ≤ 0)))
    (hw : ∀ i, i < min f.length w.length → w'[i]? = w[i]?) :
    specScore f' w' = specScore f w ∧ specTotalWeight f' w' = specTotalWeight f w := by
  unfold specScore specTotalWeight
  rw [hmin]
  constructor
  · apply Finset.sum_congr rfl
    intro i hi
    have hi2 := Finset.mem_range.mp hi
    simp only [List.getD_eq_getElem?_getD, hw i hi2]
    rcases hf i hi2 with h | ⟨h1, h2⟩
    · rw [h]
    · rw [if_neg (not_lt.mpr h1), if_neg (not_lt.mpr h2)]
  · apply Finset.sum_congr rfl
    intro i hi
    simp only [List.getD_eq_getElem?_getD, hw i (Finset.mem_range.mp hi)]

theorem specNormalizedScore_congr (f f' w w' : List α)
    (hmin : min f'.length w'.length = min f.length w.length)
    (hf : ∀ i, i < min f.length w.length →
      (f'[i]?.getD 0 = f[i]?.getD 0 ∨ (f'[i]?.getD 0 ≤ 0 ∧ f[i]?.getD 0 ≤ 0)))
    (hw : ∀ i, i < min f.length w.length → w'[i]? = w[i]?) :
    specNormalizedScore f' w' = specNormalizedScore f w := by
  obtain ⟨h1, h2⟩ := specSums_congr f f' w w' hmin hf hw
  rw [specNormalizedScore, specNormalizedScore, h1, h2]

theorem specNormalizedScore_take_weights (f w : List α) :
    specNormalizedScore f (w.take (min f.length w.length)) = specNormalizedScore f w := by
  apply specNormalizedScore_congr
  · simp [List.length_take]
  · intro i _
    exact Or.inl rfl
  · intro i hi
    exact List.getElem?_take_of_lt hi

theorem accumulate_take (f w : List α) :
    accumulate (f.take (min f.length w.length)) (w.take (min f.length w.length)) =
      accumulate f w := by
  rw [accumulate_eq_spec, accumulate_eq_spec]
  obtain ⟨h1, h2⟩ := specSums_congr f (f.take (min f.length w.length)) w
    (w.take (min f.length w.length)) (by simp [List.length_take])
    (fun i hi => Or.inl (by rw [List.getElem?_take_of_lt hi]))
    (fun i hi => List.getElem?_take_of_lt hi)
  rw [h1, h2]

theorem dnsIsNegative_congr (f f' : List α) (hlen : f'.length = f.length)
    (hlast : ∀ d d', f.getLast? = some d → f'.getLast? = some d' → (d' < 0 ↔ d < 0)) :
    dnsIsNegative f' = dnsIsNegative f := by
  unfold dnsIsNegative
  cases hf : f.getLast? with
  | none =>
    have hnil : f = [] := List.getLast?_eq_none_iff.mp hf
    have hnil' : f' = [] := by
      apply List.eq_nil_of_length_eq_zero
      rw [hlen, hnil]
      rfl
    simp [hnil']
  | some d =>
    cases hf' : f'.getLast? with
    | none =>
      have hnil' : f' = [] := List.getLast?_eq_none_iff.mp hf'
      rw [hnil'] at hlen
      have hnil : f = [] := List.eq_nil_of_length_eq_zero hlen.symm
      rw [hnil] at hf
      simp at hf
    | some d' =>
      simp only [decide_eq_decide]
      exact hlast d d' hf hf'

end ClassifierLemmas

section ClassifierReal

theorem sigmoid_pos (x : ℝ) : 0 < 1 / (1 + Real.exp x) := by
  have := Real.exp_pos x
  positivity

theorem sigmoid_lt_one (x : ℝ) : 1 / (1 + Real.exp x) < 1 := by
  have h := Real.exp_pos x
  rw [div_lt_one (by linarith)]
  linarith

/-- C1: with a model loaded whose weights are the number sequence `w`,
`predictPhishing` returns `riskScore = 1 / (1 + e^(-5 n))`, where `n = |S| / T`
if `T > 0` and `n = 0` otherwise (`specNormalizedScore`), `S` is the sum of
`w[i] * f[i]` over the `i < min(L, W)` with `f[i] > 0` (`specScore`), and `T` the
sum of `|w[i]|` over `i < min(L, W)` (`specTotalWeight`). -/
theorem predictPhishing_riskScore_formula (modelType : Option String) (nFeatures : Option Nat)
    (version : Option String) (w f : List ℝ) :
    ∃ p, predictPhishing Real.exp (some ⟨modelType, some w, nFeatures, version⟩) f = .ok p ∧
      p.riskScore = 1 / (1 + Real.exp (-5 * specNormalizedScore f w)) := by
  refine ⟨_, predictPhishing_some _ _ _, ?_⟩
  simp only [predictionOfScore, Option.getD_some]
  congr 3
  ring

/-- C2: with a model loaded, on a feature array whose last element is `d`,
`predictPhishing` returns `threshold = 0.6` when `d < 0` and `threshold = 0.5`
when `d >= 0`, and `isPhishing` is true exactly when `riskScore >= threshold`. -/
theorem predictPhishing_threshold (model : Model ℝ) (fs : List ℝ) (d : ℝ) :
    ∃ p, predictPhishing Real.exp (some model) (fs ++ [d]) = .ok p ∧
      p.threshold = (if d < 0 then 0.6 else 0.5) ∧
      (p.isPhishing = true ↔ p.riskScore ≥ p.threshold) := by
  refine ⟨_, predictPhishing_some _ _ _, ?_, ?_⟩
  · by_cases hd : d < 0
    · simp only [predictionOfScore, dnsIsNegative_concat, hd, decide_True, if_true,
        PHISHING_THRESHOLD]
      norm_num
    · simp [predictionOfScore, dnsIsNegative_concat, hd, PHISHING_THRESHOLD]
  · simp [predictionOfScore]

/-- In exact arithmetic, where no sum overflows: with a model loaded, the
Prediction returned by `predictPhishing` has `0 <= riskScore <= 1`, `0.5 <= confidence <= 1` with
`confidence = max(2 * |riskScore - 0.5|, 0.5)`, and
`0 <= legitimatePercentage <= 100` with `legitimatePercentage` equal to
`(1 - riskScore) * 100` clamped to `[0, 100]`. -/
theorem predictPhishing_ranges (model : Model ℝ) (f : List ℝ) :
    ∃ p, predictPhishing Real.exp (some model) f = .ok p ∧
      0 ≤ p.riskScore ∧ p.riskScore ≤ 1 ∧
      0.5 ≤ p.confidence ∧ p.confidence ≤ 1 ∧
      p.confidence = max (2 * |p.riskScore - 0.5|) 0.5 ∧
      0 ≤ p.legitimatePercentage ∧ p.legitimatePercentage ≤ 100 ∧
      p.legitimatePercentage = max 0 (min 100 ((1 - p.riskScore) * 100)) := by
  refine ⟨_, predictPhishing_some _ _ _, ?_⟩
  simp only [predictionOfScore]
  have h0 := sigmoid_pos (-specNormalizedScore f (model.feature_importances.getD []) * 5)
  have h1 := sigmoid_lt_one (-specNormalizedScore f (model.feature_importances.getD []) * 5)
  generalize 1 / (1 + Real.exp
    (-specNormalizedScore f (model.feature_importances.getD []) * 5)) = r at h0 h1
  have habs : |r - 0.5| * 2 ≤ 1 := by
    have : |r - 0.5| ≤ 0.5 := by
      rw [abs_le]
      constructor <;> norm_num <;> linarith
    linarith
  refine ⟨h0.le, h1.le, le_max_right _ _, max_le habs (by norm_num), ?_, le_max_left _ _,
    max_le (by norm_num) (min_le_left _ _), trivial⟩
  rw [mul_comm]

theorem accumulate_scenario :
    accumulate (scenarioFeatures : List ℝ) scenarioWeights = (1, 18) := by
  rw [accumulate_eq_spec]
  simp [specScore, specTotalWeight, scenarioFeatures, scenarioWeights, Finset.sum_range_succ]
  norm_num

theorem exp_scenario_bounds :
    (23 : ℝ) / 18 ≤ Real.exp (5 / 18) ∧ Real.exp (5 / 18) ≤ 439 / 324 := by
  constructor
  · have h := Real.add_one_le_exp (5 / 18 : ℝ)
    linarith
  · have h := Real.abs_exp_sub_one_sub_id_le (x := (5 / 18 : ℝ)) (by norm_num [abs_le])
    have h2 := (abs_le.mp h).2
    norm_num at h2 ⊢
    linarith

theorem sigmoid_scenario_bounds :
    (0.56 : ℝ) < 1 / (1 + Real.exp (-5 / 18)) ∧ 1 / (1 + Real.exp (-5 / 18)) < (0.58 : ℝ) := by
  obtain ⟨hlo, hhi⟩ := exp_scenario_bounds
  have hE : 0 < Real.exp (5 / 18) := Real.exp_pos _
  have hneg : Real.exp (-5 / 18) = (Real.exp (5 / 18))⁻¹ := by
    rw [← Real.exp_neg]
    congr 1
    ring
  have hrw : 1 / (1 + Real.exp (-5 / 18)) = Real.exp (5 / 18) / (Real.exp (5 / 18) + 1) := by
    rw [hneg]
    field_simp
  rw [hrw]
  constructor
  · rw [lt_div_iff₀ (by linarith)]
    linarith
  · rw [div_lt_iff₀ (by linarith)]
    linarith

/-- C3: end-to-end scenario.  On the feature array `[1, -1, ..., -1]` of length 18
with a model whose weights are eighteen 1s, the loop ends with `score = 1` and
`totalWeight = 18`, and `predictPhishing` returns `riskScore = 1 / (1 + e^(-5/18))`,
strictly between 0.56 and 0.58, `threshold = 0.6`, `isPhishing = false`,
`confidence = 0.5`, and `legitimatePercentage = (1 - riskScore) * 100`, strictly
between 42 and 44. -/
theorem predictPhishing_scenario (modelType : Option String) (nFeatures : Option Nat)
    (version : Option String) :
    accumulate (scenarioFeatures : List ℝ) scenarioWeights = (1, 18) ∧
    ∃ p, predictPhishing Real.exp
        (some ⟨modelType, some scenarioWeights, nFeatures, version⟩) scenarioFeatures = .ok p ∧
      p.riskScore = 1 / (1 + Real.exp (-5 / 18)) ∧
      0.56 < p.riskScore ∧ p.riskScore < 0.58 ∧
      p.threshold = 0.6 ∧ p.isPhishing = false ∧ p.confidence = 0.5 ∧
      p.legitimatePercentage = (1 - p.riskScore) * 100 ∧
      42 < p.legitimatePercentage ∧ p.legitimatePercentage < 44 := by
  refine ⟨accumulate_scenario, _, predictPhishing_some _ _ _, ?_⟩
  obtain ⟨hlo, hhi⟩ := sigmoid_scenario_bounds
  have hacc := accumulate_scenario
  rw [accumulate_eq_spec, Prod.mk.injEq] at hacc
  have hn : specNormalizedScore (scenarioFeatures : List ℝ) scenarioWeights = 1 / 18 := by
    rw [specNormalizedScore, hacc.1, hacc.2]
    norm_num
  have hdns : dnsIsNegative (scenarioFeatures : List ℝ) = true := by
    simp [dnsIsNegative, scenarioFeatures]
  have harg : (-(1 / 18 : ℝ) * 5) = -5 / 18 := by ring
  simp only [Option.getD_some, hn, hdns, predictionOfScore, harg, PHISHING_THRESHOLD, if_true]
  generalize 1 / (1 + Real.exp (-5 / 18)) = r at hlo hhi
  have habs : |r - 0.5| * 2 ≤ 0.5 := by
    have : |r - 0.5| ≤ 0.08 := by
      rw [abs_le]
      constructor <;> norm_num <;> linarith
    linarith
  have hmin : min 100 ((1 - r) * 100) = (1 - r) * 100 := min_eq_right (by linarith)
  have hmax : max 0 ((1 - r) * 100) = (1 - r) * 100 := max_eq_right (by linarith)
  refine ⟨trivial, hlo, hhi, by norm_num, ?_, max_eq_right habs, ?_, ?_, ?_⟩
  · rw [decide_eq_false_iff_not, not_le]
    norm_num
    linarith
  · rw [hmin, hmax]
  · rw [hmin, hmax]
    linarith
  · rw [hmin, hmax]
    linarith

/-- C5: for a model whose `feature_importances` is missing or has any length `W`,
and a feature array `f` of any length `L`, `predictPhishing` returns a Prediction;
the loop gives the same `(score, totalWeight)` on the two sequences cut to their
first `min(L, W)` entries; the Prediction is the one obtained with the weights cut
to their first `min(L, W)` entries; and a feature array `g` of the same length
that agrees with `f` below `min(L, W)` gets the same `riskScore`. -/
theorem predictPhishing_pairs_only (modelType : Option String) (nFeatures : Option Nat)
    (version : Option String) (w : Option (List ℝ)) (f g : List ℝ)
    (hlen : g.length = f.length)
    (hagree : ∀ i, i < min f.length (w.getD []).length → g[i]? = f[i]?) :
    ∃ p q, predictPhishing Real.exp (some ⟨modelType, w, nFeatures, version⟩) f = .ok p ∧
      accumulate (f.take (min f.length (w.getD []).length))
        ((w.getD []).take (min f.length (w.getD []).length)) = accumulate f (w.getD []) ∧
      predictPhishing Real.exp
        (some ⟨modelType, w.map (List.take (min f.length (w.getD []).length)),
          nFeatures, version⟩) f = .ok p ∧
      predictPhishing Real.exp (some ⟨modelType, w, nFeatures, version⟩) g = .ok q ∧
      q.riskScore = p.riskScore := by
  refine ⟨_, _, predictPhishing_some _ _ _, accumulate_take _ _, ?_,
    predictPhishing_some _ _ _, ?_⟩
  · rw [predictPhishing_some]
    cases w with
    | none => rfl
    | some ws =>
      simp only [Option.map_some', Option.getD_some]
      rw [specNormalizedScore_take_weights]
  · have hn : specNormalizedScore g (w.getD []) = specNormalizedScore f (w.getD []) := by
      apply specNormalizedScore_congr
      · rw [hlen]
      · intro i hi
        exact Or.inl (by rw [hagree i hi])
      · intro i _
        rfl
    simp only [predictionOfScore, hn]

/-- Witness for C5: weights `[2, 3]`, feature arrays `[1, -1, 1]` and `[1, -1, 0]`. -/
theorem predictPhishing_pairs_only_witness :
    ∃ p q, predictPhishing Real.exp (some ⟨none, some [2, 3], none, none⟩) [1, -1, 1] = .ok p ∧
      accumulate (([1, -1, 1] : List ℝ).take
          (min ([1, -1, 1] : List ℝ).length ((some [2, 3] : Option (List ℝ)).getD []).length))
        (((some [2, 3] : Option (List ℝ)).getD []).take
          (min ([1, -1, 1] : List ℝ).length ((some [2, 3] : Option (List ℝ)).getD []).length))
        = accumulate [1, -1, 1] ((some [2, 3] : Option (List ℝ)).getD []) ∧
      predictPhishing Real.exp
        (some ⟨none, (some [2, 3] : Option (List ℝ)).map
          (List.take (min ([1, -1, 1] : List ℝ).length
            ((some [2, 3] : Option (List ℝ)).getD []).length)), none, none⟩) [1, -1, 1] = .ok p ∧
      predictPhishing Real.exp (some ⟨none, some [2, 3], none, none⟩) [1, -1, 0] = .ok q ∧
      q.riskScore = p.riskScore :=
  predictPhishing_pairs_only none none none (some [2, 3]) [1, -1, 1] [1, -1, 0] rfl
    (by
      intro i hi
      have hi2 : i < 2 := by simpa using hi
      interval_cases i <;> simp)

/-- C6: only positive feature values enter the score.  For two feature arrays of
equal length that differ only at positions where both values are `<= 0`, and
whose last elements are both `< 0` or both `>= 0`, `predictPhishing` returns the
same Prediction (with any model loaded). -/
theorem predictPhishing_nonpositive_irrelevant (model : Model ℝ) (f g : List ℝ)
    (hlen : g.length = f.length)
    (hdiff : ∀ (i : Nat) (x y : ℝ), f[i]? = some x → g[i]? = some y → y = x ∨ (y ≤ 0 ∧ x ≤ 0))
    (hlast : ∀ d e, f.getLast? = some d → g.getLast? = some e → (e < 0 ↔ d < 0)) :
    predictPhishing Real.exp (some model) g = predictPhishing Real.exp (some model) f := by
  rw [predictPhishing_some, predictPhishing_some, dnsIsNegative_congr f g hlen hlast]
  have hn : specNormalizedScore g (model.feature_importances.getD []) =
      specNormalizedScore f (model.feature_importances.getD []) := by
    apply specNormalizedScore_congr
    · rw [hlen]
    · intro i hi
      have hif : i < f.length := lt_of_lt_of_le hi (min_le_left _ _)
      have hig : i < g.length := hlen ▸ hif
      have hx : f[i]? = some f[i] := List.getElem?_eq_getElem hif
      have hy : g[i]? = some g[i] := List.getElem?_eq_getElem hig
      have h := hdiff i f[i] g[i] hx hy
      rw [hx, hy]
      exact h
    · intro i _
      rfl
  rw [hn]

/-- Witness for C6: changing the -1 at index 1 to 0 under the weights `[2, 3, 4]`. -/
theorem predictPhishing_nonpositive_irrelevant_witness :
    predictPhishing Real.exp (some ⟨some "catboost", some [2, 3, 4], some 3, none⟩) [1, 0, -1] =
      predictPhishing Real.exp (some ⟨some "catboost", some [2, 3, 4], some 3, none⟩) [1, -1, -1] :=
  predictPhishing_nonpositive_irrelevant ⟨some "catboost", some [2, 3, 4], some 3, none⟩
    [1, -1, -1] [1, 0, -1] rfl
    (by
      intro i x y hx hy
      match i with
      | 0 => simp at hx hy; left; rw [← hx, ← hy]
      | 1 => simp at hx hy; right; rw [← hx, ← hy]; norm_num
      | 2 => simp at hx hy; left; rw [← hx, ← hy]
      | n + 3 => simp at hx)
    (by
      intro d e hd he
      simp at hd he
      rw [← hd, ← he])

end ClassifierReal

/-! ### Model store -/

section ModelStore

variable {α : Type}

theorem loadModel_storage (getOk : Bool) (s : State α) :
    (loadModel getOk s).2.storage = s.storage ∧
      (loadModel getOk s).2.alarms = s.alarms ∧
      (loadModel getOk s).2.trace = s.trace ++ [.storageGet ["cache"]] := by
  unfold loadModel
  cases getOk <;> cases h : s.storage.cache <;> simp [State.emit, h]

theorem loadModel_cached (s : State α) (M : Model α) (hM : s.storage.cache = some M) :
    loadModel true s =
      (true, { s.emit (.storageGet ["cache"]) with modelCache := some M }) := by
  simp [loadModel, State.emit, hM]

theorem loadModel_unreadable (s : State α) :
    loadModel false s = (false, s.emit (.storageGet ["cache"])) := by
  simp [loadModel]

theorem loadModel_absent (getOk : Bool) (s : State α) (hnone : s.storage.cache = none) :
    loadModel getOk s = (false, s.emit (.storageGet ["cache"])) := by
  cases getOk <;> simp [loadModel, State.emit, hnone]

theorem updateModel_of_fails (env : UpdateEnv α) (s : State α)
    (hfail : env.fetchOrValidationFails = true) :
    updateModel env s = updateModelCatch env (s.emit .fetchModel) := by
  unfold updateModel
  unfold UpdateEnv.fetchOrValidationFails at hfail
  cases hf : env.modelFetch with
  | networkError => rfl
  | httpError status => rfl
  | invalidJson => rfl
  | ok modelData =>
    rw [hf] at hfail
    have hfail2 : (modelTypeFalsy modelData.model_type ||
        featureImportancesFalsy modelData.feature_importances) = true := hfail
    simp only [hfail2, if_true]

theorem updateModelCatch_storage (env : UpdateEnv α) (s : State α) :
    (updateModelCatch env s).2.storage = s.storage := by
  simp only [updateModelCatch]
  split <;> exact (loadModel_storage env.getOk s).1

/-- C7, counterexample: a model is persisted under `cache`, the model fetch is
lost to a network error, and the storage read of `loadModel` is rejected; then
`updateModel` raises instead of returning false, and the current model is not
the persisted one. -/
theorem updateModel_failure_counterexample :
    (freshState exampleStorage).storage.cache = some exampleModel ∧
      (networkDownEnv false).modelFetch = .networkError ∧
      (updateModel (networkDownEnv false) (freshState exampleStorage)).1 =
        .error "No model available and update failed" ∧
      (updateModel (networkDownEnv false) (freshState exampleStorage)).2.modelCache = none :=
  ⟨rfl, rfl, rfl, rfl⟩

/-- C7, amended: when a model `M` is persisted under `cache` and the model fetch
fails or the fetched document fails validation, `updateModel` leaves the persisted
model and its metadata unchanged; if the storage read of `loadModel` succeeds it
returns false without raising and the current model after the call is `M`; if that
read is rejected it raises 'No model available and update failed' and leaves the
current model as it was. -/
theorem updateModel_failure_keeps_cache (env : UpdateEnv α) (s : State α) (M : Model α)
    (hM : s.storage.cache = some M) (hfail : env.fetchOrValidationFails = true) :
    (updateModel env s).2.storage = s.storage ∧
      (if env.getOk then
        (updateModel env s).1 = .ok false ∧ (updateModel env s).2.modelCache = some M
      else
        (updateModel env s).1 = .error "No model available and update failed" ∧
          (updateModel env s).2.modelCache = s.modelCache) := by
  rw [updateModel_of_fails env s hfail]
  refine ⟨updateModelCatch_storage env _, ?_⟩
  have hM2 : (s.emit .fetchModel).storage.cache = some M := hM
  cases hg : env.getOk with
  | true =>
    simp only [updateModelCatch, hg, loadModel_cached _ M hM2, if_true]
    exact ⟨rfl, rfl⟩
  | false =>
    simp only [updateModelCatch, hg, loadModel_unreadable]
    exact ⟨rfl, rfl⟩

/-- Witness for C7: `exampleModel` is persisted, the network is down and storage
reads succeed. -/
theorem updateModel_failure_keeps_cache_witness :
    (updateModel (networkDownEnv true) (freshState exampleStorage)).2.storage =
        (freshState exampleStorage).storage ∧
      (if (networkDownEnv true).getOk then
        (updateModel (networkDownEnv true) (freshState exampleStorage)).1 = .ok false ∧
          (updateModel (networkDownEnv true) (freshState exampleStorage)).2.modelCache =
            some exampleModel
      else
        (updateModel (networkDownEnv true) (freshState exampleStorage)).1 =
            .error "No model available and update failed" ∧
          (updateModel (networkDownEnv true) (freshState exampleStorage)).2.modelCache =
            (freshState exampleStorage).modelCache) :=
  updateModel_failure_keeps_cache (networkDownEnv true) (freshState exampleStorage)
    exampleModel rfl rfl

/-- C9: when no model is persisted under `cache` and the model fetch fails or the
fetched document fails validation, `updateModel` raises the error
'No model available and update failed' (whatever the storage read does), writes
nothing, and leaves the current model as it was, so an empty slot stays empty. -/
theorem updateModel_fatal (env : UpdateEnv α) (s : State α)
    (hnone : s.storage.cache = none) (hfail : env.fetchOrValidationFails = true) :
    (updateModel env s).1 = .error "No model available and update failed" ∧
      (updateModel env s).2.modelCache = s.modelCache ∧
      (updateModel env s).2.storage = s.storage := by
  rw [updateModel_of_fails env s hfail]
  have hnone2 : (s.emit .fetchModel).storage.cache = none := hnone
  simp only [updateModelCatch, loadModel_absent env.getOk _ hnone2]
  exact ⟨rfl, rfl, rfl⟩

/-- Witness for C9: nothing is persisted and the network is down. -/
theorem updateModel_fatal_witness :
    (updateModel (networkDownEnv true) (freshState emptyStorage)).1 =
        .error "No model available and update failed" ∧
      (updateModel (networkDownEnv true) (freshState emptyStorage)).2.modelCache =
        (freshState emptyStorage).modelCache ∧
      (updateModel (networkDownEnv true) (freshState emptyStorage)).2.storage =
        (freshState emptyStorage).storage :=
  updateModel_fatal (networkDownEnv true) (freshState emptyStorage) rfl rfl

theorem getModelMetadata_eq (metadataFetch : FetchResult (List RevisionRecord)) (s : State α) :
    getModelMetadata metadataFetch s =
      ({ lastCommitSha := (latestRevision metadataFetch).bind (fun r => r.sha)
         lastUpdateTime := (latestRevision metadataFetch).bind (fun r => r.time) },
       s.emit .fetchMetadata) := by
  unfold getModelMetadata latestRevision
  cases metadataFetch with
  | networkError => rfl
  | httpError status => rfl
  | invalidJson => rfl
  | ok data =>
    cases data with
    | nil => rfl
    | cons first rest => rfl

theorem updateModelCatch_cases (env : UpdateEnv α) (s : State α) :
    ((updateModelCatch env s).1 = .ok false ∨
        (updateModelCatch env s).1 = .error "No model available and update failed") ∧
      (updateModelCatch env s).2.storage = s.storage ∧
      (updateModelCatch env s).2.trace = s.trace ++ [.storageGet ["cache"]] ∧
      ((updateModelCatch env s).2.modelCache = s.modelCache ∨
        (updateModelCatch env s).2.modelCache = s.storage.cache) := by
  simp only [updateModelCatch, loadModel]
  cases env.getOk <;> cases h : s.storage.cache <;> simp [State.emit, h]

/-- C8, counterexample: a fetched document in which `model_type` is present, as
the empty string, and `feature_importances` is present is rejected, not persisted
and not published; and a valid document whose storage write is rejected is not
published and `updateModel` does not return true. -/
theorem updateModel_fetched_counterexample :
    (updateModel (deliveringEnv { exampleModel with model_type := some "" } true)
        (freshState emptyStorage)) =
      (.error "No model available and update failed",
        { freshState emptyStorage with trace := [.fetchModel, .storageGet ["cache"]] }) ∧
    (updateModel (deliveringEnv exampleModel false) (freshState emptyStorage)).1 =
      .error "No model available and update failed" ∧
    (updateModel (deliveringEnv exampleModel false) (freshState emptyStorage)).2.modelCache =
      none :=
  ⟨rfl, rfl, rfl⟩

/-- C8, amended: for a successfully fetched document `modelData`.  If `model_type`
is absent or the empty string, or `feature_importances` is absent, `updateModel`
does not return true, issues no storage write, leaves the persisted state
unchanged, and the current model stays what it was or becomes the persisted model.
Otherwise it issues exactly one storage write, carrying `cache = modelData`,
`modelSha` = the revision id of the latest revision record (no value when there
is none), `modelLastUpdate` = that record's time if it has one other than 0 and
the current time otherwise, `modelLastCheck` = the current time; when the write
succeeds, the store takes these values (`modelSha` keeps its old value when the
write carries none), the current model becomes `modelData` and `updateModel`
returns true; when the write is rejected nothing is persisted and `updateModel`
does not return true. -/
theorem updateModel_fetched (env : UpdateEnv α) (s : State α) (modelData : Model α)
    (hfetch : env.modelFetch = .ok modelData) :
    if modelTypeFalsy modelData.model_type ||
        featureImportancesFalsy modelData.feature_importances then
      ((updateModel env s).1 = .ok false ∨
        (updateModel env s).1 = .error "No model available and update failed") ∧
      (updateModel env s).2.storage = s.storage ∧
      (updateModel env s).2.trace = s.trace ++ [.fetchModel, .storageGet ["cache"]] ∧
      ((updateModel env s).2.modelCache = s.modelCache ∨
        (updateModel env s).2.modelCache = s.storage.cache)
    else if env.setOk then
      updateModel env s =
        (.ok true,
          { modelCache := some modelData
            storage :=
              { cache := some modelData
                modelSha := writeKey ((latestRevision env.metadataFetch).bind (fun r => r.sha))
                  s.storage.modelSha
                modelLastUpdate := some (timeOrNow
                  ((latestRevision env.metadataFetch).bind (fun r => r.time)) env.nowUpdate)
                modelLastCheck := some env.nowCheck
                predictions := s.storage.predictions }
            alarms := s.alarms
            trace := s.trace ++ [.fetchModel, .fetchMetadata, .storageSet
              { cache := some modelData
                modelSha := (latestRevision env.metadataFetch).bind (fun r => r.sha)
                modelLastUpdate := some (timeOrNow
                  ((latestRevision env.metadataFetch).bind (fun r => r.time)) env.nowUpdate)
                modelLastCheck := some env.nowCheck }] })
    else
      ((updateModel env s).1 = .ok false ∨
        (updateModel env s).1 = .error "No model available and update failed") ∧
      (updateModel env s).2.storage = s.storage ∧
      (updateModel env s).2.trace = s.trace ++ [.fetchModel, .fetchMetadata, .storageSet
          { cache := some modelData
            modelSha := (latestRevision env.metadataFetch).bind (fun r => r.sha)
            modelLastUpdate := some (timeOrNow
              ((latestRevision env.metadataFetch).bind (fun r => r.time)) env.nowUpdate)
            modelLastCheck := some env.nowCheck },
          .storageGet ["cache"]] ∧
      ((updateModel env s).2.modelCache = s.modelCache ∨
        (updateModel env s).2.modelCache = s.storage.cache) := by
  by_cases hv : (modelTypeFalsy modelData.model_type ||
      featureImportancesFalsy modelData.feature_importances) = true
  · rw [if_pos hv]
    have hfail : env.fetchOrValidationFails = true := by
      simp only [UpdateEnv.fetchOrValidationFails, hfetch]
      exact hv
    rw [updateModel_of_fails env s hfail]
    obtain ⟨h1, h2, h3, h4⟩ := updateModelCatch_cases env (s.emit .fetchModel)
    refine ⟨h1, h2, ?_, h4⟩
    rw [h3]
    simp [State.emit]
  · rw [if_neg hv]
    cases hset : env.setOk with
    | true =>
      simp only [if_true]
      simp only [updateModel, hfetch, hv, hset, getModelMetadata_eq, updateItems, State.emit,
        Storage.set, if_true, Bool.false_eq_true, if_false, List.append_assoc,
        List.singleton_append, List.cons_append, List.nil_append]
      rfl
    | false =>
      simp only [Bool.false_eq_true, if_false]
      have hrun : updateModel env s = updateModelCatch env
          (((s.emit .fetchModel).emit .fetchMetadata).emit (.storageSet
            { cache := some modelData
              modelSha := (latestRevision env.metadataFetch).bind (fun r => r.sha)
              modelLastUpdate := some (timeOrNow
                ((latestRevision env.metadataFetch).bind (fun r => r.time)) env.nowUpdate)
              modelLastCheck := some env.nowCheck })) := by
        simp only [updateModel, hfetch, hv, hset, getModelMetadata_eq, updateItems,
          Bool.false_eq_true, if_false]
      rw [hrun]
      obtain ⟨h1, h2, h3, h4⟩ := updateModelCatch_cases env
        (((s.emit .fetchModel).emit .fetchMetadata).emit (.storageSet
            { cache := some modelData
              modelSha := (latestRevision env.metadataFetch).bind (fun r => r.sha)
              modelLastUpdate := some (timeOrNow
                ((latestRevision env.metadataFetch).bind (fun r => r.time)) env.nowUpdate)
              modelLastCheck := some env.nowCheck }))
      refine ⟨h1, h2, ?_, h4⟩
      rw [h3]
      simp [State.emit]

/-- Witness for C8: `exampleModel` is delivered with one revision record and the
storage write succeeds. -/
theorem updateModel_fetched_witness :
    (deliveringEnv exampleModel true).modelFetch = .ok exampleModel ∧
      updateModel (deliveringEnv exampleModel true) (freshState emptyStorage) =
        (.ok true,
          { modelCache := some exampleModel
            storage :=
              { cache := some exampleModel
                modelSha := some "def5678"
                modelLastUpdate := some 4000
                modelLastCheck := some 5001
                predictions := [] }
            alarms := []
            trace := [.fetchModel, .fetchMetadata, .storageSet
              { cache := some exampleModel
                modelSha := some "def5678"
                modelLastUpdate := some 4000
                modelLastCheck := some 5001 }] }) :=
  ⟨rfl, updateModel_fetched (deliveringEnv exampleModel true) (freshState emptyStorage)
    exampleModel rfl⟩

end ModelStore

/-! ### Classification without a model -/

section NoModel

variable {α : Type} [LinearOrderedField α]

/-- C10: when no model is loaded and none is persisted, `predictPhishing` raises
'Model not loaded' on every feature array, and `handleFeatureExtraction` returns
`{ success: false, error: 'Model not available' }` on every feature message; its
only external call is the storage read of `loadModel`, so no alert is sent and
no per-tab prediction is stored. -/
theorem no_model_no_prediction (exp : α → α) (env : FeatureEnv) (features : FeatureMessage)
    (sender : Sender) (featureArray : List α) (s : State α)
    (hcache : s.modelCache = none) (hstore : s.storage.cache = none) :
    predictPhishing exp s.modelCache featureArray = .error "Model not loaded" ∧
      handleFeatureExtraction exp env features sender s =
        (.failure "Model not available", s.emit (.storageGet ["cache"])) := by
  constructor
  · rw [hcache]
    rfl
  · simp only [handleFeatureExtraction, hcache, Option.isNone_none, if_true,
      loadModel_absent env.getOk s hstore]
    have hemit : (s.emit (.storageGet ["cache"])).modelCache = none := hcache
    simp only [hemit, Option.isNone_none, if_true]

/-- Witness for C10: the empty state, a message carrying one signal, over the
real numbers with the exponential function. -/
theorem no_model_no_prediction_witness :
    predictPhishing Real.exp (freshState emptyStorage).modelCache [1, -1] =
        .error "Model not loaded" ∧
      handleFeatureExtraction Real.exp
          { getOk := true, sendOk := true, setError := none, now := 7000 }
          [("IP Address", "1")] { tabId := 3, url := "http://192.168.1.1/" }
          (freshState emptyStorage) =
        (.failure "Model not available",
          (freshState emptyStorage).emit (.storageGet ["cache"])) :=
  no_model_no_prediction Real.exp
    { getOk := true, sendOk := true, setError := none, now := 7000 }
    [("IP Address", "1")] { tabId := 3, url := "http://192.168.1.1/" } [1, -1]
    (freshState emptyStorage) rfl rfl

end NoModel

/-! ### Staleness check -/

section StalenessCheck

variable {α : Type}

theorem lastCheckOrZero_eq (t : Option Int) : lastCheckOrZero t = t.getD 0 := by
  cases t with
  | none => rfl
  | some v =>
    by_cases hv : v = 0
    · simp [lastCheckOrZero, hv]
    · simp [lastCheckOrZero, hv]

theorem checkForModelUpdate_unread (env : CheckEnv) (s : State α) (hget : env.getOk = false) :
    checkForModelUpdate env s = (false, s.emit (.storageGet ["modelSha", "modelLastCheck"])) := by
  simp [checkForModelUpdate, hget]

theorem checkForModelUpdate_recent (env : CheckEnv) (s : State α) (hget : env.getOk = true)
    (hrecent : s.storage.modelLastCheck.getD 0 > env.nowStart - hourMs) :
    checkForModelUpdate env s = (false, s.emit (.storageGet ["modelSha", "modelLastCheck"])) := by
  have h : lastCheckOrZero (s.emit (.storageGet ["modelSha", "modelLastCheck"])).storage.modelLastCheck
      > env.nowStart - 60 * 60 * 1000 := by
    rw [lastCheckOrZero_eq]
    exact hrecent
  simp only [checkForModelUpdate, hget, Bool.not_true, Bool.false_eq_true, if_false, h, if_true]

theorem checkForModelUpdate_stale (env : CheckEnv) (s : State α) (hget : env.getOk = true)
    (hstale : s.storage.modelLastCheck.getD 0 ≤ env.nowStart - hourMs) :
    checkForModelUpdate env s =
      if shaFalsy ((latestRevision env.metadataFetch).bind (fun r => r.sha)) then
        (false, (s.emit (.storageGet ["modelSha", "modelLastCheck"])).emit .fetchMetadata)
      else if env.setOk then
        (shaFalsy s.storage.modelSha ||
            decide (s.storage.modelSha ≠ (latestRevision env.metadataFetch).bind (fun r => r.sha)),
          { modelCache := s.modelCache
            storage := { s.storage with modelLastCheck := some env.nowSet }
            alarms := s.alarms
            trace := s.trace ++ [.storageGet ["modelSha", "modelLastCheck"], .fetchMetadata,
              .storageSet { modelLastCheck := some env.nowSet }] })
      else
        (false, ((s.emit (.storageGet ["modelSha", "modelLastCheck"])).emit .fetchMetadata).emit
          (.storageSet { modelLastCheck := some env.nowSet })) := by
  have h : ¬ lastCheckOrZero
      (s.emit (.storageGet ["modelSha", "modelLastCheck"])).storage.modelLastCheck
      > env.nowStart - 60 * 60 * 1000 := by
    rw [lastCheckOrZero_eq]
    exact not_lt.mpr hstale
  simp only [checkForModelUpdate, hget, Bool.not_true, Bool.false_eq_true, if_false, h,
    getModelMetadata_eq]
  by_cases hsha : shaFalsy ((latestRevision env.metadataFetch).bind (fun r => r.sha)) = true
  · simp only [hsha, if_true]
  · simp only [hsha, if_false, Bool.false_eq_true]
    cases hset : env.setOk with
    | true =>
      simp only [if_true, State.emit, Storage.set, writeKey, List.append_assoc,
        List.singleton_append, List.cons_append, List.nil_append]
    | false => simp only [Bool.false_eq_true, if_false]

/-- C11, counterexample: the stored last check is more than one hour old, the
metadata fetch is lost to a network error, and `checkForModelUpdate` returns
false with the persisted `modelLastCheck` still at its old value 1000, not at
the current time. -/
theorem checkForModelUpdate_lastCheck_counterexample :
    checkedStorage.modelLastCheck = some 1000 ∧
      (checkEnvAt (1000 + 2 * hourMs) .networkError true true).nowStart - 1000 ≥ hourMs ∧
      checkForModelUpdate (checkEnvAt (1000 + 2 * hourMs) .networkError true true)
          (freshState checkedStorage) =
        (false,
          { freshState checkedStorage with
            trace := [.storageGet ["modelSha", "modelLastCheck"], .fetchMetadata] }) ∧
      (checkForModelUpdate (checkEnvAt (1000 + 2 * hourMs) .networkError true true)
          (freshState checkedStorage)).2.storage.modelLastCheck = some 1000 := by
  refine ⟨rfl, by decide, rfl, rfl⟩

/-- C11, amended: when `checkForModelUpdate` is not skipped (the storage read
succeeds and the stored last-check time, 0 when absent, is at least one hour
old), it sets the persisted `modelLastCheck` to the current time, and changes
nothing else, exactly when the metadata fetch returned a non-empty revision id
and the storage write succeeds, whether or not an update is needed; when the
metadata fetch failed or returned no revision id, or the write is rejected, it
returns false and leaves the persisted state, `modelLastCheck` included, as it
was. -/
theorem checkForModelUpdate_lastCheck (env : CheckEnv) (s : State α)
    (hget : env.getOk = true)
    (hstale : env.nowStart - s.storage.modelLastCheck.getD 0 ≥ hourMs) :
    if shaFalsy ((latestRevision env.metadataFetch).bind (fun r => r.sha)) = false ∧
        env.setOk = true then
      (checkForModelUpdate env s).2.storage =
        { s.storage with modelLastCheck := some env.nowSet }
    else
      (checkForModelUpdate env s).1 = false ∧
        (checkForModelUpdate env s).2.storage = s.storage := by
  have hstale2 : s.storage.modelLastCheck.getD 0 ≤ env.nowStart - hourMs := by linarith
  rw [checkForModelUpdate_stale env s hget hstale2]
  by_cases hsha : shaFalsy ((latestRevision env.metadataFetch).bind (fun r => r.sha)) = true
  · simp [hsha, State.emit]
  · cases hset : env.setOk with
    | true => simp [hsha]
    | false => simp [hsha, State.emit]

/-- Witness for C11: a stale last check, a revision id delivered, the write
succeeds. -/
theorem checkForModelUpdate_lastCheck_witness :
    (checkForModelUpdate (checkEnvAt (1000 + 2 * hourMs) (revisionAnswer "def5678") true true)
        (freshState checkedStorage)).2.storage =
      { (freshState checkedStorage).storage with
        modelLastCheck := some (checkEnvAt (1000 + 2 * hourMs) (revisionAnswer "def5678")
          true true).nowSet } :=
  checkForModelUpdate_lastCheck
    (checkEnvAt (1000 + 2 * hourMs) (revisionAnswer "def5678") true true)
    (freshState checkedStorage) rfl (by decide)

theorem metadataFetchCount_emit (s : State α) (e : Effect α) :
    metadataFetchCount (s.emit e).trace =
      metadataFetchCount s.trace + (if e.isFetchMetadata then 1 else 0) := by
  simp only [metadataFetchCount, State.emit, List.countP_append, List.countP_cons,
    List.countP_nil, Nat.zero_add]

theorem metadataFetchCount_skipped (env : CheckEnv) (s : State α)
    (hskip : env.getOk = false ∨ s.storage.modelLastCheck.getD 0 > env.nowStart - hourMs) :
    metadataFetchCount (checkForModelUpdate env s).2.trace = metadataFetchCount s.trace := by
  have h : checkForModelUpdate env s =
      (false, s.emit (.storageGet ["modelSha", "modelLastCheck"])) := by
    cases hget : env.getOk with
    | false => exact checkForModelUpdate_unread env s hget
    | true =>
      rcases hskip with h1 | h2
      · rw [hget] at h1
        exact absurd h1 (by decide)
      · exact checkForModelUpdate_recent env s hget h2
  rw [h, metadataFetchCount_emit]
  rfl

theorem metadataFetchCount_le (env : CheckEnv) (s : State α) :
    metadataFetchCount (checkForModelUpdate env s).2.trace ≤ metadataFetchCount s.trace + 1 := by
  by_cases hskip : env.getOk = false ∨ s.storage.modelLastCheck.getD 0 > env.nowStart - hourMs
  · rw [metadataFetchCount_skipped env s hskip]
    exact Nat.le_succ _
  · have hget : env.getOk = true := by
      cases hg : env.getOk with
      | true => rfl
      | false => exact absurd (Or.inl hg) hskip
    have hstale : s.storage.modelLastCheck.getD 0 ≤ env.nowStart - hourMs :=
      not_lt.mp (fun h => hskip (Or.inr h))
    rw [checkForModelUpdate_stale env s hget hstale]
    split
    · simp [metadataFetchCount_emit, Effect.isFetchMetadata]
    · split
      · simp [metadataFetchCount, List.countP_append, List.countP_cons, Effect.isFetchMetadata]
      · simp [metadataFetchCount_emit, Effect.isFetchMetadata]

/-- C12, counterexample: nothing is stored, the first check loses its metadata
fetch to a network error and so records no check time, and a second check one
second later fetches again: two metadata fetches less than one hour apart. -/
theorem checkForModelUpdate_batching_counterexample :
    (checkEnvAt (2 * hourMs + 1000) .networkError true true).nowStart -
        (checkEnvAt (2 * hourMs) .networkError true true).nowStart < hourMs ∧
      metadataFetchCount
        (checkForModelUpdate (checkEnvAt (2 * hourMs + 1000) .networkError true true)
          (checkForModelUpdate (checkEnvAt (2 * hourMs) .networkError true true)
            (freshState (emptyStorage : Storage ℚ))).2).2.trace = 2 := by
  refine ⟨by decide, rfl⟩

/-- C12, amended: two consecutive `checkForModelUpdate` calls whose clock readings
are less than one hour apart perform at most one metadata fetch in total, for
every initial state and every outcome of the storage reads and of the second
call, provided that the first call's metadata fetch returns a non-empty revision
id and its storage write succeeds (so that the first call, if it fetches, records
its check time). -/
theorem checkForModelUpdate_batching (env₁ env₂ : CheckEnv) (s : State α)
    (hclock : env₁.nowStart ≤ env₁.nowSet)
    (hclose : env₂.nowStart - env₁.nowStart < hourMs)
    (hsha : shaFalsy ((latestRevision env₁.metadataFetch).bind (fun r => r.sha)) = false)
    (hset : env₁.setOk = true) :
    metadataFetchCount (checkForModelUpdate env₂ (checkForModelUpdate env₁ s).2).2.trace ≤
      metadataFetchCount s.trace + 1 := by
  by_cases hskip : env₁.getOk = false ∨
      s.storage.modelLastCheck.getD 0 > env₁.nowStart - hourMs
  · calc metadataFetchCount (checkForModelUpdate env₂ (checkForModelUpdate env₁ s).2).2.trace
        ≤ metadataFetchCount (checkForModelUpdate env₁ s).2.trace + 1 :=
          metadataFetchCount_le env₂ _
      _ = metadataFetchCount s.trace + 1 := by rw [metadataFetchCount_skipped env₁ s hskip]
  · have hget : env₁.getOk = true := by
      cases hg : env₁.getOk with
      | true => rfl
      | false => exact absurd (Or.inl hg) hskip
    have hstale : s.storage.modelLastCheck.getD 0 ≤ env₁.nowStart - hourMs :=
      not_lt.mp (fun h => hskip (Or.inr h))
    have hfirst := checkForModelUpdate_stale env₁ s hget hstale
    simp only [hsha, hset, Bool.false_eq_true, if_false, if_true] at hfirst
    have hrecent : (checkForModelUpdate env₁ s).2.storage.modelLastCheck.getD 0 >
        env₂.nowStart - hourMs := by
      rw [hfirst]
      simp only [Option.getD_some]
      linarith
    rw [metadataFetchCount_skipped env₂ _ (Or.inr hrecent), hfirst]
    simp [metadataFetchCount, List.countP_append, List.countP_cons, Effect.isFetchMetadata]

/-- Witness for C12: the first check gets a revision id and records its time; the
second, one second later, is skipped. -/
theorem checkForModelUpdate_batching_witness :
    metadataFetchCount
        (checkForModelUpdate (checkEnvAt (2 * hourMs + 1000) .networkError true true)
          (checkForModelUpdate (checkEnvAt (2 * hourMs) (revisionAnswer "def5678") true true)
            (freshState (emptyStorage : Storage ℚ))).2).2.trace ≤
      metadataFetchCount (freshState (emptyStorage : Storage ℚ)).trace + 1 :=
  checkForModelUpdate_batching (checkEnvAt (2 * hourMs) (revisionAnswer "def5678") true true)
    (checkEnvAt (2 * hourMs + 1000) .networkError true true) (freshState emptyStorage)
    (by decide) (by decide) rfl rfl

/-- C13, counterexample: the stored last check is two hours old, but the storage
read is rejected, and `checkForModelUpdate` returns false without a metadata
fetch. -/
theorem checkForModelUpdate_skip_counterexample :
    checkedStorage.modelLastCheck = some 1000 ∧
      (checkEnvAt (1000 + 2 * hourMs) (revisionAnswer "def5678") false true).nowStart - 1000
        ≥ hourMs ∧
      checkForModelUpdate (checkEnvAt (1000 + 2 * hourMs) (revisionAnswer "def5678") false true)
          (freshState checkedStorage) =
        (false,
          { freshState checkedStorage with
            trace := [.storageGet ["modelSha", "modelLastCheck"]] }) := by
  refine ⟨rfl, by decide, rfl⟩

/-- C13, amended: if the current time minus the persisted `modelLastCheck` (0 when
none is stored) is less than one hour, or the storage read is rejected,
`checkForModelUpdate` returns false without performing any metadata fetch and
without changing persisted state: its only external call is the storage read.
If the storage read succeeds and the difference is exactly one hour or more, it
does not skip: its next external call is the metadata fetch. -/
theorem checkForModelUpdate_skip (env : CheckEnv) (s : State α) :
    if env.getOk = true ∧ env.nowStart - s.storage.modelLastCheck.getD 0 ≥ hourMs then
      ∃ rest, (checkForModelUpdate env s).2.trace =
        s.trace ++ [.storageGet ["modelSha", "modelLastCheck"], .fetchMetadata] ++ rest
    else
      checkForModelUpdate env s =
        (false, s.emit (.storageGet ["modelSha", "modelLastCheck"])) := by
  by_cases h : env.getOk = true ∧ env.nowStart - s.storage.modelLastCheck.getD 0 ≥ hourMs
  · rw [if_pos h]
    have hstale : s.storage.modelLastCheck.getD 0 ≤ env.nowStart - hourMs := by linarith [h.2]
    rw [checkForModelUpdate_stale env s h.1 hstale]
    split
    · exact ⟨[], by simp [State.emit]⟩
    · split
      · exact ⟨[.storageSet { modelLastCheck := some env.nowSet }], by simp⟩
      · exact ⟨[.storageSet { modelLastCheck := some env.nowSet }], by simp [State.emit]⟩
  · rw [if_neg h]
    cases hget : env.getOk with
    | false => exact checkForModelUpdate_unread env s hget
    | true =>
      have hrecent : s.storage.modelLastCheck.getD 0 > env.nowStart - hourMs := by
        by_contra hc
        exact h ⟨hget, by linarith [not_lt.mp hc]⟩
      exact checkForModelUpdate_recent env s hget hrecent

end StalenessCheck

/-! ### Signals of the extractor -/

section Signals

theorem splitChar_length (separator : Char) (text : List Char) :
    (splitChar separator text).length = text.count separator + 1 := by
  induction text with
  | nil => rfl
  | cons c rest ih =>
    unfold splitChar
    by_cases hc : c = separator
    · subst hc
      simp [ih]
    · have hne : (c == separator) = false := by simpa using hc
      rw [if_neg hc, List.count_cons, hne]
      cases hs : splitChar separator rest with
      | nil => rw [hs] at ih; simp at ih
      | cons part parts =>
        rw [hs] at ih
        simpa using ih

/-- C17: URL Length signal.  For every page URL, `extractFeatures` sets URL Length
to `"-1"` when the URL has fewer than 54 characters, to `"0"` when it has between
54 and 75 characters, and to `"1"` when it has more than 75; URLs of 53, 54, 75
and 76 characters get `"-1"`, `"0"`, `"0"` and `"1"`. -/
theorem extractFeatures_urlLength (page : Page) (dns : Option String) :
    (extractFeatures page dns).lookup "URL Length" =
        some (if page.href.length < 54 then "-1"
          else if page.href.length ≤ 75 then "0" else "1") ∧
      (extractFeatures { page with href := urlOfLength 53 } dns).lookup "URL Length" = some "-1" ∧
      (extractFeatures { page with href := urlOfLength 54 } dns).lookup "URL Length" = some "0" ∧
      (extractFeatures { page with href := urlOfLength 75 } dns).lookup "URL Length" = some "0" ∧
      (extractFeatures { page with href := urlOfLength 76 } dns).lookup "URL Length" = some "1" := by
  have hlook : ∀ (pg : Page), (extractFeatures pg dns).lookup "URL Length" =
      some (urlLengthSignal pg.href) := by
    intro pg
    simp [extractFeatures, List.lookup]
  have hlen : ∀ n, (urlOfLength n).length = n := by
    intro n
    simp [urlOfLength, String.length]
  refine ⟨?_, ?_, ?_, ?_, ?_⟩
  · rw [hlook, urlLengthSignal]
    by_cases h1 : page.href.length < 54
    · simp [h1]
    · by_cases h2 : page.href.length ≤ 75
      · simp [h1, h2, not_lt.mp h1]
      · simp [h1, h2]
  all_goals
    rw [hlook]
    simp [urlLengthSignal, hlen]

/-- C18: Sub Domains signal.  For every hostname with `p` dot-separated parts,
`extractFeatures` sets Sub Domains to `"-1"` when `p - 2 <= 1`, to `"0"` when
`p - 2 = 2`, and to `"1"` when `p - 2 > 2`; `www.example.com` gets `"-1"`,
`a.b.example.com` gets `"0"` and `a.b.c.example.com` gets `"1"`. -/
theorem extractFeatures_subDomains (page : Page) (dns : Option String) :
    (extractFeatures page dns).lookup "Sub Domains" =
        some (if (dotParts page.hostname : Int) - 2 ≤ 1 then "-1"
          else if (dotParts page.hostname : Int) - 2 = 2 then "0" else "1") ∧
      (extractFeatures { page with hostname := "www.example.com" } dns).lookup "Sub Domains" =
        some "-1" ∧
      (extractFeatures { page with hostname := "a.b.example.com" } dns).lookup "Sub Domains" =
        some "0" ∧
      (extractFeatures { page with hostname := "a.b.c.example.com" } dns).lookup "Sub Domains" =
        some "1" := by
  have hlook : ∀ (pg : Page), (extractFeatures pg dns).lookup "Sub Domains" =
      some (subDomainsSignal pg.hostname) := by
    intro pg
    simp [extractFeatures, List.lookup]
  refine ⟨?_, ?_, ?_, ?_⟩
  · rw [hlook, subDomainsSignal, splitChar_length, dotParts]
  · rw [hlook]; rfl
  · rw [hlook]; rfl
  · rw [hlook]; rfl

theorem any_perm {β : Type} (p : β → Bool) {l₁ l₂ : List β} (h : l₁.Perm l₂) :
    l₁.any p = l₂.any p := by
  rw [Bool.eq_iff_iff, List.any_eq_true, List.any_eq_true]
  constructor
  · rintro ⟨x, hx, hp⟩
    exact ⟨x, h.mem_iff.mp hx, hp⟩
  · rintro ⟨x, hx, hp⟩
    exact ⟨x, h.mem_iff.mpr hx, hp⟩

theorem sfhLoop_eq (urlDomain : String) (actions : List (Option String)) (res : String) :
    sfhLoop (onlyDomainOf urlDomain.toList) actions res =
      if actions.any actionIsBlank then "1"
      else if actions.any (actionIsForeign urlDomain) then "0" else res := by
  induction actions generalizing res with
  | nil => simp [sfhLoop]
  | cons action rest ih =>
    cases action with
    | none => simp [sfhLoop, actionIsBlank]
    | some a =>
      by_cases hb : (a = "" ∨ a = "#")
      · simp [sfhLoop, actionIsBlank, hb]
      · have hb2 : ¬ a = "" ∧ ¬ a = "#" := not_or.mp hb
        by_cases hf : actionIsForeign urlDomain (some a) = true
        · have hf2 := hf
          simp only [actionIsForeign] at hf2
          simp only [sfhLoop, List.any_cons, actionIsBlank, hb2.1, hb2.2, decide_False,
            Bool.or_self, Bool.false_or, hf, hf2, Bool.true_or, if_true, if_false,
            Bool.false_eq_true]
          rw [ih]
          split <;> simp
        · have hf2 := hf
          simp only [actionIsForeign] at hf2
          simp only [sfhLoop, List.any_cons, actionIsBlank, hb2.1, hb2.2, decide_False,
            Bool.or_self, Bool.false_or, hf, hf2, if_false, Bool.false_eq_true]
          rw [ih]

/-- C16: SFH signal, worst case wins.  For the forms of the page taken in any
order, `extractFeatures` sets SFH to `"1"` if any form's action is empty, absent
or `"#"`; otherwise to `"0"` if any form's action neither starts with `"/"` nor
matches the page domain; otherwise (also with no forms) to `"-1"`. -/
theorem extractFeatures_sfh (page : Page) (dns : Option String) (forms : List (Option String))
    (hperm : forms.Perm page.formAction) :
    (extractFeatures page dns).lookup "SFH" =
      some (if forms.any actionIsBlank then "1"
        else if forms.any (actionIsForeign page.hostname) then "0" else "-1") := by
  have hlook : (extractFeatures page dns).lookup "SFH" =
      some (sfhSignal page.hostname page.formAction) := by
    simp [extractFeatures, List.lookup]
  rw [hlook, sfhSignal, sfhLoop_eq, any_perm actionIsBlank hperm,
    any_perm (actionIsForeign page.hostname) hperm]

/-- Witness for C16: a foreign action first and a `"#"` action last, listed in the
other order. -/
theorem extractFeatures_sfh_witness :
    (extractFeatures
        { examplePage with formAction := [some "http://evil.test/post", some "#"] }
        none).lookup "SFH" = some "1" :=
  extractFeatures_sfh { examplePage with formAction := [some "http://evil.test/post", some "#"] }
    none [some "#", some "http://evil.test/post"] (List.Perm.swap _ _ _)

theorem resourceStep_eq (urlDomain : String) (counts : Nat × Nat) (attr : Option String) :
    resourceStep (onlyDomainOf urlDomain.toList) counts attr =
      (counts.1 + (if srcIsPhish urlDomain attr then 1 else 0),
       counts.2 + (if srcIsLegit urlDomain attr then 1 else 0)) := by
  cases attr with
  | none => simp [resourceStep, srcIsPhish, srcIsLegit]
  | some src =>
    simp only [resourceStep, srcIsPhish, srcIsLegit]
    rcases Bool.eq_false_or_eq_true src.toList.isEmpty with he | he <;>
    rcases Bool.eq_false_or_eq_true
      (domainPatternTest (onlyDomainOf urlDomain.toList) src.toList) with hd | hd <;>
    rcases Bool.eq_false_or_eq_true (isRootRelative src.toList) with hr | hr <;>
    rcases Bool.eq_false_or_eq_true ("http".toList.isPrefixOf src.toList) with hh | hh <;>
    simp only [he, hd, hr, hh] <;> rfl

theorem foldl_resourceStep (urlDomain : String) (attrs : List (Option String))
    (counts : Nat × Nat) :
    attrs.foldl (resourceStep (onlyDomainOf urlDomain.toList)) counts =
      (counts.1 + attrs.countP (srcIsPhish urlDomain),
       counts.2 + attrs.countP (srcIsLegit urlDomain)) := by
  induction attrs generalizing counts with
  | nil => simp
  | cons attr rest ih =>
    rw [List.foldl_cons, ih, resourceStep_eq, List.countP_cons, List.countP_cons]
    simp only [Nat.add_assoc, Nat.add_comm (rest.countP _)]

theorem outRequestOf_eq (phish legit : Nat) (hpos : 0 < phish + legit) :
    outRequestOf (phish, legit) = specRatio phish legit := by
  simp only [outRequestOf, specRatio, gt_iff_lt, hpos, if_true]
  push_cast
  ring

theorem requestUrlSignal_eq (urlDomain : String) (imgSrc : List (Option String))
    (hpos : 0 < imgSrc.countP (srcIsPhish urlDomain) + imgSrc.countP (srcIsLegit urlDomain)) :
    requestUrlSignal urlDomain imgSrc =
      if specRatio (imgSrc.countP (srcIsPhish urlDomain))
          (imgSrc.countP (srcIsLegit urlDomain)) < 22 then "-1"
      else if specRatio (imgSrc.countP (srcIsPhish urlDomain))
          (imgSrc.countP (srcIsLegit urlDomain)) < 61 then "0"
      else "1" := by
  simp only [requestUrlSignal, foldl_resourceStep, Nat.zero_add]
  rw [outRequestOf_eq _ _ hpos]
  split
  · rfl
  · rename_i h
    have h2 : specRatio (imgSrc.countP (srcIsPhish urlDomain))
        (imgSrc.countP (srcIsLegit urlDomain)) ≥ 22 := not_lt.mp h
    simp [h2]

theorem countP_sixtyOneOfHundred :
    sixtyOneOfHundred.countP (srcIsPhish "www.example.com") = 61 ∧
      sixtyOneOfHundred.countP (srcIsLegit "www.example.com") = 39 := by
  have h1 : srcIsPhish "www.example.com" (some "http://evil.test/a.png") = true := by rfl
  have h2 : srcIsLegit "www.example.com" (some "http://evil.test/a.png") = false := by rfl
  have h3 : srcIsPhish "www.example.com" (some "/a.png") = false := by rfl
  have h4 : srcIsLegit "www.example.com" (some "/a.png") = true := by rfl
  simp [sixtyOneOfHundred, List.countP_append, List.countP_replicate, h1, h2, h3, h4]

/-- C15, the code at the failing input: with 61 absolute-http cross-domain image
sources and 39 root-relative ones on a page of `www.example.com`, `phishCount` is
61 and `legitCount` is 39, the ratio is exactly 61, and `extractFeatures` sets
Request URL to `"1"`, not to `"0"`. -/
theorem extractFeatures_requestUrl_sixtyOne (dns : Option String) :
    sixtyOneOfHundred.countP (srcIsPhish "www.example.com") = 61 ∧
      sixtyOneOfHundred.countP (srcIsLegit "www.example.com") = 39 ∧
      specRatio 61 39 = 61 ∧
      (extractFeatures { examplePage with imgSrc := sixtyOneOfHundred } dns).lookup
        "Request URL" = some "1" := by
  have hlook : ∀ (pg : Page), (extractFeatures pg dns).lookup "Request URL" =
      some (requestUrlSignal pg.hostname pg.imgSrc) := by
    intro pg
    simp [extractFeatures, List.lookup]
  have hc := countP_sixtyOneOfHundred
  refine ⟨hc.1, hc.2, by norm_num [specRatio], ?_⟩
  rw [hlook]
  have hpos : 0 < sixtyOneOfHundred.countP (srcIsPhish "www.example.com") +
      sixtyOneOfHundred.countP (srcIsLegit "www.example.com") := by
    rw [hc.1, hc.2]
    decide
  show some (requestUrlSignal "www.example.com" sixtyOneOfHundred) = some "1"
  rw [requestUrlSignal_eq _ _ hpos, hc.1, hc.2]
  norm_num [specRatio]

end Signals

/-! ### Decoding the extraction message -/

section Decoding

theorem unsignedDecimalValue_one : unsignedDecimalValue ['1'] = some 1 := by
  have h1 : List.takeWhile Char.isDigit ['1'] = ['1'] := by decide
  have h2 : List.dropWhile Char.isDigit ['1'] = [] := by decide
  have h3 : digitsValue ['1'] = 1 := by decide
  simp only [unsignedDecimalValue, h1, h2, List.append_nil, h3]
  norm_num [exponentValue]

theorem unsignedDecimalValue_zero : unsignedDecimalValue ['0'] = some 0 := by
  have h1 : List.takeWhile Char.isDigit ['0'] = ['0'] := by decide
  have h2 : List.dropWhile Char.isDigit ['0'] = [] := by decide
  have h3 : digitsValue ['0'] = 0 := by decide
  simp only [unsignedDecimalValue, h1, h2, List.append_nil, h3]
  norm_num [exponentValue]

theorem parseFloat_minus_one : parseFloat "-1" = some (-1) := by
  have h : "-1".toList.dropWhile isStrWhiteSpaceChar = ['-', '1'] := by decide
  rw [parseFloat, h]
  show (unsignedDecimalValue ['1']).map (fun q => -q) = some (-1)
  rw [unsignedDecimalValue_one]
  rfl

theorem parseFloat_zero : parseFloat "0" = some 0 := by
  have h : "0".toList.dropWhile isStrWhiteSpaceChar = ['0'] := by decide
  rw [parseFloat, h]
  exact unsignedDecimalValue_zero

theorem parseFloat_one : parseFloat "1" = some 1 := by
  have h : "1".toList.dropWhile isStrWhiteSpaceChar = ['1'] := by decide
  rw [parseFloat, h]
  exact unsignedDecimalValue_one

theorem denotedNumber_encoding (value : String) (h : isSignalEncoding value) :
    (denotedNumber (some value) : ℝ) = -1 ∨ (denotedNumber (some value) : ℝ) = 0 ∨
      (denotedNumber (some value) : ℝ) = 1 := by
  rcases h with h | h | h
  · left
    simp [denotedNumber, h, parseFloat_minus_one]
  · right; left
    simp [denotedNumber, h, parseFloat_zero]
  · right; right
    simp [denotedNumber, h, parseFloat_one]

theorem convertEntry_eq {α : Type} [LinearOrderedField α] (features : FeatureMessage)
    (key : String) :
    (match features.lookup key with
      | none => (0 : α)
      | some value =>
        match parseFloat value with
        | some q => if q = 0 then 0 else (q : α)
        | none => 0) = denotedNumber (features.lookup key) := by
  unfold denotedNumber
  cases features.lookup key with
  | none => simp
  | some value =>
    cases hp : parseFloat value with
    | none => simp [hp]
    | some q =>
      by_cases hq : q = 0
      · simp [hp, hq]
      · simp [hp, hq]

theorem convertFeaturesToArray_eq {α : Type} [LinearOrderedField α] (features : FeatureMessage) :
    (convertFeaturesToArray features : List α) =
      [denotedNumber (features.lookup "IP Address"),
       denotedNumber (features.lookup "URL Length"),
       denotedNumber (features.lookup "Short URL"),
       denotedNumber (features.lookup "@"),
       denotedNumber (features.lookup "Redirecting //"),
       denotedNumber (features.lookup "Prefix/Suffix"),
       denotedNumber (features.lookup "Sub Domains"),
       denotedNumber (features.lookup "HTTPS in Domain"),
       denotedNumber (features.lookup "SSL Certificate"),
       denotedNumber (features.lookup "Request URL"),
       denotedNumber (features.lookup "Anchor"),
       denotedNumber (features.lookup "Script and Link"),
       denotedNumber (features.lookup "SFH"),
       denotedNumber (features.lookup "mailto"),
       denotedNumber (features.lookup "iFrames"),
       denotedNumber (features.lookup "Favicon"),
       denotedNumber (features.lookup "Port"),
       denotedNumber (features.lookup "DNS Analysis")] := by
  simp only [convertFeaturesToArray, featureOrder, List.map, convertEntry_eq]

theorem ite_encoding (c : Prop) [Decidable c] (a b : String) (ha : isSignalEncoding a)
    (hb : isSignalEncoding b) : isSignalEncoding (if c then a else b) := by
  split
  · exact ha
  · exact hb

theorem encoding_minus_one : isSignalEncoding "-1" := Or.inl rfl

theorem encoding_zero : isSignalEncoding "0" := Or.inr (Or.inl rfl)

theorem encoding_one : isSignalEncoding "1" := Or.inr (Or.inr rfl)

theorem sfhLoop_encoding (onlyDomain : List Char) (actions : List (Option String))
    (res : String) (hres : isSignalEncoding res) :
    isSignalEncoding (sfhLoop onlyDomain actions res) := by
  induction actions generalizing res with
  | nil => exact hres
  | cons action rest ih =>
    cases action with
    | none => exact encoding_one
    | some a =>
      simp only [sfhLoop]
      split
      · exact encoding_one
      · split
        · exact ih "0" encoding_zero
        · exact ih res hres

theorem extractFeatures_encodings (page : Page) :
    isSignalEncoding (ipAddressSignal page.hostname) ∧
      isSignalEncoding (urlLengthSignal page.href) ∧
      isSignalEncoding (shortUrlSignal page.hostname) ∧
      isSignalEncoding (atSignal page.href) ∧
      isSignalEncoding (redirectingSignal page.href) ∧
      isSignalEncoding (prefixSuffixSignal page.hostname) ∧
      isSignalEncoding (subDomainsSignal page.hostname) ∧
      isSignalEncoding (httpsInDomainSignal page.hostname) ∧
      isSignalEncoding (sslSignal page.protocol) ∧
      isSignalEncoding (requestUrlSignal page.hostname page.imgSrc) ∧
      isSignalEncoding (anchorSignal page.hostname page.aHref) ∧
      isSignalEncoding (scriptLinkSignal page.hostname page.scriptSrc page.linkHref) ∧
      isSignalEncoding (sfhSignal page.hostname page.formAction) ∧
      isSignalEncoding (mailtoSignal page.formAction) ∧
      isSignalEncoding (iframesSignal page.iframes) ∧
      isSignalEncoding (faviconSignal page.hostname page.faviconHref) ∧
      isSignalEncoding (portSignal page.protocol page.port) := by
  have m := encoding_minus_one
  have z := encoding_zero
  have o := encoding_one
  refine ⟨?_, ?_, ?_, ?_, ?_, ?_, ?_, ?_, ?_, ?_, ?_, ?_, ?_, ?_, ?_, ?_, ?_⟩
  · exact ite_encoding _ _ _ o m
  · exact ite_encoding _ _ _ m (ite_encoding _ _ _ z o)
  · exact ite_encoding _ _ _ o m
  · exact ite_encoding _ _ _ o m
  · exact ite_encoding _ _ _ o m
  · exact ite_encoding _ _ _ o m
  · exact ite_encoding _ _ _ m (ite_encoding _ _ _ z o)
  · exact ite_encoding _ _ _ o m
  · exact ite_encoding _ _ _ m o
  · exact ite_encoding _ _ _ m (ite_encoding _ _ _ z o)
  · exact ite_encoding _ _ _ m (ite_encoding _ _ _ z o)
  · exact ite_encoding _ _ _ m (ite_encoding _ _ _ z o)
  · exact sfhLoop_encoding _ _ _ m
  · exact ite_encoding _ _ _ o m
  · exact ite_encoding _ _ _ m (ite_encoding _ _ _ o z)
  · exact ite_encoding _ _ _ o (ite_encoding _ _ _ o m)
  · exact ite_encoding _ _ _ m o

/-- C14: for every extraction message, `convertFeaturesToArray` returns exactly 18
numbers, in the order IP Address, URL Length, Short URL, @, Redirecting //,
Prefix/Suffix, Sub Domains, HTTPS in Domain, SSL Certificate, Request URL, Anchor,
Script and Link, SFH, mailto, iFrames, Favicon, Port, DNS Analysis; element `i` is
the number denoted by the value of the `i`-th key (`0` when the key is absent or
its value is not a number); `"-1"`, `"0"`, `"1"` decode to -1, 0, 1, an absent
value and the non-numeric values `"abc"` and `""` to 0; and on the message of
`extractFeatures` the first 17 elements are each -1, 0 or 1. -/
theorem convertFeaturesToArray_decodes (features : FeatureMessage) (page : Page)
    (dns : Option String) :
    (convertFeaturesToArray features : List ℝ).length = 18 ∧
      (convertFeaturesToArray features : List ℝ) =
        ["IP Address", "URL Length", "Short URL", "@", "Redirecting //", "Prefix/Suffix",
          "Sub Domains", "HTTPS in Domain", "SSL Certificate", "Request URL", "Anchor",
          "Script and Link", "SFH", "mailto", "iFrames", "Favicon", "Port",
          "DNS Analysis"].map (fun key => denotedNumber (features.lookup key)) ∧
      (denotedNumber (some "-1") : ℝ) = -1 ∧ (denotedNumber (some "0") : ℝ) = 0 ∧
      (denotedNumber (some "1") : ℝ) = 1 ∧ (denotedNumber none : ℝ) = 0 ∧
      (denotedNumber (some "abc") : ℝ) = 0 ∧ (denotedNumber (some "") : ℝ) = 0 ∧
      ∃ signals : List ℝ,
        (convertFeaturesToArray (extractFeatures page dns) : List ℝ) =
            signals ++ [denotedNumber (some (dnsSignal dns))] ∧
          signals.length = 17 ∧ ∀ v ∈ signals, v = -1 ∨ v = 0 ∨ v = 1 := by
  refine ⟨?_, ?_, ?_, ?_, ?_, ?_, ?_, ?_, ?_⟩
  · rw [convertFeaturesToArray_eq]
    rfl
  · rw [convertFeaturesToArray_eq]
    rfl
  · simp [denotedNumber, parseFloat_minus_one]
  · simp [denotedNumber, parseFloat_zero]
  · simp [denotedNumber, parseFloat_one]
  · simp [denotedNumber]
  · have h : parseFloat "abc" = none := by rfl
    simp [denotedNumber, h]
  · have h : parseFloat "" = none := by rfl
    simp [denotedNumber, h]
  · obtain ⟨h1, h2, h3, h4, h5, h6, h7, h8, h9, h10, h11, h12, h13, h14, h15, h16, h17⟩ :=
      extractFeatures_encodings page
    refine ⟨[denotedNumber (some (ipAddressSignal page.hostname)),
      denotedNumber (some (urlLengthSignal page.href)),
      denotedNumber (some (shortUrlSignal page.hostname)),
      denotedNumber (some (atSignal page.href)),
      denotedNumber (some (redirectingSignal page.href)),
      denotedNumber (some (prefixSuffixSignal page.hostname)),
      denotedNumber (some (subDomainsSignal page.hostname)),
      denotedNumber (some (httpsInDomainSignal page.hostname)),
      denotedNumber (some (sslSignal page.protocol)),
      denotedNumber (some (requestUrlSignal page.hostname page.imgSrc)),
      denotedNumber (some (anchorSignal page.hostname page.aHref)),
      denotedNumber (some (scriptLinkSignal page.hostname page.scriptSrc page.linkHref)),
      denotedNumber (some (sfhSignal page.hostname page.formAction)),
      denotedNumber (some (mailtoSignal page.formAction)),
      denotedNumber (some (iframesSignal page.iframes)),
      denotedNumber (some (faviconSignal page.hostname page.faviconHref)),
      denotedNumber (some (portSignal page.protocol page.port))], ?_, rfl, ?_⟩
    · rw [convertFeaturesToArray_eq]
      simp [extractFeatures, List.lookup]
    · intro v hv
      simp only [List.mem_cons, List.mem_singleton, List.not_mem_nil, or_false] at hv
      rcases hv with h | h | h | h | h | h | h | h | h | h | h | h | h | h | h | h | h <;>
        rw [h] <;> apply denotedNumber_encoding <;> assumption

end Decoding

/-! ### Alerts -/

section Alerts

variable {α : Type} [LinearOrderedField α]

theorem handleFeatureExtraction_loaded (exp : α → α) (env : FeatureEnv)
    (features : FeatureMessage) (sender : Sender) (s : State α) (model : Model α)
    (prediction : Prediction α) (hmodel : s.modelCache = some model)
    (hpred : predictPhishing exp (some model) (convertFeaturesToArray features) =
      .ok prediction) :
    handleFeatureExtraction exp env features sender s =
      (match env.setError with
        | none => .success prediction
        | some message => .failure message,
       { modelCache := s.modelCache
         storage :=
           match env.setError with
           | none => s.storage.set (predictionItems env features sender prediction)
           | some _ => s.storage
         alarms := s.alarms
         trace := s.trace ++
           (if prediction.isPhishing then
             [.tabsSendMessage sender.tabId { action := "alert_user", prediction := prediction }]
            else []) ++
           [.storageSet (predictionItems env features sender prediction)] }) := by
  simp only [handleFeatureExtraction, hmodel, Option.isNone_some, Bool.false_eq_true, if_false,
    hpred, ite_self, predictionItems]
  cases hp : prediction.isPhishing <;> cases hs : env.setError <;>
    simp [State.emit, hmodel]

/-- C20, counterexample: a model is loaded, but the storage write of the per-tab
prediction is rejected, and `handleFeatureExtraction` returns
`{ success: false, error }` instead of `{ success: true, prediction }`. -/
theorem handleFeatureExtraction_alert_counterexample :
    (loadedState (unitModel : Model ℝ)).modelCache = some unitModel ∧
      (handleFeatureExtraction Real.exp
        { getOk := true, sendOk := true, setError := some "QUOTA_BYTES quota exceeded",
          now := 7000 }
        [("IP Address", "1")] { tabId := 3, url := "http://192.168.1.1/" }
        (loadedState (unitModel : Model ℝ))).1 = .failure "QUOTA_BYTES quota exceeded" := by
  refine ⟨rfl, ?_⟩
  rw [handleFeatureExtraction_loaded Real.exp _ _ _ _ unitModel _ rfl
    (predictPhishing_some _ _ _)]

/-- C20, amended: for every feature message processed by `handleFeatureExtraction`
with a model loaded, an 'alert_user' message is sent to the originating tab
exactly when the Prediction's `isPhishing` is true, it carries the Prediction
computed by `predictPhishing`, and the run ends with one storage write of that
Prediction under the tab; the result does not depend on whether the alert send
fails; when the storage write succeeds the result is `{ success: true, prediction }`
with that same Prediction, and when the write is rejected the result is
`{ success: false, error }` with the message of the rejection. -/
theorem handleFeatureExtraction_alert (exp : α → α) (env : FeatureEnv)
    (features : FeatureMessage) (sender : Sender) (s : State α) (model : Model α)
    (hmodel : s.modelCache = some model) :
    ∃ prediction,
      predictPhishing exp (some model) (convertFeaturesToArray features) = .ok prediction ∧
      (handleFeatureExtraction exp env features sender s).2.trace =
        s.trace ++
          (if prediction.isPhishing then
            [.tabsSendMessage sender.tabId { action := "alert_user", prediction := prediction }]
           else []) ++
          [.storageSet (predictionItems env features sender prediction)] ∧
      (handleFeatureExtraction exp env features sender s).1 =
        (match env.setError with
          | none => .success prediction
          | some message => .failure message) ∧
      handleFeatureExtraction exp { env with sendOk := !env.sendOk } features sender s =
        handleFeatureExtraction exp env features sender s := by
  refine ⟨_, predictPhishing_some _ _ _, ?_, ?_, ?_⟩
  · rw [handleFeatureExtraction_loaded exp env features sender s model _ hmodel
      (predictPhishing_some _ _ _)]
  · rw [handleFeatureExtraction_loaded exp env features sender s model _ hmodel
      (predictPhishing_some _ _ _)]
  · rw [handleFeatureExtraction_loaded exp env features sender s model _ hmodel
      (predictPhishing_some _ _ _),
      handleFeatureExtraction_loaded exp { env with sendOk := !env.sendOk } features sender s
        model _ hmodel (predictPhishing_some _ _ _)]
    rfl

/-- Witness for C20: `unitModel` is loaded and the calls succeed. -/
theorem handleFeatureExtraction_alert_witness :
    ∃ prediction,
      predictPhishing Real.exp (some unitModel)
        (convertFeaturesToArray [("IP Address", "1")]) = .ok prediction ∧
      (handleFeatureExtraction Real.exp
          { getOk := true, sendOk := true, setError := none, now := 7000 }
          [("IP Address", "1")] { tabId := 3, url := "http://192.168.1.1/" }
          (loadedState unitModel)).2.trace =
        (loadedState unitModel).trace ++
          (if prediction.isPhishing then
            [.tabsSendMessage 3 { action := "alert_user", prediction := prediction }]
           else []) ++
          [.storageSet (predictionItems
            { getOk := true, sendOk := true, setError := none, now := 7000 }
            [("IP Address", "1")] { tabId := 3, url := "http://192.168.1.1/" } prediction)] ∧
      (handleFeatureExtraction Real.exp
          { getOk := true, sendOk := true, setError := none, now := 7000 }
          [("IP Address", "1")] { tabId := 3, url := "http://192.168.1.1/" }
          (loadedState unitModel)).1 = .success prediction ∧
      handleFeatureExtraction Real.exp
          { getOk := true, sendOk := false, setError := none, now := 7000 }
          [("IP Address", "1")] { tabId := 3, url := "http://192.168.1.1/" }
          (loadedState unitModel) =
        handleFeatureExtraction Real.exp
          { getOk := true, sendOk := true, setError := none, now := 7000 }
          [("IP Address", "1")] { tabId := 3, url := "http://192.168.1.1/" }
          (loadedState unitModel) :=
  handleFeatureExtraction_alert Real.exp
    { getOk := true, sendOk := true, setError := none, now := 7000 }
    [("IP Address", "1")] { tabId := 3, url := "http://192.168.1.1/" }
    (loadedState unitModel) unitModel rfl

end Alerts

/-! ### The IP Address patterns -/

section IpAddress

open RegularExpression

theorem mem_char (a : Char) (x : List Char) :
    x ∈ (RegularExpression.char a).matches' ↔ x = [a] := by
  rw [matches'_char]
  exact Set.mem_singleton_iff

theorem mem_charClass (cs : List Char) (x : List Char) :
    x ∈ (charClass cs).matches' ↔ ∃ c, c ∈ cs ∧ x = [c] := by
  induction cs with
  | nil =>
    simp only [charClass, List.foldr_nil, matches'_zero, List.not_mem_nil, false_and,
      exists_false, iff_false]
    exact Language.not_mem_zero x
  | cons c rest ih =>
    have hunf : charClass (c :: rest) = RegularExpression.char c + charClass rest := rfl
    rw [hunf, matches'_add, Language.mem_add, mem_char, ih]
    constructor
    · rintro (h | ⟨d, hd, hx⟩)
      · exact ⟨c, List.mem_cons_self _ _, h⟩
      · exact ⟨d, List.mem_cons_of_mem _ hd, hx⟩
    · rintro ⟨d, hd, hx⟩
      rcases List.mem_cons.mp hd with h | h
      · left; rw [hx, h]
      · right; exact ⟨d, h, hx⟩

theorem mem_optional (r : Regex) (x : List Char) :
    x ∈ (optional r).matches' ↔ x = [] ∨ x ∈ r.matches' := by
  have hunf : optional r = 1 + r := rfl
  rw [hunf, matches'_add, Language.mem_add, matches'_epsilon, Language.mem_one]

theorem char_of_toNat (c : Char) (n : Nat) (h : c.toNat = n) : c = Char.ofNat n := by
  rw [← h, Char.ofNat_toNat]

theorem mem_digits_iff (c : Char) :
    c ∈ "0123456789".toList ↔ 48 ≤ c.toNat ∧ c.toNat ≤ 57 := by
  constructor
  · intro h
    simp only [String.toList, List.mem_cons, List.not_mem_nil, or_false] at h
    rcases h with h | h | h | h | h | h | h | h | h | h <;> subst h <;> decide
  · rintro ⟨h1, h2⟩
    obtain ⟨n, hn⟩ : ∃ n, c.toNat = n := ⟨_, rfl⟩
    rw [hn] at h1 h2
    rw [char_of_toNat c n hn]
    interval_cases n <;> decide

theorem mem_upto5_iff (c : Char) :
    c ∈ "012345".toList ↔ 48 ≤ c.toNat ∧ c.toNat ≤ 53 := by
  constructor
  · intro h
    simp only [String.toList, List.mem_cons, List.not_mem_nil, or_false] at h
    rcases h with h | h | h | h | h | h <;> subst h <;> decide
  · rintro ⟨h1, h2⟩
    obtain ⟨n, hn⟩ : ∃ n, c.toNat = n := ⟨_, rfl⟩
    rw [hn] at h1 h2
    rw [char_of_toNat c n hn]
    interval_cases n <;> decide

theorem mem_upto4_iff (c : Char) :
    c ∈ "01234".toList ↔ 48 ≤ c.toNat ∧ c.toNat ≤ 52 := by
  constructor
  · intro h
    simp only [String.toList, List.mem_cons, List.not_mem_nil, or_false] at h
    rcases h with h | h | h | h | h <;> subst h <;> decide
  · rintro ⟨h1, h2⟩
    obtain ⟨n, hn⟩ : ∃ n, c.toNat = n := ⟨_, rfl⟩
    rw [hn] at h1 h2
    rw [char_of_toNat c n hn]
    interval_cases n <;> decide

theorem mem_upto1_iff (c : Char) :
    c ∈ "01".toList ↔ 48 ≤ c.toNat ∧ c.toNat ≤ 49 := by
  constructor
  · intro h
    simp only [String.toList, List.mem_cons, List.not_mem_nil, or_false] at h
    rcases h with h | h <;> subst h <;> decide
  · rintro ⟨h1, h2⟩
    obtain ⟨n, hn⟩ : ∃ n, c.toNat = n := ⟨_, rfl⟩
    rw [hn] at h1 h2
    rw [char_of_toNat c n hn]
    interval_cases n <;> decide

theorem char_eq_iff_toNat (c d : Char) : c = d ↔ c.toNat = d.toNat := by
  constructor
  · intro h; rw [h]
  · intro h
    rw [← Char.ofNat_toNat c, ← Char.ofNat_toNat d, h]

theorem isDecimalDigit_iff (c : Char) :
    isDecimalDigit c = true ↔ 48 ≤ c.toNat ∧ c.toNat ≤ 57 := by
  rw [isDecimalDigit, List.contains, List.elem_iff, mem_digits_iff]


theorem digitsValue_three (a b c : Char) :
    digitsValue [a, b, c] = 10 * (10 * (a.toNat - 48) + (b.toNat - 48)) + (c.toNat - 48) := by
  simp [digitsValue]

theorem digitsValue_two (a b : Char) :
    digitsValue [a, b] = 10 * (a.toNat - 48) + (b.toNat - 48) := by
  simp [digitsValue]

theorem digitsValue_one (a : Char) : digitsValue [a] = a.toNat - 48 := by
  simp [digitsValue]

theorem isDecimalOctet_iff (x : List Char) :
    isDecimalOctet x = true ↔
      (1 ≤ x.length ∧ x.length ≤ 3) ∧ (∀ c ∈ x, 48 ≤ c.toNat ∧ c.toNat ≤ 57) ∧
        digitsValue x ≤ 255 := by
  simp only [isDecimalOctet, Bool.and_eq_true, decide_eq_true_eq, List.all_eq_true,
    isDecimalDigit_iff]
  tauto

theorem mem_octetPattern (x : List Char) :
    x ∈ octetPattern.matches' ↔ isDecimalOctet x = true := by
  rw [isDecimalOctet_iff]
  have h2 : '2'.toNat = 50 := by decide
  have h5 : '5'.toNat = 53 := by decide
  constructor
  · intro h
    simp only [octetPattern, digitClass, matches'_add, matches'_mul, Language.mem_add,
      Language.mem_mul, mem_char, mem_charClass, mem_optional, mem_digits_iff, mem_upto5_iff,
      mem_upto4_iff, mem_upto1_iff] at h
    rcases h with ⟨_, ⟨_, rfl, _, rfl, rfl⟩, _, ⟨c, hc, rfl⟩, rfl⟩ |
      ⟨_, ⟨_, rfl, _, ⟨b, hb, rfl⟩, rfl⟩, _, ⟨c, hc, rfl⟩, rfl⟩ |
      ⟨_, ⟨p, hp, _, ⟨d, hd, rfl⟩, rfl⟩, q, hq, rfl⟩
    · refine ⟨by simp, ?_, ?_⟩
      · intro e he
        simp only [List.cons_append, List.nil_append, List.mem_cons, List.not_mem_nil,
          or_false] at he
        rcases he with rfl | rfl | rfl
        · decide
        · decide
        · omega
      · show digitsValue ['2', '5', c] ≤ 255
        rw [digitsValue_three, h2, h5]
        omega
    · refine ⟨by simp, ?_, ?_⟩
      · intro e he
        simp only [List.cons_append, List.nil_append, List.mem_cons, List.not_mem_nil,
          or_false] at he
        rcases he with rfl | rfl | rfl
        · decide
        · omega
        · omega
      · show digitsValue ['2', b, c] ≤ 255
        rw [digitsValue_three, h2]
        omega
    · rcases hp with rfl | ⟨a, ha, rfl⟩ <;> rcases hq with rfl | ⟨e, he, rfl⟩
      · refine ⟨by simp, ?_, ?_⟩
        · intro e he
          simp only [List.cons_append, List.nil_append, List.append_nil, List.mem_cons,
            List.not_mem_nil, or_false] at he
          rcases he with rfl
          omega
        · show digitsValue [d] ≤ 255
          rw [digitsValue_one]
          omega
      · refine ⟨by simp, ?_, ?_⟩
        · intro f hf
          simp only [List.cons_append, List.nil_append, List.append_nil, List.mem_cons,
            List.not_mem_nil, or_false] at hf
          rcases hf with rfl | rfl <;> omega
        · show digitsValue [d, e] ≤ 255
          rw [digitsValue_two]
          omega
      · refine ⟨by simp, ?_, ?_⟩
        · intro f hf
          simp only [List.cons_append, List.nil_append, List.append_nil, List.mem_cons,
            List.not_mem_nil, or_false] at hf
          rcases hf with rfl | rfl <;> omega
        · show digitsValue [a, d] ≤ 255
          rw [digitsValue_two]
          omega
      · refine ⟨by simp, ?_, ?_⟩
        · intro f hf
          simp only [List.cons_append, List.nil_append, List.append_nil, List.mem_cons,
            List.not_mem_nil, or_false] at hf
          rcases hf with rfl | rfl | rfl <;> omega
        · show digitsValue [a, d, e] ≤ 255
          rw [digitsValue_three]
          omega
  · rintro ⟨⟨hlen1, hlen3⟩, hdig, hval⟩
    simp only [octetPattern, digitClass, matches'_add, matches'_mul, Language.mem_add,
      Language.mem_mul, mem_char, mem_charClass, mem_optional, mem_digits_iff, mem_upto5_iff,
      mem_upto4_iff, mem_upto1_iff]
    match x, hlen1, hlen3, hdig, hval with
    | [a], _, _, hdig, _ =>
      have ha := hdig a (by simp)
      right; right
      exact ⟨[a], ⟨[], Or.inl rfl, [a], ⟨a, ha, rfl⟩, rfl⟩, [], Or.inl rfl, rfl⟩
    | [a, b], _, _, hdig, _ =>
      have ha := hdig a (by simp)
      have hb := hdig b (by simp)
      right; right
      exact ⟨[a], ⟨[], Or.inl rfl, [a], ⟨a, ha, rfl⟩, rfl⟩, [b], Or.inr ⟨b, hb, rfl⟩, rfl⟩
    | [a, b, c], _, _, hdig, hval =>
      have ha := hdig a (by simp)
      have hb := hdig b (by simp)
      have hc := hdig c (by simp)
      rw [digitsValue_three] at hval
      by_cases ha1 : a.toNat ≤ 49
      · right; right
        exact ⟨[a, b], ⟨[a], Or.inr ⟨a, ⟨ha.1, ha1⟩, rfl⟩, [b], ⟨b, hb, rfl⟩, rfl⟩, [c],
          Or.inr ⟨c, hc, rfl⟩, rfl⟩
      · have ha2 : a.toNat = 50 := by omega
        have haeq : a = '2' := (char_eq_iff_toNat a '2').mpr (by rw [ha2, h2])
        subst haeq
        by_cases hb4 : b.toNat ≤ 52
        · right; left
          exact ⟨['2', b], ⟨['2'], rfl, [b], ⟨b, ⟨hb.1, hb4⟩, rfl⟩, rfl⟩, [c], ⟨c, hc, rfl⟩, rfl⟩
        · have hb5 : b.toNat = 53 := by omega
          have hbeq : b = '5' := (char_eq_iff_toNat b '5').mpr (by rw [hb5, h5])
          subst hbeq
          left
          exact ⟨['2', '5'], ⟨['2'], rfl, ['5'], rfl, rfl⟩, [c], ⟨c, ⟨hc.1, by omega⟩, rfl⟩, rfl⟩
    | [], h1, _, _, _ => exact absurd h1 (by simp)
    | _ :: _ :: _ :: _ :: _, _, h3, _, _ => exact absurd h3 (by simp)


theorem isHexDigit_iff (c : Char) :
    isHexDigit c = true ↔ c ∈ "0123456789ABCDEFabcdef".toList := by
  rw [isHexDigit, List.contains, List.elem_iff]

theorem mem_hexGroupPattern (x : List Char) :
    x ∈ hexGroupPattern.matches' ↔ isHexGroup x = true := by
  constructor
  · intro h
    simp only [hexGroupPattern, hexDigitClass, matches'_mul, Language.mem_mul, mem_char,
      mem_charClass, mem_optional] at h
    rcases h with ⟨_, ⟨_, ⟨_, rfl, _, rfl, rfl⟩, _, ⟨c, hc, rfl⟩, rfl⟩, q, hq, rfl⟩
    rcases hq with rfl | ⟨d, hd, rfl⟩
    · have ec : isHexDigit c = true := (isHexDigit_iff c).mpr hc
      show (decide (1 ≤ [c].length) && decide ([c].length ≤ 2) && [c].all isHexDigit) = true
      simp [ec]
    · have ec : isHexDigit c = true := (isHexDigit_iff c).mpr hc
      have ed : isHexDigit d = true := (isHexDigit_iff d).mpr hd
      show (decide (1 ≤ [c, d].length) && decide ([c, d].length ≤ 2) &&
        [c, d].all isHexDigit) = true
      simp [ec, ed]
  · intro h
    unfold isHexGroup at h
    split at h
    · rename_i digits
      simp only [Bool.and_eq_true, decide_eq_true_eq, List.all_eq_true, isHexDigit_iff] at h
      obtain ⟨⟨h1, h2⟩, hall⟩ := h
      simp only [hexGroupPattern, hexDigitClass, matches'_mul, Language.mem_mul, mem_char,
        mem_charClass, mem_optional]
      match digits, h1, h2, hall with
      | [c], _, _, hall =>
        exact ⟨['0', 'x', c], ⟨['0', 'x'], ⟨['0'], rfl, ['x'], rfl, rfl⟩, [c],
          ⟨c, hall c (by simp), rfl⟩, rfl⟩, [], Or.inl rfl, rfl⟩
      | [c, d], _, _, hall =>
        exact ⟨['0', 'x', c], ⟨['0', 'x'], ⟨['0'], rfl, ['x'], rfl, rfl⟩, [c],
          ⟨c, hall c (by simp), rfl⟩, rfl⟩, [d], Or.inr ⟨d, hall d (by simp), rfl⟩, rfl⟩
      | [], h1, _, _ => exact absurd h1 (by simp)
      | _ :: _ :: _ :: _, _, h2, _ => exact absurd h2 (by simp)
    · exact absurd h (by simp)

theorem splitChar_ne_nil (separator : Char) (text : List Char) :
    splitChar separator text ≠ [] := by
  intro h
  have := splitChar_length separator text
  rw [h] at this
  simp at this

theorem splitChar_of_not_mem (separator : Char) (part : List Char) (h : separator ∉ part) :
    splitChar separator part = [part] := by
  induction part with
  | nil => rfl
  | cons c rest ih =>
    have hc : c ≠ separator := fun e => h (by rw [e]; exact List.mem_cons_self _ _)
    have hrest : separator ∉ rest := fun m => h (List.mem_cons_of_mem _ m)
    rw [splitChar, if_neg hc, ih hrest]

theorem splitChar_append (separator : Char) (part rest : List Char) (h : separator ∉ part) :
    splitChar separator (part ++ separator :: rest) = part :: splitChar separator rest := by
  induction part with
  | nil =>
    rw [List.nil_append, splitChar, if_pos rfl]
  | cons c tail ih =>
    have hc : c ≠ separator := fun e => h (by rw [e]; exact List.mem_cons_self _ _)
    have htail : separator ∉ tail := fun m => h (List.mem_cons_of_mem _ m)
    rw [List.cons_append, splitChar, if_neg hc, ih htail]

theorem joinChar_splitChar (separator : Char) (text : List Char) :
    joinChar separator (splitChar separator text) = text := by
  induction text with
  | nil => rfl
  | cons c rest ih =>
    rw [splitChar]
    by_cases hc : c = separator
    · rw [if_pos hc]
      cases hs : splitChar separator rest with
      | nil => exact absurd hs (splitChar_ne_nil _ _)
      | cons part parts =>
        rw [hs] at ih
        show [] ++ separator :: joinChar separator (part :: parts) = c :: rest
        rw [ih, hc]
        rfl
    · rw [if_neg hc]
      cases hs : splitChar separator rest with
      | nil => exact absurd hs (splitChar_ne_nil _ _)
      | cons part parts =>
        rw [hs] at ih
        cases parts with
        | nil =>
          simp only [joinChar] at ih ⊢
          rw [ih]
        | cons q qs =>
          simp only [joinChar] at ih ⊢
          rw [← ih]
          rfl

theorem mem_quad (G : Language Char) (hG : ∀ p ∈ G, '.' ∉ p) (x : List Char) :
    x ∈ (G * (RegularExpression.char '.').matches') ^ 3 * G ↔
      (splitChar '.' x).length = 4 ∧ ∀ p ∈ splitChar '.' x, p ∈ G := by
  simp only [pow_succ, pow_zero, one_mul, Language.mem_mul, mem_char]
  constructor
  · rintro ⟨_, ⟨_, ⟨_, ⟨a, ha, _, rfl, rfl⟩, _, ⟨b, hb, _, rfl, rfl⟩, rfl⟩, _,
      ⟨c, hc, _, rfl, rfl⟩, rfl⟩, d, hd, rfl⟩
    have hx : (a ++ ['.'] ++ (b ++ ['.']) ++ (c ++ ['.']) ++ d) =
        a ++ '.' :: (b ++ '.' :: (c ++ '.' :: d)) := by simp
    rw [hx, splitChar_append _ _ _ (hG a ha), splitChar_append _ _ _ (hG b hb),
      splitChar_append _ _ _ (hG c hc), splitChar_of_not_mem _ _ (hG d hd)]
    refine ⟨rfl, ?_⟩
    intro p hp
    simp only [List.mem_cons, List.not_mem_nil, or_false] at hp
    rcases hp with rfl | rfl | rfl | rfl <;> assumption
  · rintro ⟨hlen, hall⟩
    have hjoin := joinChar_splitChar '.' x
    match hs : splitChar '.' x, hlen with
    | [a, b, c, d], _ =>
      rw [hs] at hjoin hall
      simp only [joinChar] at hjoin
      have ha := hall a (by simp)
      have hb := hall b (by simp)
      have hc := hall c (by simp)
      have hd := hall d (by simp)
      refine ⟨_, ⟨_, ⟨_, ⟨a, ha, _, rfl, rfl⟩, _, ⟨b, hb, _, rfl, rfl⟩, rfl⟩, _,
        ⟨c, hc, _, rfl, rfl⟩, rfl⟩, d, hd, ?_⟩
      rw [← hjoin]
      simp


theorem octet_no_dot (p : List Char) (h : p ∈ octetPattern.matches') : '.' ∉ p := by
  rw [mem_octetPattern, isDecimalOctet_iff] at h
  intro hm
  have := h.2.1 '.' hm
  have hd : '.'.toNat = 46 := by decide
  omega

theorem hexGroup_no_dot (p : List Char) (h : p ∈ hexGroupPattern.matches') : '.' ∉ p := by
  rw [mem_hexGroupPattern] at h
  unfold isHexGroup at h
  split at h
  · rename_i digits
    simp only [Bool.and_eq_true, List.all_eq_true, isHexDigit_iff] at h
    intro hm
    simp only [List.mem_cons] at hm
    rcases hm with hm | hm | hm
    · exact absurd hm (by decide)
    · exact absurd hm (by decide)
    · exact absurd (h.2 '.' hm) (by decide)
  · exact absurd h (by simp)

theorem regexTest_quad (group : Regex) (isPart : List Char → Bool)
    (hgroup : ∀ p, p ∈ group.matches' ↔ isPart p = true)
    (hdot : ∀ p, p ∈ group.matches' → '.' ∉ p) (urlDomain : String) :
    regexTest ((group * RegularExpression.char '.') ^ 3 * group) urlDomain =
      isDottedQuad isPart urlDomain := by
  rw [Bool.eq_iff_iff, regexTest, rmatch_iff_matches', matches'_mul, matches'_pow, matches'_mul,
    mem_quad _ hdot, isDottedQuad, Bool.and_eq_true, decide_eq_true_eq, List.all_eq_true]
  constructor
  · rintro ⟨h1, h2⟩
    exact ⟨h1, fun p hp => (hgroup p).mp (h2 p hp)⟩
  · rintro ⟨h1, h2⟩
    exact ⟨h1, fun p hp => (hgroup p).mpr (h2 p hp)⟩

theorem ipAddressSignal_eq (urlDomain : String) :
    ipAddressSignal urlDomain =
      if isDottedQuad isDecimalOctet urlDomain || isDottedQuad isHexGroup urlDomain then "1"
      else "-1" := by
  rw [ipAddressSignal, ipPattern, hexPattern,
    regexTest_quad octetPattern isDecimalOctet mem_octetPattern octet_no_dot,
    regexTest_quad hexGroupPattern isHexGroup mem_hexGroupPattern hexGroup_no_dot]

/-- C19: IP Address signal.  For every hostname, `extractFeatures` sets IP Address
to `"1"` exactly when the whole hostname is four dot-separated decimal octets (one
to three digits denoting a value from 0 to 255), or four dot-separated groups each
of the form `0x` followed by one or two hex digits, and to `"-1"` otherwise;
`192.168.1.1` gets `"1"`, `example.com` and `256.1.1.1` get `"-1"`. -/
theorem extractFeatures_ipAddress (page : Page) (dns : Option String) :
    (extractFeatures page dns).lookup "IP Address" =
        some (if isDottedQuad isDecimalOctet page.hostname ||
            isDottedQuad isHexGroup page.hostname then "1" else "-1") ∧
      (extractFeatures { page with hostname := "192.168.1.1" } dns).lookup "IP Address" =
        some "1" ∧
      (extractFeatures { page with hostname := "example.com" } dns).lookup "IP Address" =
        some "-1" ∧
      (extractFeatures { page with hostname := "256.1.1.1" } dns).lookup "IP Address" =
        some "-1" := by
  have hlook : ∀ (pg : Page), (extractFeatures pg dns).lookup "IP Address" =
      some (ipAddressSignal pg.hostname) := by
    intro pg
    simp [extractFeatures, List.lookup]
  refine ⟨?_, ?_, ?_, ?_⟩
  · rw [hlook, ipAddressSignal_eq]
  · rw [hlook, ipAddressSignal_eq]
    rfl
  · rw [hlook, ipAddressSignal_eq]
    rfl
  · rw [hlook, ipAddressSignal_eq]
    rfl


end IpAddress

/-! ### Non-negative DNS signal -/

section NonNegativeDns

theorem specNormalizedScore_nonneg {α : Type} [LinearOrderedField α] (f w : List α) :
    0 ≤ specNormalizedScore f w := by
  unfold specNormalizedScore
  split
  · rename_i h
    exact div_nonneg (abs_nonneg _) (le_of_lt h)
  · exact le_refl _

theorem sigmoid_ge_half (n : ℝ) (hn : 0 ≤ n) : 1 / 2 ≤ 1 / (1 + Real.exp (-n * 5)) := by
  have hpos : 0 < Real.exp (-n * 5) := Real.exp_pos _
  have hle : Real.exp (-n * 5) ≤ 1 := by
    rw [← Real.exp_zero]
    exact Real.exp_le_exp.mpr (by linarith)
  rw [div_le_div_iff₀ (by norm_num) (by linarith)]
  linarith

/-- In exact arithmetic, where no sum overflows: with a model loaded and a
feature array whose last element (the DNS signal) is `>= 0`, `predictPhishing`
returns `isPhishing = true`: the normalized
score is never negative, so `riskScore >= 0.5`, which meets the threshold 0.5;
and `legitimatePercentage` does not exceed 50. -/
theorem predictPhishing_nonnegative_dns (model : Model ℝ) (fs : List ℝ) (d : ℝ) (hd : 0 ≤ d) :
    ∃ p, predictPhishing Real.exp (some model) (fs ++ [d]) = .ok p ∧
      0 ≤ specNormalizedScore (fs ++ [d]) (model.feature_importances.getD []) ∧
      p.threshold = 0.5 ∧ 0.5 ≤ p.riskScore ∧ p.isPhishing = true ∧
      p.legitimatePercentage ≤ 50 := by
  refine ⟨_, predictPhishing_some _ _ _, specNormalizedScore_nonneg _ _, ?_⟩
  have hn := specNormalizedScore_nonneg (fs ++ [d]) (model.feature_importances.getD [])
  have hr := sigmoid_ge_half _ hn
  have hd2 : ¬ d < 0 := not_lt.mpr hd
  simp only [predictionOfScore, dnsIsNegative_concat, hd2, decide_False, Bool.false_eq_true,
    if_false, PHISHING_THRESHOLD]
  generalize 1 / (1 + Real.exp
    (-specNormalizedScore (fs ++ [d]) (model.feature_importances.getD []) * 5)) = r at hr
  have hr2 : (0.5 : ℝ) ≤ r := by norm_num; linarith
  refine ⟨trivial, hr2, ?_, ?_⟩
  · simpa using hr2
  · apply max_le (by norm_num)
    exact le_trans (min_le_right _ _) (by linarith)

/-- An instance in exact arithmetic: the DNS-failure default 1 as last element, all other
signals -1. -/
theorem predictPhishing_nonnegative_dns_witness :
    ∃ p, predictPhishing Real.exp (some unitModel) ([-1, -1, -1] ++ [1]) = .ok p ∧
      0 ≤ specNormalizedScore ([-1, -1, -1] ++ [1])
        ((unitModel : Model ℝ).feature_importances.getD []) ∧
      p.threshold = 0.5 ∧ 0.5 ≤ p.riskScore ∧ p.isPhishing = true ∧
      p.legitimatePercentage ≤ 50 :=
  predictPhishing_nonnegative_dns unitModel [-1, -1, -1] 1 (by norm_num)

end NonNegativeDns

/-! ### Scheduled revalidation -/

section Scheduling

variable {α : Type}

theorem updateModelCatch_alarms (env : UpdateEnv α) (s : State α) :
    (updateModelCatch env s).2.alarms = s.alarms ∧
      modelFetchCount (updateModelCatch env s).2.trace = modelFetchCount s.trace := by
  simp only [updateModelCatch, loadModel]
  cases env.getOk <;> cases h : s.storage.cache <;>
    simp [State.emit, h, modelFetchCount, List.countP_append, Effect.isFetchModel]

theorem updateModel_alarms (env : UpdateEnv α) (s : State α) :
    (updateModel env s).2.alarms = s.alarms ∧
      modelFetchCount (updateModel env s).2.trace = modelFetchCount s.trace + 1 := by
  have hemit : (s.emit .fetchModel).alarms = s.alarms ∧
      modelFetchCount (s.emit .fetchModel).trace = modelFetchCount s.trace + 1 := by
    simp [State.emit, modelFetchCount, List.countP_append, Effect.isFetchModel]
  by_cases hfail : env.fetchOrValidationFails = true
  · rw [updateModel_of_fails env s hfail]
    obtain ⟨h1, h2⟩ := updateModelCatch_alarms env (s.emit .fetchModel)
    rw [h1, h2]
    exact hemit
  · cases hf : env.modelFetch with
    | networkError => simp [UpdateEnv.fetchOrValidationFails, hf] at hfail
    | httpError status => simp [UpdateEnv.fetchOrValidationFails, hf] at hfail
    | invalidJson => simp [UpdateEnv.fetchOrValidationFails, hf] at hfail
    | ok modelData =>
      have hv : ¬ (modelTypeFalsy modelData.model_type ||
          featureImportancesFalsy modelData.feature_importances) = true := by
        intro h
        apply hfail
        simp only [UpdateEnv.fetchOrValidationFails, hf]
        exact h
      cases hset : env.setOk with
      | true =>
        simp [updateModel, hf, hv, hset, getModelMetadata_eq, State.emit, modelFetchCount,
          List.countP_append, List.countP_cons, Effect.isFetchModel]
      | false =>
        simp only [updateModel, hf, hv, hset, getModelMetadata_eq, Bool.false_eq_true,
          if_false]
        obtain ⟨h1, h2⟩ := updateModelCatch_alarms env
          (((s.emit .fetchModel).emit .fetchMetadata).emit
            (.storageSet (updateItems env modelData
              { lastCommitSha := (latestRevision env.metadataFetch).bind (fun r => r.sha)
                lastUpdateTime := (latestRevision env.metadataFetch).bind (fun r => r.time) })))
        rw [h1, h2]
        simp [State.emit, modelFetchCount, List.countP_append, List.countP_cons,
          Effect.isFetchModel]

theorem checkForModelUpdate_alarms (env : CheckEnv) (s : State α) :
    (checkForModelUpdate env s).2.alarms = s.alarms ∧
      modelFetchCount (checkForModelUpdate env s).2.trace = modelFetchCount s.trace := by
  by_cases hskip : env.getOk = false ∨ s.storage.modelLastCheck.getD 0 > env.nowStart - hourMs
  · have h : checkForModelUpdate env s =
        (false, s.emit (.storageGet ["modelSha", "modelLastCheck"])) := by
      cases hget : env.getOk with
      | false => exact checkForModelUpdate_unread env s hget
      | true =>
        rcases hskip with h1 | h2
        · rw [hget] at h1
          exact absurd h1 (by decide)
        · exact checkForModelUpdate_recent env s hget h2
    rw [h]
    simp [State.emit, modelFetchCount, List.countP_append, Effect.isFetchModel]
  · have hget : env.getOk = true := by
      cases hg : env.getOk with
      | true => rfl
      | false => exact absurd (Or.inl hg) hskip
    have hstale : s.storage.modelLastCheck.getD 0 ≤ env.nowStart - hourMs :=
      not_lt.mp (fun h => hskip (Or.inr h))
    rw [checkForModelUpdate_stale env s hget hstale]
    split
    · simp [State.emit, modelFetchCount, List.countP_append, List.countP_cons,
        Effect.isFetchModel]
    · split
      · simp [modelFetchCount, List.countP_append, List.countP_cons, Effect.isFetchModel]
      · simp [State.emit, modelFetchCount, List.countP_append, List.countP_cons,
          Effect.isFetchModel]

/-- C21: for every outcome of the storage reads and writes, of the metadata fetch
and of the model fetch, a firing of the alarm listener completes without raising
an error and leaves the registered alarms untouched, whatever the alarm's name;
on the 'modelUpdateCheck' alarm it runs `checkForModelUpdate` and then runs
`updateModel` (one model fetch) exactly when `checkForModelUpdate` returned true. -/
theorem onAlarm_completes (env : AlarmEnv α) (alarmName : String) (s : State α) :
    (onAlarm env alarmName s).1 = .ok () ∧
      (onAlarm env alarmName s).2.alarms = s.alarms ∧
      (onAlarm env "modelUpdateCheck" s).2 =
        (if (checkForModelUpdate env.check s).1 then
          (updateModel env.update (checkForModelUpdate env.check s).2).2
         else (checkForModelUpdate env.check s).2) ∧
      modelFetchCount (onAlarm env "modelUpdateCheck" s).2.trace =
        modelFetchCount s.trace + (if (checkForModelUpdate env.check s).1 then 1 else 0) := by
  have hrun : ∀ name, onAlarm env name s =
      if name = "modelUpdateCheck" then
        (.ok (), if (checkForModelUpdate env.check s).1 then
          (updateModel env.update (checkForModelUpdate env.check s).2).2
         else (checkForModelUpdate env.check s).2)
      else (.ok (), s) := by
    intro name
    unfold onAlarm
    by_cases hn : name = "modelUpdateCheck"
    · simp only [hn, if_true]
      cases hc : (checkForModelUpdate env.check s).1 with
      | false => simp
      | true =>
        simp only [if_true]
        cases (updateModel env.update (checkForModelUpdate env.check s).2).1 <;> rfl
    · simp only [hn, if_false]
  obtain ⟨hca, hcf⟩ := checkForModelUpdate_alarms env.check s
  obtain ⟨hua, huf⟩ := updateModel_alarms env.update (checkForModelUpdate env.check s).2
  refine ⟨?_, ?_, ?_, ?_⟩
  · rw [hrun]
    split <;> rfl
  · rw [hrun]
    by_cases hn : alarmName = "modelUpdateCheck"
    · simp only [hn, if_true]
      cases hc : (checkForModelUpdate env.check s).1 with
      | false => simpa using hca
      | true =>
        simp only [if_true]
        rw [hua, hca]
    · simp only [hn, if_false]
  · rw [hrun]
    simp
  · rw [hrun]
    simp only [if_true]
    cases hc : (checkForModelUpdate env.check s).1 with
    | false => simpa using hcf
    | true =>
      simp only [if_true]
      rw [huf, hcf]

end Scheduling

/-! ### The model slot -/

section ModelSlot

variable {α : Type}

theorem slotInvariant_loadModel (getOk : Bool) (s : State α) (h : slotInvariant s) :
    slotInvariant (loadModel getOk s).2 := by
  unfold slotInvariant at h ⊢
  unfold loadModel
  cases getOk <;> cases hc : s.storage.cache <;> simp [State.emit, hc] <;> simpa [hc] using h

theorem slotInvariant_updateModelCatch (env : UpdateEnv α) (s : State α)
    (h : slotInvariant s) : slotInvariant (updateModelCatch env s).2 := by
  have hl := slotInvariant_loadModel env.getOk s h
  simp only [updateModelCatch]
  split <;> exact hl

theorem slotInvariant_emit (s : State α) (e : Effect α) (h : slotInvariant s) :
    slotInvariant (s.emit e) := h

theorem slotInvariant_updateModel (env : UpdateEnv α) (s : State α) (h : slotInvariant s) :
    slotInvariant (updateModel env s).2 := by
  by_cases hfail : env.fetchOrValidationFails = true
  · rw [updateModel_of_fails env s hfail]
    exact slotInvariant_updateModelCatch env _ (slotInvariant_emit s _ h)
  · cases hf : env.modelFetch with
    | networkError => simp [UpdateEnv.fetchOrValidationFails, hf] at hfail
    | httpError status => simp [UpdateEnv.fetchOrValidationFails, hf] at hfail
    | invalidJson => simp [UpdateEnv.fetchOrValidationFails, hf] at hfail
    | ok modelData =>
      have hv : ¬ (modelTypeFalsy modelData.model_type ||
          featureImportancesFalsy modelData.feature_importances) = true := by
        intro hh
        apply hfail
        simp only [UpdateEnv.fetchOrValidationFails, hf]
        exact hh
      cases hset : env.setOk with
      | true =>
        right
        simp [updateModel, hf, hv, hset, getModelMetadata_eq, State.emit, Storage.set,
          updateItems, writeKey]
      | false =>
        simp only [updateModel, hf, hv, hset, getModelMetadata_eq, Bool.false_eq_true,
          if_false]
        apply slotInvariant_updateModelCatch
        exact h

theorem slotInvariant_scheduleModelUpdates (s : State α) (h : slotInvariant s) :
    slotInvariant (scheduleModelUpdates s) := h

theorem slotInvariant_initializeExtension (env : InitEnv α) (s : State α)
    (h : slotInvariant s) : slotInvariant (initializeExtension env s).2 := by
  unfold initializeExtension
  cases hg : env.getError with
  | some message => exact h
  | none =>
    cases hc : s.storage.cache with
    | some cache =>
      have hc2 : (s.emit (.storageGet ["cache", "modelLastUpdate"])).storage.cache =
          some cache := hc
      simp only [hc2]
      apply slotInvariant_scheduleModelUpdates
      right
      exact hc2.symm
    | none =>
      have hc2 : (s.emit (.storageGet ["cache", "modelLastUpdate"])).storage.cache = none := hc
      have hu := slotInvariant_updateModel env.update
        (s.emit (.storageGet ["cache", "modelLastUpdate"])) h
      simp only [hc2]
      split
      · exact hu
      · exact slotInvariant_scheduleModelUpdates _ hu

theorem slotInvariant_run (op : Operation α) (s : State α) (h : slotInvariant s) :
    slotInvariant (op.run s) := by
  cases op with
  | init env => exact slotInvariant_initializeExtension env s h
  | load getOk => exact slotInvariant_loadModel getOk s h
  | update env => exact slotInvariant_updateModel env s h

theorem slotInvariant_runAll (ops : List (Operation α)) (s : State α) (h : slotInvariant s) :
    slotInvariant (runAll ops s) := by
  induction ops generalizing s with
  | nil => exact h
  | cons op rest ih => exact ih (op.run s) (slotInvariant_run op s h)

/-- C23: invariant of the model slot.  Starting from an empty current-model slot,
after any sequence of `initializeExtension`, `loadModel` and `updateModel` calls
run one after another, with any outcomes of their external calls, `modelCache`
is either empty or equal to the model persisted under `cache`; and a further
`updateModel` that ends with a document as current model has that document
persisted under `cache`. -/
theorem modelSlot_invariant (ops : List (Operation α)) (s : State α)
    (hempty : s.modelCache = none) :
    ((runAll ops s).modelCache = none ∨
        (runAll ops s).modelCache = (runAll ops s).storage.cache) ∧
      ∀ (env : UpdateEnv α) (modelData : Model α),
        (updateModel env (runAll ops s)).2.modelCache ≠ some modelData ∨
          (updateModel env (runAll ops s)).2.storage.cache = some modelData := by
  have hinv := slotInvariant_runAll ops s (Or.inl hempty)
  refine ⟨hinv, ?_⟩
  intro env modelData
  have hu := slotInvariant_updateModel env (runAll ops s) hinv
  by_cases hm : (updateModel env (runAll ops s)).2.modelCache = some modelData
  · right
    rcases hu with hn | heq
    · rw [hn] at hm
      exact absurd hm (by simp)
    · rw [← heq, hm]
  · left
    exact hm

/-- Witness for C23: an update whose storage write is rejected, a load, and an
initialization with the network down, from the empty state. -/
theorem modelSlot_invariant_witness :
    ((runAll [.update (deliveringEnv exampleModel false), .load true,
          .init { getError := none, update := networkDownEnv true }]
          (freshState emptyStorage)).modelCache = none ∨
        (runAll [.update (deliveringEnv exampleModel false), .load true,
          .init { getError := none, update := networkDownEnv true }]
          (freshState emptyStorage)).modelCache =
        (runAll [.update (deliveringEnv exampleModel false), .load true,
          .init { getError := none, update := networkDownEnv true }]
          (freshState emptyStorage)).storage.cache) ∧
      ∀ (env : UpdateEnv ℚ) (modelData : Model ℚ),
        (updateModel env (runAll [.update (deliveringEnv exampleModel false), .load true,
          .init { getError := none, update := networkDownEnv true }]
          (freshState emptyStorage))).2.modelCache ≠ some modelData ∨
          (updateModel env (runAll [.update (deliveringEnv exampleModel false), .load true,
            .init { getError := none, update := networkDownEnv true }]
            (freshState emptyStorage))).2.storage.cache = some modelData :=
  modelSlot_invariant [.update (deliveringEnv exampleModel false), .load true,
    .init { getError := none, update := networkDownEnv true }]
    (freshState emptyStorage) rfl

end ModelSlot

/-! ### Initialization -/

section Initialization

variable {α : Type}

theorem scheduleModelUpdates_eq (s : State α) :
    scheduleModelUpdates s =
      { modelCache := s.modelCache
        storage := s.storage
        alarms := s.alarms.filter (fun a => a.name ≠ "modelUpdateCheck") ++
          [{ name := "modelUpdateCheck", delayInMinutes := 60, periodInMinutes := 60 }]
        trace := s.trace ++ [.alarmsClear "modelUpdateCheck",
          .alarmsCreate
            { name := "modelUpdateCheck", delayInMinutes := 60, periodInMinutes := 60 }] } := by
  simp [scheduleModelUpdates, State.emit, UPDATE_CHECK_INTERVAL, List.filter_filter]

theorem initializeExtension_unread (env : InitEnv α) (s : State α) (message : String)
    (hget : env.getError = some message) :
    initializeExtension env s =
      (.error message, s.emit (.storageGet ["cache", "modelLastUpdate"])) := by
  simp [initializeExtension, hget]

theorem initializeExtension_cached (env : InitEnv α) (s : State α) (M : Model α)
    (hget : env.getError = none) (hM : s.storage.cache = some M) :
    initializeExtension env s =
      (.ok (),
        { modelCache := some M
          storage := s.storage
          alarms := s.alarms.filter (fun a => a.name ≠ "modelUpdateCheck") ++
            [{ name := "modelUpdateCheck", delayInMinutes := 60, periodInMinutes := 60 }]
          trace := s.trace ++ [.storageGet ["cache", "modelLastUpdate"],
            .alarmsClear "modelUpdateCheck",
            .alarmsCreate
              { name := "modelUpdateCheck", delayInMinutes := 60, periodInMinutes := 60 }] }) := by
  have hM2 : (s.emit (.storageGet ["cache", "modelLastUpdate"])).storage.cache = some M := hM
  simp only [initializeExtension, hget, hM2, scheduleModelUpdates_eq]
  simp [State.emit]

theorem initializeExtension_fatal (env : InitEnv α) (s : State α)
    (hget : env.getError = none) (hnone : s.storage.cache = none)
    (hfail : env.update.fetchOrValidationFails = true) :
    initializeExtension env s =
      (.error "No model available and update failed",
        { s with trace := s.trace ++ [.storageGet ["cache", "modelLastUpdate"], .fetchModel,
            .storageGet ["cache"]] }) := by
  have hnone2 : (s.emit (.storageGet ["cache", "modelLastUpdate"])).storage.cache = none := hnone
  have hnone3 : ((s.emit (.storageGet ["cache", "modelLastUpdate"])).emit
      .fetchModel).storage.cache = none := hnone
  simp only [initializeExtension, hget, hnone2, updateModel_of_fails _ _ hfail, updateModelCatch,
    loadModel_absent _ _ hnone3]
  simp [State.emit]

/-- C24, counterexample: a model is persisted, but the storage read of
`initializeExtension` is rejected; the call raises the storage error and no alarm
is created. -/
theorem initializeExtension_alarm_counterexample :
    (freshState exampleStorage).storage.cache = some exampleModel ∧
      initializeExtension
          { getError := some "storage unavailable", update := networkDownEnv true }
          (freshState exampleStorage) =
        (.error "storage unavailable",
          { freshState exampleStorage with
            trace := [.storageGet ["cache", "modelLastUpdate"]] }) ∧
      (initializeExtension
          { getError := some "storage unavailable", update := networkDownEnv true }
          (freshState exampleStorage)).2.alarms = [] :=
  ⟨rfl, rfl, rfl⟩

/-- C24, amended: if `initializeExtension` runs with no persisted model, its
storage read succeeds and the initial `updateModel` fails (fetch or validation
failure), it raises 'No model available and update failed' before reaching
`scheduleModelUpdates`: the alarms are untouched and no alarm call is issued.
When a persisted model `M` exists and the storage read succeeds, `M` becomes the
current model and the 'modelUpdateCheck' alarm is created with delay and period of
60 minutes, without any model fetch; when that read is rejected, the call raises
the storage error and issues no other call, so no alarm is created. -/
theorem initializeExtension_alarm (envA envB : InitEnv α) (sA sB : State α) (M : Model α)
    (hgetA : envA.getError = none) (hnone : sA.storage.cache = none)
    (hfail : envA.update.fetchOrValidationFails = true) (hM : sB.storage.cache = some M) :
    initializeExtension envA sA =
        (.error "No model available and update failed",
          { sA with trace := sA.trace ++ [.storageGet ["cache", "modelLastUpdate"], .fetchModel,
              .storageGet ["cache"]] }) ∧
      initializeExtension envB sB =
        (match envB.getError with
          | none =>
            (.ok (),
              { modelCache := some M
                storage := sB.storage
                alarms := sB.alarms.filter (fun a => a.name ≠ "modelUpdateCheck") ++
                  [{ name := "modelUpdateCheck", delayInMinutes := 60, periodInMinutes := 60 }]
                trace := sB.trace ++ [.storageGet ["cache", "modelLastUpdate"],
                  .alarmsClear "modelUpdateCheck",
                  .alarmsCreate
                    { name := "modelUpdateCheck", delayInMinutes := 60,
                      periodInMinutes := 60 }] })
          | some message =>
            (.error message, sB.emit (.storageGet ["cache", "modelLastUpdate"]))) := by
  refine ⟨initializeExtension_fatal envA sA hgetA hnone hfail, ?_⟩
  cases hg : envB.getError with
  | none => exact initializeExtension_cached envB sB M hg hM
  | some message => exact initializeExtension_unread envB sB message hg

/-- Witness for C24: the empty store with the network down, and a store holding
`exampleModel`. -/
theorem initializeExtension_alarm_witness :
    initializeExtension { getError := none, update := networkDownEnv true }
        (freshState emptyStorage) =
        (.error "No model available and update failed",
          { freshState emptyStorage with
            trace := [.storageGet ["cache", "modelLastUpdate"], .fetchModel,
              .storageGet ["cache"]] }) ∧
      initializeExtension { getError := none, update := networkDownEnv true }
        (freshState exampleStorage) =
        (.ok (),
          { modelCache := some exampleModel
            storage := exampleStorage
            alarms :=
              [{ name := "modelUpdateCheck", delayInMinutes := 60, periodInMinutes := 60 }]
            trace := [.storageGet ["cache", "modelLastUpdate"],
              .alarmsClear "modelUpdateCheck",
              .alarmsCreate
                { name := "modelUpdateCheck", delayInMinutes := 60,
                  periodInMinutes := 60 }] }) :=
  initializeExtension_alarm { getError := none, update := networkDownEnv true }
    { getError := none, update := networkDownEnv true }
    (freshState emptyStorage) (freshState exampleStorage) exampleModel rfl rfl rfl rfl

end Initialization

/-! ### The classifier on doubles -/

section Overflow

theorem js_MAX_VALUE_ge : (100 : ℝ) ≤ JsNumber.MAX_VALUE := by
  unfold JsNumber.MAX_VALUE
  norm_num

theorem js_overflow_finite (x : ℝ) (h : |x| ≤ 100) : JsNumber.overflow x = .finite x := by
  have hM := js_MAX_VALUE_ge
  have hx := abs_le.mp h
  unfold JsNumber.overflow
  rw [if_neg (not_lt.mpr (by linarith)), if_neg (not_lt.mpr (by linarith))]

theorem js_overflow_nonneg (x : ℝ) (h : 0 ≤ x) :
    JsNumber.overflow x = .posInf ∨ JsNumber.overflow x = .finite x := by
  have hM := js_MAX_VALUE_ge
  unfold JsNumber.overflow
  by_cases h1 : x > JsNumber.MAX_VALUE
  · left
    rw [if_pos h1]
  · right
    rw [if_neg h1, if_neg (not_lt.mpr (by linarith))]

theorem js_overflow_nonpos (x : ℝ) (h : x ≤ 0) :
    JsNumber.overflow x = .negInf ∨ JsNumber.overflow x = .finite x := by
  have hM := js_MAX_VALUE_ge
  unfold JsNumber.overflow
  rw [if_neg (not_lt.mpr (by linarith))]
  by_cases h1 : x < -JsNumber.MAX_VALUE
  · left
    rw [if_pos h1]
  · right
    rw [if_neg h1]

theorem js_normalizedScore_cases (S : ℝ) (T : JsNumber ℝ) :
    (if JsNumber.gt T (.finite 0) then JsNumber.div (JsNumber.abs (.finite S)) T
      else .finite 0) = .posInf ∨
    ∃ n : ℝ, 0 ≤ n ∧
      (if JsNumber.gt T (.finite 0) then JsNumber.div (JsNumber.abs (.finite S)) T
        else .finite 0) = .finite n := by
  cases T with
  | finite t =>
    by_cases ht : 0 < t
    · have hne : t ≠ 0 := ne_of_gt ht
      simp only [JsNumber.gt, JsNumber.lt, ht, decide_True, if_true, JsNumber.abs, JsNumber.div,
        hne, if_false]
      rcases js_overflow_nonneg (|S| / t) (div_nonneg (abs_nonneg _) ht.le) with h | h
      · exact Or.inl h
      · exact Or.inr ⟨_, div_nonneg (abs_nonneg _) ht.le, h⟩
    · simp only [JsNumber.gt, JsNumber.lt, ht, decide_False, Bool.false_eq_true, if_false]
      exact Or.inr ⟨0, le_refl _, rfl⟩
  | posInf =>
    simp only [JsNumber.gt, JsNumber.lt, JsNumber.abs, JsNumber.div, if_true]
    exact Or.inr ⟨0, le_refl _, rfl⟩
  | negInf =>
    simp only [JsNumber.gt, JsNumber.lt, Bool.false_eq_true, if_false]
    exact Or.inr ⟨0, le_refl _, rfl⟩
  | nan =>
    simp only [JsNumber.gt, JsNumber.lt, Bool.false_eq_true, if_false]
    exact Or.inr ⟨0, le_refl _, rfl⟩

theorem js_riskScore_of_negInf :
    JsNumber.div (.finite 1) (JsNumber.add (.finite 1) (JsNumber.exp Real.exp .negInf)) =
      .finite (1 : ℝ) := by
  simp only [JsNumber.exp, JsNumber.add]
  rw [js_overflow_finite _ (by norm_num)]
  simp only [JsNumber.div]
  rw [if_neg (by norm_num), js_overflow_finite _ (by norm_num)]
  norm_num

theorem js_riskScore_cases (ns : JsNumber ℝ)
    (h : ns = .posInf ∨ ∃ n : ℝ, 0 ≤ n ∧ ns = .finite n) :
    ∃ r : ℝ, 1 / 2 ≤ r ∧ r ≤ 1 ∧
      JsNumber.div (.finite 1) (JsNumber.add (.finite 1)
        (JsNumber.exp Real.exp (JsNumber.mul (JsNumber.neg ns) (.finite 5)))) = .finite r := by
  rcases h with h | ⟨n, hn, h⟩
  · subst h
    refine ⟨1, by norm_num, le_refl _, ?_⟩
    have h5 : JsNumber.mul (JsNumber.neg (.posInf : JsNumber ℝ)) (.finite 5) = .negInf := by
      simp [JsNumber.neg, JsNumber.mul, JsNumber.infTimes]
    rw [h5]
    exact js_riskScore_of_negInf
  · subst h
    simp only [JsNumber.neg, JsNumber.mul]
    rcases js_overflow_nonpos (-n * 5) (by linarith) with h5 | h5
    · rw [h5]
      exact ⟨1, by norm_num, le_refl _, js_riskScore_of_negInf⟩
    · rw [h5]
      have hpos : 0 < Real.exp (-n * 5) := Real.exp_pos _
      have hle : Real.exp (-n * 5) ≤ 1 := by
        rw [← Real.exp_zero]
        exact Real.exp_le_exp.mpr (by linarith)
      have hhalf : 1 / 2 ≤ 1 / (1 + Real.exp (-n * 5)) := by
        rw [div_le_div_iff₀ (by norm_num) (by linarith)]
        linarith
      have hone : 1 / (1 + Real.exp (-n * 5)) ≤ 1 := by
        rw [div_le_one (by linarith)]
        linarith
      refine ⟨1 / (1 + Real.exp (-n * 5)), hhalf, hone, ?_⟩
      simp only [JsNumber.exp]
      rw [js_overflow_finite _ (by rw [abs_of_pos hpos]; linarith)]
      simp only [JsNumber.add]
      rw [js_overflow_finite _ (by rw [abs_of_pos (by linarith)]; linarith)]
      simp only [JsNumber.div]
      rw [if_neg (by linarith), js_overflow_finite _ (by rw [abs_of_nonneg (by linarith)]; linarith)]

theorem js_max_finite (a b : ℝ) :
    JsNumber.max (.finite a) (.finite b) = .finite (max a b) := by
  simp only [JsNumber.max, JsNumber.lt]
  by_cases h : a < b
  · simp [h, max_eq_right h.le]
  · simp [h, max_eq_left (not_lt.mp h)]

theorem js_min_finite (a b : ℝ) :
    JsNumber.min (.finite a) (.finite b) = .finite (min a b) := by
  simp only [JsNumber.min, JsNumber.lt]
  by_cases h : b < a
  · simp [h, min_eq_right h.le]
  · simp [h, min_eq_left (not_lt.mp h)]

theorem js_confidence_finite (r : ℝ) (h0 : 0 ≤ r) (h1 : r ≤ 1) :
    JsNumber.max (JsNumber.mul (JsNumber.abs (JsNumber.sub (.finite r) (.finite 0.5)))
      (.finite 2)) (.finite 0.5) = .finite (max (2 * |r - 0.5|) 0.5) := by
  have habs : |r - 0.5| ≤ 0.5 := by
    rw [abs_le]
    constructor <;> norm_num <;> linarith
  have hsub : JsNumber.sub (.finite r) (.finite (0.5 : ℝ)) = .finite (r - 0.5) := by
    simp only [JsNumber.sub, JsNumber.neg, JsNumber.add]
    rw [js_overflow_finite _ (by rw [← sub_eq_add_neg]; linarith), sub_eq_add_neg]
  rw [hsub]
  simp only [JsNumber.abs, JsNumber.mul]
  rw [js_overflow_finite _ (by rw [abs_of_nonneg (by positivity)]; linarith), js_max_finite,
    mul_comm]

theorem js_legitimate_finite (r : ℝ) (h0 : 0 ≤ r) (h1 : r ≤ 1) :
    JsNumber.max (.finite 0) (JsNumber.min (.finite 100)
      (JsNumber.mul (JsNumber.sub (.finite 1) (.finite r)) (.finite 100))) =
      .finite (max 0 (min 100 ((1 - r) * 100))) := by
  have hsub : JsNumber.sub (.finite 1) (.finite r) = .finite (1 - r) := by
    simp only [JsNumber.sub, JsNumber.neg, JsNumber.add]
    rw [js_overflow_finite _ (by rw [← sub_eq_add_neg, abs_of_nonneg (by linarith)]; linarith),
      sub_eq_add_neg]
  rw [hsub]
  simp only [JsNumber.mul]
  rw [js_overflow_finite _ (by rw [abs_of_nonneg (by nlinarith)]; nlinarith), js_min_finite,
    js_max_finite]

theorem js_predictPhishing_finite_score (model : Model (JsNumber ℝ)) (f : List (JsNumber ℝ))
    (S : ℝ) (hS : (IEEE.accumulate f (model.feature_importances.getD [])).1 = .finite S) :
    ∃ r : ℝ, 1 / 2 ≤ r ∧ r ≤ 1 ∧
      JsNumber.ge (IEEE.normalizedScore f (model.feature_importances.getD [])) (.finite 0) = true ∧
      JsNumber.div (.finite 1) (JsNumber.add (.finite 1) (JsNumber.exp Real.exp
        (JsNumber.mul (JsNumber.neg (IEEE.normalizedScore f (model.feature_importances.getD [])))
          (.finite 5)))) = .finite r ∧
      IEEE.predictPhishing Real.exp (some model) f = .ok
        { isPhishing := JsNumber.ge (.finite r)
            (if IEEE.dnsIsNegative f then JsNumber.add (.finite PHISHING_THRESHOLD) (.finite 0.1)
              else .finite PHISHING_THRESHOLD)
          riskScore := .finite r
          confidence := .finite (max (2 * |r - 0.5|) 0.5)
          threshold :=
            if IEEE.dnsIsNegative f then JsNumber.add (.finite PHISHING_THRESHOLD) (.finite 0.1)
            else .finite PHISHING_THRESHOLD
          legitimatePercentage := .finite (max 0 (min 100 ((1 - r) * 100))) } := by
  have hcases := js_normalizedScore_cases S (IEEE.accumulate f (model.feature_importances.getD [])).2
  obtain ⟨r, hlo, hhi, hr⟩ := js_riskScore_cases _ hcases
  have hns : IEEE.normalizedScore f (model.feature_importances.getD []) =
      (if JsNumber.gt (IEEE.accumulate f (model.feature_importances.getD [])).2 (.finite 0) then
        JsNumber.div (JsNumber.abs (.finite S)) (IEEE.accumulate f (model.feature_importances.getD [])).2
      else .finite 0) := by
    simp only [IEEE.normalizedScore, hS]
  refine ⟨r, hlo, hhi, ?_, ?_, ?_⟩
  · rw [hns]
    rcases hcases with h | ⟨n, hn, h⟩
    · rw [h]
      rfl
    · rw [h]
      simpa [JsNumber.ge] using hn
  · rw [hns]
    exact hr
  · simp only [IEEE.predictPhishing, hS]
    rw [hr, js_confidence_finite r (by linarith) hhi, js_legitimate_finite r (by linarith) hhi]

theorem js_dnsIsNegative_concat (fs : List (JsNumber ℝ)) (d : JsNumber ℝ)
    (hd : JsNumber.ge d (.finite 0) = true) : IEEE.dnsIsNegative (fs ++ [d]) = false := by
  have hlast : IEEE.dnsIsNegative (fs ++ [d]) = JsNumber.lt d (.finite 0) := by
    simp [IEEE.dnsIsNegative, List.getLast?_concat]
  rw [hlast]
  cases d with
  | finite x =>
    simp only [JsNumber.ge, decide_eq_true_eq] at hd
    simp only [JsNumber.lt, decide_eq_false_iff_not, not_lt]
    exact hd
  | posInf => rfl
  | negInf => simp [JsNumber.ge] at hd
  | nan => rfl

theorem js_accumulate_huge :
    IEEE.accumulate (IEEE.twoOnes : List (JsNumber ℝ)) IEEE.hugeWeights = (.posInf, .posInf) := by
  have hrange : List.range (Nat.min 2 2) = [0, 1] := by decide
  have h0 : JsNumber.overflow (1e308 * 1 : ℝ) = .finite 1e308 := by
    unfold JsNumber.overflow JsNumber.MAX_VALUE
    rw [if_neg (by norm_num), if_neg (by norm_num), mul_one]
  have h1 : JsNumber.overflow (0 + 1e308 : ℝ) = .finite 1e308 := by
    unfold JsNumber.overflow JsNumber.MAX_VALUE
    rw [if_neg (by norm_num), if_neg (by norm_num), zero_add]
  have h2 : JsNumber.overflow (1e308 + 1e308 : ℝ) = .posInf := by
    unfold JsNumber.overflow JsNumber.MAX_VALUE
    rw [if_pos (by norm_num)]
  have h3 : JsNumber.overflow (0 + |1e308| : ℝ) = .finite 1e308 := by
    rw [abs_of_pos (by norm_num), zero_add]
    unfold JsNumber.overflow JsNumber.MAX_VALUE
    rw [if_neg (by norm_num), if_neg (by norm_num)]
  have h4 : JsNumber.overflow (1e308 + |1e308| : ℝ) = .posInf := by
    rw [abs_of_pos (by norm_num)]
    unfold JsNumber.overflow JsNumber.MAX_VALUE
    rw [if_pos (by norm_num)]
  have hne : ¬ ((1e308 : ℝ) = 0) := by norm_num
  have hpos : (0 : ℝ) < 1 := by norm_num
  simp only [IEEE.accumulate, IEEE.twoOnes, IEEE.hugeWeights, List.length_cons, List.length_nil,
    hrange, List.foldl_cons, List.foldl_nil, IEEE.accumulateStep, List.getElem?_cons_zero,
    List.getElem?_cons_succ, JsNumber.orZero, hne, if_false, JsNumber.gt, JsNumber.lt, hpos,
    decide_True, if_true, JsNumber.mul, JsNumber.add, JsNumber.abs, h0, h1, h2, h3, h4]

theorem js_predictPhishing_huge :
    IEEE.predictPhishing Real.exp (some IEEE.hugeModel) IEEE.twoOnes = .ok
      { isPhishing := false, riskScore := .nan, confidence := .nan, threshold := .finite 0.5,
        legitimatePercentage := .nan } := by
  have hw : (IEEE.hugeModel : Model (JsNumber ℝ)).feature_importances.getD [] =
      IEEE.hugeWeights := rfl
  have hdns : IEEE.dnsIsNegative (IEEE.twoOnes : List (JsNumber ℝ)) = false :=
    js_dnsIsNegative_concat [.finite 1] (.finite 1) (by simp [JsNumber.ge])
  simp only [IEEE.predictPhishing, hw, js_accumulate_huge, hdns]
  simp [JsNumber.gt, JsNumber.lt, JsNumber.abs, JsNumber.div, JsNumber.neg, JsNumber.mul,
    JsNumber.exp, JsNumber.add, JsNumber.ge, JsNumber.sub, JsNumber.max, JsNumber.min,
    PHISHING_THRESHOLD]

theorem js_accumulate_plain :
    IEEE.accumulate (IEEE.twoOnes : List (JsNumber ℝ))
      ((IEEE.plainModel : Model (JsNumber ℝ)).feature_importances.getD []) =
      (.finite 5, .finite 5) := by
  have hw : (IEEE.plainModel : Model (JsNumber ℝ)).feature_importances.getD [] =
      [.finite 2, .finite 3] := rfl
  have hrange : List.range (Nat.min 2 2) = [0, 1] := by decide
  have h2 : ¬ ((2 : ℝ) = 0) := by norm_num
  have h3 : ¬ ((3 : ℝ) = 0) := by norm_num
  have hpos : (0 : ℝ) < 1 := by norm_num
  have e1 : JsNumber.overflow (2 * 1 : ℝ) = .finite 2 := by
    rw [js_overflow_finite _ (by norm_num), mul_one]
  have e2 : JsNumber.overflow (3 * 1 : ℝ) = .finite 3 := by
    rw [js_overflow_finite _ (by norm_num), mul_one]
  have e3 : JsNumber.overflow (0 + 2 : ℝ) = .finite 2 := by
    rw [js_overflow_finite _ (by norm_num), zero_add]
  have e4 : JsNumber.overflow (2 + 3 : ℝ) = .finite 5 := by
    rw [js_overflow_finite _ (by norm_num)]
    norm_num
  have e5 : JsNumber.overflow (0 + |2| : ℝ) = .finite 2 := by
    rw [js_overflow_finite _ (by norm_num)]
    norm_num
  have e6 : JsNumber.overflow (2 + |3| : ℝ) = .finite 5 := by
    rw [js_overflow_finite _ (by norm_num)]
    norm_num
  simp only [hw, IEEE.accumulate, IEEE.twoOnes, List.length_cons, List.length_nil,
    hrange, List.foldl_cons, List.foldl_nil, IEEE.accumulateStep, List.getElem?_cons_zero,
    List.getElem?_cons_succ, JsNumber.orZero, h2, h3, if_false, JsNumber.gt, JsNumber.lt, hpos,
    decide_True, if_true, JsNumber.mul, JsNumber.add, JsNumber.abs, e1, e2, e3, e4, e5, e6]

end Overflow

/-! ### Ranges and the non-negative DNS signal, on doubles -/

section OverflowClaims

/-- Counterexample to C4: the feature array `[1, 1]` and the weights `[1e308, 1e308]`
are finite doubles, their sum `2e308` exceeds even `2^1024`, so `score` and
`totalWeight` are both `Infinity`, `normalizedScore` is `Infinity / Infinity = NaN`,
and `riskScore`, `confidence` and `legitimatePercentage` are `NaN`: no bound of the
Prediction holds. -/
theorem predictPhishing_ranges_counterexample :
    (∀ x ∈ (IEEE.twoOnes : List (JsNumber ℝ)), ∃ v : ℝ, x = .finite v ∧
      |v| ≤ JsNumber.MAX_VALUE) ∧
    (∀ x ∈ (IEEE.hugeWeights : List (JsNumber ℝ)), ∃ v : ℝ, x = .finite v ∧
      |v| ≤ JsNumber.MAX_VALUE) ∧
    (IEEE.hugeModel : Model (JsNumber ℝ)).feature_importances = some IEEE.hugeWeights ∧
    (1e308 + 1e308 : ℝ) > 2 ^ 1024 ∧
    IEEE.accumulate (IEEE.twoOnes : List (JsNumber ℝ)) IEEE.hugeWeights = (.posInf, .posInf) ∧
    ∃ p, IEEE.predictPhishing Real.exp (some IEEE.hugeModel) IEEE.twoOnes = .ok p ∧
      p.riskScore = .nan ∧ p.confidence = .nan ∧ p.legitimatePercentage = .nan ∧
      JsNumber.ge p.riskScore (.finite 0) = false ∧
      JsNumber.ge (.finite 1) p.riskScore = false ∧
      JsNumber.ge p.confidence (.finite 0.5) = false ∧
      JsNumber.ge (.finite 1) p.confidence = false ∧
      JsNumber.ge p.legitimatePercentage (.finite 0) = false ∧
      JsNumber.ge (.finite 100) p.legitimatePercentage = false := by
  refine ⟨?_, ?_, rfl, by norm_num, js_accumulate_huge, _, js_predictPhishing_huge,
    rfl, rfl, rfl, rfl, rfl, rfl, rfl, rfl, rfl⟩
  · intro x hx
    simp only [IEEE.twoOnes, List.mem_cons, List.mem_singleton, List.mem_nil_iff, or_false,
      or_self] at hx
    refine ⟨1, hx, ?_⟩
    unfold JsNumber.MAX_VALUE
    norm_num
  · intro x hx
    simp only [IEEE.hugeWeights, List.mem_cons, List.mem_singleton, List.mem_nil_iff, or_false,
      or_self] at hx
    refine ⟨1e308, hx, ?_⟩
    unfold JsNumber.MAX_VALUE
    norm_num

/-- C4, amended: with a model loaded, if the score accumulated by the loop of
`predictPhishing` is a finite number (it did not overflow to an infinity or
`NaN`), the Prediction returned has finite `riskScore`, `confidence` and
`legitimatePercentage` with `0 <= riskScore <= 1`, `0.5 <= confidence <= 1`,
`confidence = max(2 * |riskScore - 0.5|, 0.5)`, `0 <= legitimatePercentage <= 100`
and `legitimatePercentage` equal to `(1 - riskScore) * 100` clamped to `[0, 100]`. -/
theorem predictPhishing_ranges_no_overflow (model : Model (JsNumber ℝ))
    (f : List (JsNumber ℝ)) (S : ℝ)
    (hS : (IEEE.accumulate f (model.feature_importances.getD [])).1 = .finite S) :
    ∃ (p : Prediction (JsNumber ℝ)) (r c l : ℝ),
      IEEE.predictPhishing Real.exp (some model) f = .ok p ∧
      p.riskScore = .finite r ∧ p.confidence = .finite c ∧
      p.legitimatePercentage = .finite l ∧
      0 ≤ r ∧ r ≤ 1 ∧
      0.5 ≤ c ∧ c ≤ 1 ∧ c = max (2 * |r - 0.5|) 0.5 ∧
      0 ≤ l ∧ l ≤ 100 ∧ l = max 0 (min 100 ((1 - r) * 100)) := by
  obtain ⟨r, hlo, hhi, -, -, hp⟩ := js_predictPhishing_finite_score model f S hS
  have habs : 2 * |r - 0.5| ≤ 1 := by
    have : |r - 0.5| ≤ 0.5 := by
      rw [abs_le]
      constructor <;> norm_num <;> linarith
    linarith
  exact ⟨_, r, _, _, hp, rfl, rfl, rfl, by linarith, hhi, le_max_right _ _,
    max_le habs (by norm_num), rfl, le_max_left _ _, max_le (by norm_num) (min_le_left _ _), rfl⟩

/-- Witness for C4, amended: the weights `[2, 3]` on the feature array `[1, 1]`
give the finite score 5. -/
theorem predictPhishing_ranges_no_overflow_witness :
    (IEEE.accumulate (IEEE.twoOnes : List (JsNumber ℝ))
      ((IEEE.plainModel : Model (JsNumber ℝ)).feature_importances.getD [])).1 = .finite 5 ∧
    ∃ (p : Prediction (JsNumber ℝ)) (r c l : ℝ),
      IEEE.predictPhishing Real.exp (some IEEE.plainModel) IEEE.twoOnes = .ok p ∧
      p.riskScore = .finite r ∧ p.confidence = .finite c ∧
      p.legitimatePercentage = .finite l ∧
      0 ≤ r ∧ r ≤ 1 ∧
      0.5 ≤ c ∧ c ≤ 1 ∧ c = max (2 * |r - 0.5|) 0.5 ∧
      0 ≤ l ∧ l ≤ 100 ∧ l = max 0 (min 100 ((1 - r) * 100)) :=
  ⟨congrArg Prod.fst js_accumulate_plain,
    predictPhishing_ranges_no_overflow IEEE.plainModel IEEE.twoOnes 5
      (congrArg Prod.fst js_accumulate_plain)⟩

/-- Counterexample to C22: the last element of the feature array `[1, 1]` is the
DNS-failure default 1, which is `>= 0`, and the weights `[1e308, 1e308]` are finite
doubles, yet `riskScore` is `NaN`, the comparison `riskScore >= 0.5` is false and
`predictPhishing` returns `isPhishing = false`. -/
theorem predictPhishing_nonnegative_dns_counterexample :
    (IEEE.twoOnes : List (JsNumber ℝ)) = [.finite 1] ++ [.finite 1] ∧
    JsNumber.ge (.finite 1 : JsNumber ℝ) (.finite 0) = true ∧
    (∀ x ∈ (IEEE.hugeWeights : List (JsNumber ℝ)), ∃ v : ℝ, x = .finite v ∧
      |v| ≤ JsNumber.MAX_VALUE) ∧
    (IEEE.hugeModel : Model (JsNumber ℝ)).feature_importances = some IEEE.hugeWeights ∧
    IEEE.normalizedScore (IEEE.twoOnes : List (JsNumber ℝ)) IEEE.hugeWeights = .nan ∧
    ∃ p, IEEE.predictPhishing Real.exp (some IEEE.hugeModel) IEEE.twoOnes = .ok p ∧
      p.threshold = .finite 0.5 ∧ p.isPhishing = false ∧
      JsNumber.ge p.riskScore (.finite 0.5) = false ∧
      JsNumber.ge (.finite 50) p.legitimatePercentage = false := by
  refine ⟨rfl, by simp [JsNumber.ge], ?_, rfl, ?_, _, js_predictPhishing_huge,
    rfl, rfl, rfl, rfl⟩
  · intro x hx
    simp only [IEEE.hugeWeights, List.mem_cons, List.mem_singleton, List.mem_nil_iff, or_false,
      or_self] at hx
    refine ⟨1e308, hx, ?_⟩
    unfold JsNumber.MAX_VALUE
    norm_num
  · simp only [IEEE.normalizedScore, js_accumulate_huge]
    rfl

/-- C22, amended: with a model loaded and a feature array whose last element (the
DNS signal) is `>= 0`, if the score accumulated by the loop of `predictPhishing`
is a finite number (it did not overflow to an infinity or `NaN`), then
`predictPhishing` returns `isPhishing = true`: the normalized score is never
negative, so `riskScore >= 0.5`, which meets the threshold 0.5; and
`legitimatePercentage` does not exceed 50. -/
theorem predictPhishing_nonnegative_dns_no_overflow (model : Model (JsNumber ℝ))
    (fs : List (JsNumber ℝ)) (d : JsNumber ℝ) (S : ℝ)
    (hd : JsNumber.ge d (.finite 0) = true)
    (hS : (IEEE.accumulate (fs ++ [d]) (model.feature_importances.getD [])).1 = .finite S) :
    ∃ (p : Prediction (JsNumber ℝ)) (r l : ℝ),
      IEEE.predictPhishing Real.exp (some model) (fs ++ [d]) = .ok p ∧
      JsNumber.ge (IEEE.normalizedScore (fs ++ [d]) (model.feature_importances.getD []))
        (.finite 0) = true ∧
      p.riskScore = JsNumber.div (.finite 1) (JsNumber.add (.finite 1) (JsNumber.exp Real.exp
        (JsNumber.mul
          (JsNumber.neg (IEEE.normalizedScore (fs ++ [d]) (model.feature_importances.getD [])))
          (.finite 5)))) ∧
      p.threshold = .finite 0.5 ∧ p.riskScore = .finite r ∧ 0.5 ≤ r ∧ p.isPhishing = true ∧
      p.legitimatePercentage = .finite l ∧ l ≤ 50 := by
  obtain ⟨r, hlo, hhi, hns, hr, hp⟩ := js_predictPhishing_finite_score model (fs ++ [d]) S hS
  have hr2 : (0.5 : ℝ) ≤ r := by norm_num; linarith
  rw [js_dnsIsNegative_concat fs d hd] at hp
  simp only [Bool.false_eq_true, if_false, PHISHING_THRESHOLD] at hp
  refine ⟨_, r, _, hp, hns, hr.symm, rfl, rfl, hr2, ?_, rfl, ?_⟩
  · simpa [JsNumber.ge] using hr2
  · apply max_le (by norm_num)
    exact le_trans (min_le_right _ _) (by linarith)

/-- Witness for C22, amended: the DNS-failure default 1 as last element, with
the weights `[2, 3]`. -/
theorem predictPhishing_nonnegative_dns_no_overflow_witness :
    JsNumber.ge (.finite 1 : JsNumber ℝ) (.finite 0) = true ∧
    (IEEE.accumulate ([.finite 1] ++ [.finite 1])
      ((IEEE.plainModel : Model (JsNumber ℝ)).feature_importances.getD [])).1 = .finite 5 ∧
    ∃ (p : Prediction (JsNumber ℝ)) (r l : ℝ),
      IEEE.predictPhishing Real.exp (some IEEE.plainModel) ([.finite 1] ++ [.finite 1]) = .ok p ∧
      JsNumber.ge (IEEE.normalizedScore ([.finite 1] ++ [.finite 1])
        ((IEEE.plainModel : Model (JsNumber ℝ)).feature_importances.getD [])) (.finite 0) = true ∧
      p.riskScore = JsNumber.div (.finite 1) (JsNumber.add (.finite 1) (JsNumber.exp Real.exp
        (JsNumber.mul
          (JsNumber.neg (IEEE.normalizedScore ([.finite 1] ++ [.finite 1])
            ((IEEE.plainModel : Model (JsNumber ℝ)).feature_importances.getD [])))
          (.finite 5)))) ∧
      p.threshold = .finite 0.5 ∧ p.riskScore = .finite r ∧ 0.5 ≤ r ∧ p.isPhishing = true ∧
      p.legitimatePercentage = .finite l ∧ l ≤ 50 :=
  ⟨by simp [JsNumber.ge], congrArg Prod.fst js_accumulate_plain,
    predictPhishing_nonnegative_dns_no_overflow IEEE.plainModel [.finite 1] (.finite 1) 5
      (by simp [JsNumber.ge]) (congrArg Prod.fst js_accumulate_plain)⟩

end OverflowClaims

end PhishingDetection
